import Mathlib

/-! MACH composer: generator and commercetools plugin

A shallow embedding of

* `internal/generator/component.go` (component rendering and remote-state links),
* `internal/generator/writer.go` (`FileLocations`, `WriteFiles`),
* `internal/plugins/commercetools/plugin.go` (the commercetools plugin),

followed by the properties established about them.

Conventions.  A Go `error` is carried by its message, so `fmt.Errorf` becomes
string concatenation and a `(T, error)` result becomes `Except Error T`.  Loops that
append to a slice are written as recursive functions with the slice as accumulator.
Types and functions that the embedded files use but that are declared elsewhere
(configuration types, the state repository, templates, the lock file package, the
operating system) are taken as parameters: record fields or the fields of an
environment structure.
-/

set_option autoImplicit false

namespace MachComposer

/-- A Go `error`, identified with its message. -/
abbrev Error := String

/-! ## Configuration types (the fields the embedded code reads) -/

/-- A value of a variable or secret: a literal, or a reference to an output of another
component. -/
inductive VarValue where
  | scalar (content : String)
  | componentRef (component : String) (output : String)
  deriving DecidableEq, Repr

/-- The type of `SiteComponentConfig.Variables` and `.Secrets`: a map from names to values. -/
structure SiteComponentVars where
  entries : List (String × VarValue)
  deriving DecidableEq, Repr

/-- Go's `len(vars)`. -/
def SiteComponentVars.len (v : SiteComponentVars) : Nat := v.entries.length

/-- The component definition, `siteComponent.Definition`; `IsGitSource` is the result of the
method of that name. -/
structure ComponentConfig where
  Source : String
  Version : String
  Integrations : List String
  IsGitSource : Bool
  deriving DecidableEq, Repr

/-- The type `config.SiteComponentConfig`; `DeploymentType` is `Deployment.Type`. -/
structure SiteComponentConfig where
  Name : String
  Definition : ComponentConfig
  Variables : SiteComponentVars
  Secrets : SiteComponentVars
  DeploymentType : String
  deriving DecidableEq, Repr

/-- The type `config.SiteConfig`. -/
structure SiteConfig where
  Identifier : String
  Components : List SiteComponentConfig
  deriving DecidableEq, Repr

/-- What `RenderTerraformComponent` of a plugin returns when it contributes. -/
structure ComponentSchema where
  Resources : String
  Variables : String
  Providers : List String
  DependsOn : List String
  deriving DecidableEq, Repr

/-- A plugin as the generator sees it: its name and its render calls. -/
structure PluginHandler where
  Name : String
  RenderTerraformProviders : String → Except Error String
  RenderTerraformResources : String → Except Error String
  RenderTerraformComponent : String → String → Except Error (Option ComponentSchema)

/-- The plugin registry `cfg.Plugins`: `Names(names...)` and `Get(name)`. -/
structure PluginRepository where
  Names : List String → List PluginHandler
  Get : String → Except Error PluginHandler

/-- The state repository `cfg.StateRepository` as the generator reads it:
`Has(identifier)`, `Key(name)`, and the two snippets `Get(key).Backend()` and
`Get(key).RemoteState()`. -/
structure StateRepository where
  Has : String → Bool
  Key : String → Option String
  Backend : String → Except Error String
  RemoteState : String → Except Error String

/-- An encrypted file source of a site. -/
structure FileSource where
  Filename : String
  deriving DecidableEq, Repr

/-- The variables registry `cfg.Variables`. -/
structure VariablesRepository where
  HasEncrypted : String → Bool
  GetEncryptedSources : String → List FileSource

/-- The type `config.MachConfig`; `Environment`, `TerraformStateProvider` and
`TerraformRemoteState` are `Global.Environment`, `Global.TerraformStateProvider` and
`Global.TerraformConfig.RemoteState`. -/
structure MachConfig where
  Filename : String
  Environment : String
  TerraformStateProvider : String
  TerraformRemoteState : List (String × String)
  Sites : List SiteConfig
  Plugins : PluginRepository
  StateRepository : StateRepository
  Variables : VariablesRepository

/-! ## `component.go` -/

/-- The struct `componentContext`. -/
structure componentContext where
  ComponentName : String
  ComponentVersion : String
  ComponentHash : String
  ComponentVariables : String
  ComponentSecrets : String
  SiteName : String
  Environment : String
  Source : String
  PluginResources : List String
  PluginProviders : List String
  PluginDependsOn : List String
  PluginVariables : List String
  HasCloudIntegration : Bool
  deriving DecidableEq, Repr

/-- The anonymous template context of `renderSiteComponentTerraformConfig`. -/
structure terraformContext where
  Providers : List String
  BackendConfig : String
  IncludeSOPS : Bool
  deriving DecidableEq, Repr

/-- Functions of the generator package and of the configuration package that
`component.go` calls and that are declared in other files. -/
structure GenEnv where
  /-- The method `ListReferencedComponents` of a variables map. -/
  ListReferencedComponents : SiteComponentVars → List String
  /-- The method `siteComponent.Hash()`. -/
  Hash : SiteComponentConfig → Except Error String
  /-- The method `siteComponent.HasCloudIntegration(&cfg.Global)`. -/
  HasCloudIntegration : SiteComponentConfig → Bool
  /-- The function `serializeToHCL(name, vars, deploymentType, stateRepository)`. -/
  serializeToHCL : String → SiteComponentVars → String → StateRepository → Except Error String
  /-- The call `templates.ReadFile(name)`. -/
  ReadFile : String → Except Error String
  /-- The call `utils.RenderGoTemplate` on the terraform configuration context. -/
  RenderTerraformTemplate : String → terraformContext → Except Error String
  /-- The call `utils.RenderGoTemplate` on a list of resources. -/
  RenderResourcesTemplate : String → List String → Except Error String
  /-- The call `utils.RenderGoTemplate` on a component context. -/
  RenderComponentTemplate : String → componentContext → Except Error String

/-- Go's `slices.Compact`: every run of consecutive equal elements is replaced by one copy. -/
def slicesCompact : List String → List String
  | [] => []
  | [a] => [a]
  | a :: b :: rest => if a = b then slicesCompact (b :: rest) else a :: slicesCompact (b :: rest)

/-- Go's `strings.Join`. -/
def stringsJoin (elems : List String) (sep : String) : String := sep.intercalate elems

/-- The provider loop of `renderSiteComponentTerraformConfig` (lines 77-85). -/
def providersLoop (siteIdentifier : String) :
    List PluginHandler → List String → Except Error (List String)
  | [], providers => .ok providers
  | plugin :: rest, providers =>
    match plugin.RenderTerraformProviders siteIdentifier with
    | .error err => .error ("plugin " ++ plugin.Name ++ " failed to render providers: " ++ err)
    | .ok content =>
      providersLoop siteIdentifier rest (if content ≠ "" then providers ++ [content] else providers)

/-- The function `renderSiteComponentTerraformConfig`. -/
def renderSiteComponentTerraformConfig (env : GenEnv) (cfg : MachConfig) (site : SiteConfig)
    (siteComponent : SiteComponentConfig) : Except Error String :=
  match providersLoop site.Identifier (cfg.Plugins.Names siteComponent.Definition.Integrations) [] with
  | .error err => .error err
  | .ok providers =>
    if !cfg.StateRepository.Has site.Identifier then
      .error ("state repository does not have a backend for site " ++ site.Identifier)
    else
      match cfg.StateRepository.Backend siteComponent.Name with
      | .error err => .error err
      | .ok backendConfig =>
        match env.ReadFile "templates/terraform.tmpl" with
        | .error err => .error err
        | .ok tpl =>
          env.RenderTerraformTemplate tpl
            { Providers := providers
              BackendConfig := backendConfig
              IncludeSOPS := cfg.Variables.HasEncrypted site.Identifier }

/-- The resource loop of `renderSiteComponentResources` (lines 114-123). -/
def resourcesLoop (siteIdentifier : String) :
    List PluginHandler → List String → Except Error (List String)
  | [], resources => .ok resources
  | plugin :: rest, resources =>
    match plugin.RenderTerraformResources siteIdentifier with
    | .error err => .error ("plugin " ++ plugin.Name ++ " failed to render resources: " ++ err)
    | .ok content =>
      resourcesLoop siteIdentifier rest (if content ≠ "" then resources ++ [content] else resources)

/-- The function `renderSiteComponentResources`. -/
def renderSiteComponentResources (env : GenEnv) (cfg : MachConfig) (site : SiteConfig)
    (siteComponent : SiteComponentConfig) : Except Error String :=
  match resourcesLoop site.Identifier (cfg.Plugins.Names siteComponent.Definition.Integrations) [] with
  | .error err => .error err
  | .ok resources =>
    match env.ReadFile "templates/resources.tmpl" with
    | .error err => .error err
    | .ok tpl => env.RenderResourcesTemplate tpl resources

/-- The plugin loop of `renderComponentModule` (lines 153-172). -/
def componentPluginLoop (cfg : MachConfig) (siteIdentifier componentName : String) :
    List PluginHandler → componentContext → Except Error componentContext
  | [], tc => .ok tc
  | plugin :: rest, tc =>
    match cfg.Plugins.Get plugin.Name with
    | .error err => .error err
    | .ok plugin =>
      match plugin.RenderTerraformComponent siteIdentifier componentName with
      | .error err =>
        .error ("plugin " ++ plugin.Name ++ " failed to render siteComponent: " ++ err)
      | .ok none => componentPluginLoop cfg siteIdentifier componentName rest tc
      | .ok (some cr) =>
        componentPluginLoop cfg siteIdentifier componentName rest
          { tc with
            PluginResources := tc.PluginResources ++ [cr.Resources]
            PluginVariables := tc.PluginVariables ++ [cr.Variables]
            PluginProviders := tc.PluginProviders ++ cr.Providers
            PluginDependsOn := tc.PluginDependsOn ++ cr.DependsOn }

/-- Lines 179-183 of `renderComponentModule`: the cloud-integration placeholders. -/
def setCloudIntegration (env : GenEnv) (siteComponent : SiteComponentConfig)
    (tc : componentContext) : componentContext :=
  if env.HasCloudIntegration siteComponent then
    { tc with
      HasCloudIntegration := true
      ComponentVariables := "variables = \x7b\x7d"
      ComponentSecrets := "secrets = \x7b\x7d" }
  else tc

/-- Lines 185-191 of `renderComponentModule`: the serialized variables. -/
def setComponentVariables (env : GenEnv) (cfg : MachConfig) (siteComponent : SiteComponentConfig)
    (tc : componentContext) : Except Error componentContext :=
  if siteComponent.Variables.len > 0 then
    match env.serializeToHCL "variables" siteComponent.Variables siteComponent.DeploymentType
        cfg.StateRepository with
    | .error err => .error err
    | .ok val => .ok { tc with ComponentVariables := val }
  else .ok tc

/-- Lines 192-198 of `renderComponentModule`: the serialized secrets. -/
def setComponentSecrets (env : GenEnv) (cfg : MachConfig) (siteComponent : SiteComponentConfig)
    (tc : componentContext) : Except Error componentContext :=
  if siteComponent.Secrets.len > 0 then
    match env.serializeToHCL "secrets" siteComponent.Secrets siteComponent.DeploymentType
        cfg.StateRepository with
    | .error err => .error err
    | .ok val => .ok { tc with ComponentSecrets := val }
  else .ok tc

/-- Lines 200-205 of `renderComponentModule`: the Git reference. -/
def setGitSource (siteComponent : SiteComponentConfig) (tc : componentContext) :
    componentContext :=
  if siteComponent.Definition.IsGitSource then
    { tc with Source := tc.Source ++ ("?ref=" ++ siteComponent.Definition.Version) }
  else tc

/-- Lines 135-205 of `renderComponentModule`: the template that is read and the component
context `tc` that is handed to it. -/
def componentModuleContext (env : GenEnv) (cfg : MachConfig) (site : SiteConfig)
    (siteComponent : SiteComponentConfig) : Except Error (String × componentContext) :=
  match env.Hash siteComponent with
  | .error err => .error err
  | .ok hash =>
    let tc : componentContext :=
      { ComponentName := siteComponent.Name
        ComponentVersion := siteComponent.Definition.Version
        ComponentHash := hash
        ComponentVariables := ""
        ComponentSecrets := ""
        SiteName := site.Identifier
        Environment := cfg.Environment
        Source := siteComponent.Definition.Source
        PluginResources := []
        PluginProviders := []
        PluginDependsOn := []
        PluginVariables := []
        HasCloudIntegration := false }
    match componentPluginLoop cfg site.Identifier siteComponent.Name
        (cfg.Plugins.Names siteComponent.Definition.Integrations) tc with
    | .error err => .error err
    | .ok tc =>
      match env.ReadFile "templates/site_component.tmpl" with
      | .error err => .error err
      | .ok tpl =>
        let tc := setCloudIntegration env siteComponent tc
        match setComponentVariables env cfg siteComponent tc with
        | .error err => .error err
        | .ok tc =>
          match setComponentSecrets env cfg siteComponent tc with
          | .error err => .error err
          | .ok tc => .ok (tpl, setGitSource siteComponent tc)

/-- The function `renderComponentModule`. -/
def renderComponentModule (env : GenEnv) (cfg : MachConfig) (site : SiteConfig)
    (siteComponent : SiteComponentConfig) : Except Error String :=
  match componentModuleContext env cfg site siteComponent with
  | .error err => .error err
  | .ok (tpl, tc) =>
    match env.RenderComponentTemplate tpl tc with
    | .error err => .error ("renderSiteTerraformConfig: " ++ err)
    | .ok val => .ok val

/-- The first loop of `renderRemoteSources` (lines 220-227): the key of every parent. -/
def linksLoop (cfg : MachConfig) : List String → List String → Except Error (List String)
  | [], links => .ok links
  | parent :: rest, links =>
    match cfg.StateRepository.Key parent with
    | none => .error ("missing remoteState for " ++ parent)
    | some key => linksLoop cfg rest (links ++ [key])

/-- The second loop of `renderRemoteSources` (lines 233-240): the snippet of every link. -/
def remoteStateLoop (cfg : MachConfig) : List String → List String → Except Error (List String)
  | [], result => .ok result
  | link :: rest, result =>
    match cfg.StateRepository.RemoteState link with
    | .error err => .error err
    | .ok remoteState => remoteStateLoop cfg rest (result ++ [remoteState])

/-- Lines 215-218 of `renderRemoteSources`: the referenced components. -/
def remoteSourceParents (env : GenEnv) (component : SiteComponentConfig) : List String :=
  env.ListReferencedComponents component.Variables ++
    env.ListReferencedComponents component.Secrets

/-- Lines 215-229 of `renderRemoteSources`: the keys whose snippets are emitted, in order. -/
def remoteSourceLinks (env : GenEnv) (cfg : MachConfig) (component : SiteComponentConfig) :
    Except Error (List String) :=
  match linksLoop cfg (remoteSourceParents env component) [] with
  | .error err => .error err
  | .ok links => .ok (slicesCompact links)

/-- The function `renderRemoteSources`. -/
def renderRemoteSources (env : GenEnv) (cfg : MachConfig) (component : SiteComponentConfig) :
    Except Error String :=
  match remoteSourceLinks env cfg component with
  | .error err => .error err
  | .ok links =>
    match remoteStateLoop cfg links [] with
    | .error err => .error err
    | .ok result => .ok (stringsJoin result "\n")

/-! ## `writer.go` -/

/-- The struct `GenerateOptions`. -/
structure GenerateOptions where
  OutputPath : String
  Site : String
  deriving DecidableEq, Repr

/-- Assignment `m[k] = v` on a Go map, kept as an association list without repeated keys. -/
def mapSet {β : Type} : List (String × β) → String → β → List (String × β)
  | [], k, v => [(k, v)]
  | (k', v') :: rest, k, v => if k' = k then (k, v) :: rest else (k', v') :: mapSet rest k v

/-- The two-valued lookup `v, ok := m[k]` on a Go map. -/
def mapFind {β : Type} : List (String × β) → String → Option β
  | [], _ => none
  | (k', v') :: rest, k => if k' = k then some v' else mapFind rest k

/-- The lookup `m[k]` on a Go `map[string]string`: the empty string when the key is absent. -/
def mapGet (m : List (String × String)) (k : String) : String := (mapFind m k).getD ""

/-- Go's `strings.TrimSuffix`. -/
def stringsTrimSuffix (s suffix : String) : String :=
  if suffix.data.isSuffixOf s.data then
    String.mk (s.data.take (s.data.length - suffix.data.length))
  else s

/-- A state renderer (`state.Renderer`): its key and its two snippets. -/
structure Renderer where
  Key : String
  Backend : Except Error String
  RemoteState : Except Error String

/-- What `WriteFiles` does to the world outside its own variables, in the order it does it.
An operation that can fail is recorded with whether it succeeded. -/
inductive Event where
  | addRenderer (site : String) (key : String)
  | info (msg : String)
  | error (msg : String)
  | renderSite (site : String) (ok : Bool)
  | mkdirAll (path : String) (ok : Bool)
  | writeFile (filename : String) (content : String) (ok : Bool)
  | copyFile (src : String) (dst : String) (ok : Bool)
  | lockUpdate (site : String) (ok : Bool)
  | writeLock (site : String) (ok : Bool)
  deriving DecidableEq, Repr

/-- The packages `writer.go` calls: `path/filepath`, `regexp`, `hclwrite`, `hclparse`, `os`,
`state`, `lockfile`, and `renderSite` of the generator.  `σ` is the state of the file system
(lock files included) and `L` the type of a lock, `*lockfile.LockFile`.  An operation that
writes returns the new state together with its error, if any; an operation that only reads
returns its result. -/
structure WriteEnv (σ L : Type) where
  /-- The function `filepath.Join` on two elements. -/
  Join : String → String → String
  /-- The function `filepath.Base`. -/
  Base : String → String
  /-- The function `filepath.Ext`. -/
  Ext : String → String
  /-- The call `regexp.MustCompile(pattern).ReplaceAll(src, repl)`. -/
  ReplaceAll : String → String → String → String
  /-- The function `hclwrite.Format`. -/
  Format : String → String
  /-- Whether `hclparse.NewParser().ParseHCL(src, filename)` reports errors. -/
  ParseHCLHasErrors : String → String → Bool
  /-- The function `state.NewRenderer(type, identifier, remoteState)`. -/
  NewRenderer : String → String → List (String × String) → Except Error Renderer
  /-- The call `cfg.StateRepository.Add(key, renderer)`. -/
  Add : StateRepository → String → Renderer → Except Error StateRepository
  /-- The function `lockfile.GetLock(cfg, path)`, which reads. -/
  GetLock : MachConfig → σ → String → Except Error L
  /-- The method `lock.HasChanges(cfg)`. -/
  HasChanges : L → MachConfig → Bool
  /-- The method `lock.Update(cfg)`, which changes the lock in memory. -/
  Update : L → MachConfig → Except Error L
  /-- The function `lockfile.WriteLock(lock)`. -/
  WriteLock : σ → L → σ × Option Error
  /-- The function `renderSite(ctx, cfg, site)`. -/
  renderSite : MachConfig → SiteConfig → Except Error String
  /-- The function `os.MkdirAll(path, 0700)`. -/
  MkdirAll : σ → String → σ × Option Error
  /-- The function `os.WriteFile(filename, data, 0700)`. -/
  WriteFile : σ → String → String → σ × Option Error
  /-- The function `os.Open(path)`: its error, if any. -/
  Open : σ → String → Option Error
  /-- The function `ioutil.ReadAll` on the file opened at a path. -/
  ReadAll : σ → String → Except Error String
  /-- The function `os.Create(path)`. -/
  Create : σ → String → σ × Option Error
  /-- The method `Write(contents)` of the file created at a path. -/
  Write : σ → String → String → σ × Option Error

/-- The state `WriteFiles` acts on: the file system, the state repository of `cfg`, and the
record of what has been done. -/
structure World (σ : Type) where
  ext : σ
  repo : StateRepository
  trace : List Event

/-- Append an event to the record. -/
def World.emit {σ : Type} (w : World σ) (e : Event) : World σ :=
  { w with trace := w.trace ++ [e] }

/-- The selection test `options.Site != "" && site.Identifier != options.Site` of both loops:
true when the site is skipped. -/
def skipSite (options : GenerateOptions) (site : SiteConfig) : Bool :=
  options.Site ≠ "" && site.Identifier ≠ options.Site

/-- The loop of `FileLocations` (lines 107-113). -/
def locationsLoop {σ L : Type} (env : WriteEnv σ L) (options : GenerateOptions)
    (sitesPath : String) : List SiteConfig → List (String × String) → List (String × String)
  | [], locations => locations
  | site :: rest, locations =>
    if skipSite options site then locationsLoop env options sitesPath rest locations
    else
      locationsLoop env options sitesPath rest
        (mapSet locations site.Identifier (env.Join sitesPath site.Identifier))

/-- Lines 102-103 of `FileLocations`: the directory that holds the site directories. -/
def sitesPath {σ L : Type} (env : WriteEnv σ L) (cfg : MachConfig) (options : GenerateOptions) :
    String :=
  env.Join options.OutputPath (stringsTrimSuffix (env.Base cfg.Filename) (env.Ext cfg.Filename))

/-- The function `FileLocations`. -/
def FileLocations {σ L : Type} (env : WriteEnv σ L) (cfg : MachConfig)
    (options : GenerateOptions) : List (String × String) :=
  locationsLoop env options (sitesPath env cfg options) cfg.Sites []

/-- The function `formatFile`. -/
def formatFile {σ L : Type} (env : WriteEnv σ L) (src : String) : String :=
  let src := env.ReplaceAll "(?m)^\\s*" src ""
  let src := env.ReplaceAll "(?m)\\s*$" src ""
  let src := env.ReplaceAll "(?m)\x7b$\\s+\x7d$" src "\x7b\x7d"
  let src := env.ReplaceAll "(?m)\\[$\\s+\\]$" src "[]"
  let src := env.Format src
  let src := env.ReplaceAll "(?m)^\x7d$" src "\x7d\n"
  src

/-- The function `validateFile`: its error, if any. -/
def validateFile {σ L : Type} (env : WriteEnv σ L) (src : String) : Option Error :=
  if env.ParseHCLHasErrors src "site.tf" then some "generated HCL is invalid" else none

/-- The function `copyFile`. -/
def copyFile {σ L : Type} (env : WriteEnv σ L) (s : σ) (srcPath dstPath : String) :
    σ × Option Error :=
  match env.Open s srcPath with
  | some err => (s, some err)
  | none =>
    match env.ReadAll s srcPath with
    | .error err => (s, some err)
    | .ok srcContents =>
      match env.Create s dstPath with
      | (s, some err) => (s, some err)
      | (s, none) =>
        match env.Write s dstPath srcContents with
        | (s, some err) => (s, some err)
        | (s, none) => (s, none)

/-- The loop over the encrypted file sources in `WriteFiles` (lines 83-89). -/
def copyLoop {σ L : Type} (env : WriteEnv σ L) (path : String) :
    List FileSource → World σ → World σ × Option Error
  | [], w => (w, none)
  | fs :: rest, w =>
    let target := env.Join path fs.Filename
    let w := w.emit (.info ("Copying " ++ target))
    match copyFile env w.ext fs.Filename target with
    | (s, some err) =>
      (({ w with ext := s } : World σ).emit (.copyFile fs.Filename target false),
        some ("error writing extra file: " ++ err))
    | (s, none) =>
      copyLoop env path rest
        (({ w with ext := s } : World σ).emit (.copyFile fs.Filename target true))

/-- Lines 91-96 of `WriteFiles`: the lock is updated, then persisted. -/
def commitLock {σ L : Type} (env : WriteEnv σ L) (cfg : MachConfig) (site : SiteConfig)
    (lock : L) (w : World σ) : World σ × Option Error :=
  match env.Update lock cfg with
  | .error err => (w.emit (.lockUpdate site.Identifier false), some err)
  | .ok lock =>
    let w := w.emit (.lockUpdate site.Identifier true)
    match env.WriteLock w.ext lock with
    | (s, some err) =>
      (({ w with ext := s } : World σ).emit (.writeLock site.Identifier false), some err)
    | (s, none) =>
      (({ w with ext := s } : World σ).emit (.writeLock site.Identifier true), none)

/-- Lines 75-96 of `WriteFiles`: the directory is created, `site.tf` is written, the file
sources are copied, and the lock is committed. -/
def writeOutput {σ L : Type} (env : WriteEnv σ L) (cfg : MachConfig) (site : SiteConfig)
    (path filename formatted : String) (lock : L) (w : World σ) : World σ × Option Error :=
  match env.MkdirAll w.ext path with
  | (s, some err) =>
    (({ w with ext := s } : World σ).emit (.mkdirAll path false),
      some ("error creating directory structure: " ++ err))
  | (s, none) =>
    let w := ({ w with ext := s } : World σ).emit (.mkdirAll path true)
    match env.WriteFile w.ext filename formatted with
    | (s, some err) =>
      (({ w with ext := s } : World σ).emit (.writeFile filename formatted false),
        some ("error writing file: " ++ err))
    | (s, none) =>
      let w := ({ w with ext := s } : World σ).emit (.writeFile filename formatted true)
      match copyLoop env path (cfg.Variables.GetEncryptedSources site.Identifier) w with
      | (w, some err) => (w, some err)
      | (w, none) => commitLock env cfg site lock w

/-- Lines 67-73 of `WriteFiles`: the formatted output is validated, and a failure is
logged. -/
def logValidation {σ L : Type} (env : WriteEnv σ L) (formatted : String) (w : World σ) :
    World σ :=
  match validateFile env formatted with
  | some _ =>
    w.emit (.error ("The generated terraform code is invalid. " ++
      "This is a bug in mach composer. Please report the issue at " ++
      "https://github.com/mach-composer/mach-composer-cli"))
  | none => w

/-- Lines 59-96 of `WriteFiles`: what is done for a site whose lock has changes. -/
def generateSite {σ L : Type} (env : WriteEnv σ L) (cfg : MachConfig) (site : SiteConfig)
    (path : String) (lock : L) (w : World σ) : World σ × Option Error :=
  let filename := env.Join path "site.tf"
  let w := w.emit (.info ("Writing " ++ filename))
  match env.renderSite cfg site with
  | .error err => (w.emit (.renderSite site.Identifier false), some err)
  | .ok body =>
    let w := w.emit (.renderSite site.Identifier true)
    let formatted := formatFile env body
    let w := logValidation env formatted w
    writeOutput env cfg site path filename formatted lock w

/-- The body of the loop of `WriteFiles` (lines 31-96) for one site: the world after it and
the error it returns with, if any.  `cfg.StateRepository` is the repository of the world. -/
def writeSite {σ L : Type} (env : WriteEnv σ L) (cfg : MachConfig) (options : GenerateOptions)
    (locations : List (String × String)) (w : World σ) (site : SiteConfig) :
    World σ × Option Error :=
  match env.NewRenderer cfg.TerraformStateProvider site.Identifier cfg.TerraformRemoteState with
  | .error err => (w, some err)
  | .ok renderer =>
    match env.Add w.repo renderer.Key renderer with
    | .error err => (w, some err)
    | .ok repo =>
      let w := ({ w with repo := repo } : World σ).emit (.addRenderer site.Identifier renderer.Key)
      if skipSite options site then (w, none)
      else
        let cfg := { cfg with StateRepository := w.repo }
        let path := mapGet locations site.Identifier
        match env.GetLock cfg w.ext path with
        | .error err => (w, some err)
        | .ok lock =>
          if !env.HasChanges lock cfg then
            (w.emit (.info ("Files for site " ++ site.Identifier ++ " are up-to-date")), none)
          else generateSite env cfg site path lock w

/-- The loop of `WriteFiles` over the sites: it stops at the first error. -/
def sitesLoop {σ L : Type} (env : WriteEnv σ L) (cfg : MachConfig) (options : GenerateOptions)
    (locations : List (String × String)) : List SiteConfig → World σ → World σ × Option Error
  | [], w => (w, none)
  | site :: rest, w =>
    match writeSite env cfg options locations w site with
    | (w, some err) => (w, some err)
    | (w, none) => sitesLoop env cfg options locations rest w

/-- The world in which `WriteFiles` starts: the file system `s`, the state repository of
`cfg`, and an empty record. -/
def initialWorld {σ : Type} (cfg : MachConfig) (s : σ) : World σ :=
  { ext := s, repo := cfg.StateRepository, trace := [] }

/-- The function `WriteFiles`, started on the file system `s` with an empty record: the
world it leaves and the result it returns. -/
def WriteFiles {σ L : Type} (env : WriteEnv σ L) (cfg : MachConfig) (options : GenerateOptions)
    (s : σ) : World σ × Except Error (List (String × String)) :=
  let locations := FileLocations env cfg options
  match sitesLoop env cfg options locations cfg.Sites (initialWorld cfg s) with
  | (w, some err) => (w, .error err)
  | (w, none) => (w, .ok locations)

/-! ## `plugins/commercetools/plugin.go` -/

namespace Commercetools

/-- The per-component configuration of the plugin (`ComponentConfig`). -/
structure ComponentConfig where
  StoreVariables : List (String × List (String × String))
  StoreSecrets : List (String × List (String × String))
  deriving DecidableEq, Repr

/-- The per-site configuration of the plugin (`SiteConfig`); `Frontend` tells whether the
deprecated frontend block is present. -/
structure SiteConfig where
  ProjectKey : String
  APIURL : String
  TokenURL : String
  Stores : List String
  Frontend : Bool
  Components : List (String × ComponentConfig)
  deriving DecidableEq, Repr

/-- The struct `CommercetoolsPlugin`; the map `siteConfigs` is an association list. -/
structure CommercetoolsPlugin where
  environment : String
  provider : String
  siteConfigs : List (String × SiteConfig)
  deriving DecidableEq, Repr

/-- The anonymous template context of `TerraformRenderComponentVars`. -/
structure varsContext where
  Site : SiteConfig
  Component : Option ComponentConfig
  deriving DecidableEq, Repr

/-- What `plugin.go` calls and is declared elsewhere; `Payload` is `map[string]any`. -/
structure PluginEnv (Payload : Type) where
  /-- The call `mapstructure.Decode(data, &cfg)` on a site configuration. -/
  DecodeSite : Payload → SiteConfig → Except Error SiteConfig
  /-- The call `mapstructure.Decode(data, &cfg)` on a component configuration. -/
  DecodeComponent : Payload → ComponentConfig → Except Error ComponentConfig
  /-- The call `defaults.Set(&cfg)`. -/
  SetDefaults : SiteConfig → Except Error SiteConfig
  /-- The function `shared.VersionConstraint`. -/
  VersionConstraint : String → String
  /-- The function `renderResources` of the package. -/
  renderResources : SiteConfig → Except Error String
  /-- The method `getComponentSiteConfig` of a site configuration. -/
  getComponentSiteConfig : SiteConfig → String → Option ComponentConfig
  /-- The function `shared.RenderGoTemplate` on the context of the component variables. -/
  RenderGoTemplate : String → varsContext → Except Error String

/-- The function `NewCommercetoolsPlugin`. -/
def NewCommercetoolsPlugin : CommercetoolsPlugin :=
  { environment := "", provider := "0.30.0", siteConfigs := [] }

/-- The method `Configure`. -/
def Configure (p : CommercetoolsPlugin) (environment provider : String) : CommercetoolsPlugin :=
  let p := { p with environment := environment }
  if provider ≠ "" then { p with provider := provider } else p

/-- The method `IsEnabled`. -/
def IsEnabled (p : CommercetoolsPlugin) : Bool := p.siteConfigs.length > 0

/-- The method `Identifier`. -/
def Identifier (_p : CommercetoolsPlugin) : String := "commercetools"

/-- The method `getSiteConfig`; `none` is the nil pointer. -/
def getSiteConfig (p : CommercetoolsPlugin) (site : String) : Option SiteConfig :=
  mapFind p.siteConfigs site

/-- The method `SetSiteConfig`; the deprecation warning is not recorded. -/
def SetSiteConfig {Payload : Type} (env : PluginEnv Payload) (p : CommercetoolsPlugin)
    (site : String) (data : Payload) : Except Error CommercetoolsPlugin :=
  let cfg : SiteConfig :=
    { ProjectKey := "", APIURL := "", TokenURL := "", Stores := [], Frontend := false,
      Components := [] }
  match env.DecodeSite data cfg with
  | .error err => .error err
  | .ok cfg =>
    match env.SetDefaults cfg with
    | .error err => .error err
    | .ok cfg => .ok { p with siteConfigs := mapSet p.siteConfigs site cfg }

/-- The method `SetSiteComponentConfig`. -/
def SetSiteComponentConfig {Payload : Type} (env : PluginEnv Payload) (p : CommercetoolsPlugin)
    (site component : String) (data : Payload) : Except Error CommercetoolsPlugin :=
  match getSiteConfig p site with
  | none => .error "no site config found"
  | some siteConfig =>
    match env.DecodeComponent data { StoreVariables := [], StoreSecrets := [] } with
    | .error err => .error err
    | .ok cfg =>
      .ok { p with
            siteConfigs := mapSet p.siteConfigs site
              { siteConfig with Components := mapSet siteConfig.Components component cfg } }

/-- The method `TerraformRenderStateBackend`. -/
def TerraformRenderStateBackend (_p : CommercetoolsPlugin) (_site : String) :
    Except Error String := .ok ""

/-- The method `TerraformRenderProviders`. -/
def TerraformRenderProviders {Payload : Type} (env : PluginEnv Payload) (p : CommercetoolsPlugin)
    (site : String) : Except Error String :=
  match getSiteConfig p site with
  | none => .ok ""
  | some _ =>
    .ok ("\n\t\tcommercetools = \x7b\n\t\tsource = \"labd/commercetools\"\n\t\tversion = \"" ++
      env.VersionConstraint p.provider ++ "\"\n\t\t\x7d\n\t")

/-- The method `TerraformRenderResources`. -/
def TerraformRenderResources {Payload : Type} (env : PluginEnv Payload) (p : CommercetoolsPlugin)
    (site : String) : Except Error String :=
  match getSiteConfig p site with
  | none => .ok ""
  | some cfg =>
    match env.renderResources cfg with
    | .error err => .error err
    | .ok content => .ok content

/-- The method `TerraformRenderComponentResources`. -/
def TerraformRenderComponentResources (_p : CommercetoolsPlugin) (_site _component : String) :
    Except Error String := .ok ""

/-- The template of `TerraformRenderComponentVars`. -/
def componentVarsTemplate : String :=
  "\n\t\tct_project_key    = \x7b\x7b .Site.ProjectKey|printf \"%q\" \x7d\x7d" ++
  "\n\t\tct_api_url        = \x7b\x7b .Site.APIURL|printf \"%q\" \x7d\x7d" ++
  "\n\t\tct_auth_url       = \x7b\x7b .Site.TokenURL|printf \"%q\" \x7d\x7d" ++
  "\n" ++
  "\n\t\tct_stores = \x7b" ++
  "\n\t\t\t\x7b\x7b $component := .Component \x7d\x7d" ++
  "\n\t\t\t\x7b\x7b range $store := .Site.Stores \x7d\x7d" ++
  "\n\t\t\t\t\x7b\x7b $store.Key \x7d\x7d =  \x7b" ++
  "\n\t\t\t\t\tkey = \x7b\x7b $store.Key|printf \"%q\" \x7d\x7d" ++
  "\n\t\t\t\t\tvariables = \x7b" ++
  "\n\t\t\t\t\t\t\x7b\x7b range $key, $value := index $component.StoreVariables $store.Key \x7d\x7d" ++
  "\n\t\t\t\t\t\t\x7b\x7b $key \x7d\x7d = \x7b\x7b $value|printf \"%#v\" \x7d\x7d" ++
  "\n\t\t\t\t\t\t\x7b\x7b end \x7d\x7d" ++
  "\n\t\t\t\t\t\x7d" ++
  "\n\t\t\t\t\tsecrets = \x7b" ++
  "\n\t\t\t\t\t\t\x7b\x7b range $key, $value := index $component.StoreSecrets $store.Key \x7d\x7d" ++
  "\n\t\t\t\t\t\t\x7b\x7b $key \x7d\x7d = \x7b\x7b $value|printf \"%#v\" \x7d\x7d" ++
  "\n\t\t\t\t\t\t\x7b\x7b end \x7d\x7d" ++
  "\n\t\t\t\t\t\x7d" ++
  "\n\t\t\t\t\x7d" ++
  "\n\t\t\t\x7b\x7b end \x7d\x7d" ++
  "\n\t\t\x7d" ++
  "\n\t"

/-- The method `TerraformRenderComponentVars`. -/
def TerraformRenderComponentVars {Payload : Type} (env : PluginEnv Payload)
    (p : CommercetoolsPlugin) (site component : String) : Except Error String :=
  match getSiteConfig p site with
  | none => .ok ""
  | some cfg =>
    env.RenderGoTemplate componentVarsTemplate
      { Site := cfg, Component := env.getComponentSiteConfig cfg component }

/-- The method `TerraformRenderComponentDependsOn`. -/
def TerraformRenderComponentDependsOn (_p : CommercetoolsPlugin) (_site _component : String) :
    Except Error (List String) := .ok ["null_resource.commercetools"]

/-- The method `TerraformRenderComponentProviders`. -/
def TerraformRenderComponentProviders (_p : CommercetoolsPlugin) (_site _component : String) :
    Except Error (List String) := .ok []

end Commercetools

/-! ## Example configurations -/

/-- Modelled from the spec: the method `ListReferencedComponents` is declared outside the
embedded files; by section 4.4 it collects the names of the components that the values
reference, each once, in first-seen order. -/
def listReferencedComponents (v : SiteComponentVars) : List String :=
  v.entries.foldl
    (fun seen e =>
      match e.2 with
      | .componentRef c _ => if c ∈ seen then seen else seen ++ [c]
      | .scalar _ => seen)
    []

/-- A state repository that knows the components `A` and `B`, each under its own name. -/
def exampleRepository : StateRepository :=
  { Has := fun identifier => identifier = "A" || identifier = "B"
    Key := fun name => if name = "A" ∨ name = "B" then some name else none
    Backend := fun key => .ok ("backend " ++ key)
    RemoteState := fun key => .ok ("remote_state " ++ key) }

/-- An environment for `component.go` with simple stand-ins for the templates. -/
def exampleGenEnv : GenEnv :=
  { ListReferencedComponents := listReferencedComponents
    Hash := fun c => .ok ("hash-" ++ c.Name)
    HasCloudIntegration := fun c => "aws" ∈ c.Definition.Integrations
    serializeToHCL := fun name v _ _ =>
      .ok (name ++ " = \x7b " ++ ", ".intercalate (v.entries.map (fun e => e.1)) ++ " \x7d")
    ReadFile := fun name => .ok name
    RenderTerraformTemplate := fun _ tc => .ok tc.BackendConfig
    RenderResourcesTemplate := fun _ rs => .ok ("\n".intercalate rs)
    RenderComponentTemplate := fun _ tc => .ok (tc.ComponentVariables ++ "\n" ++ tc.ComponentSecrets) }

/-- A configuration without plugins over `exampleRepository`. -/
def exampleConfig : MachConfig :=
  { Filename := "main.yml"
    Environment := "test"
    TerraformStateProvider := "local"
    TerraformRemoteState := []
    Sites := []
    Plugins := { Names := fun _ => [], Get := fun name => .error ("plugin not found: " ++ name) }
    StateRepository := exampleRepository
    Variables := { HasEncrypted := fun _ => false, GetEncryptedSources := fun _ => [] } }

/-- A component whose variables reference `A` then `B` and whose secrets reference `A`. -/
def componentABA : SiteComponentConfig :=
  { Name := "C"
    Definition := { Source := "mach/c", Version := "1.0", Integrations := [], IsGitSource := false }
    Variables := { entries := [("x", .componentRef "A" "out"), ("y", .componentRef "B" "out")] }
    Secrets := { entries := [("z", .componentRef "A" "token")] }
    DeploymentType := "site" }

/-- A component whose variables reference `A` and then the unregistered component `Z`. -/
def componentAZ : SiteComponentConfig :=
  { Name := "C"
    Definition := { Source := "mach/c", Version := "1.0", Integrations := [], IsGitSource := false }
    Variables := { entries := [("x", .componentRef "A" "out"), ("y", .componentRef "Z" "out")] }
    Secrets := { entries := [] }
    DeploymentType := "site" }

/-- A plugin whose provider render call fails. -/
def failingPlugin : PluginHandler :=
  { Name := "sentry"
    RenderTerraformProviders := fun _ => .error "no DSN configured"
    RenderTerraformResources := fun _ => .ok ""
    RenderTerraformComponent := fun _ _ => .ok none }

/-- A plugin that contributes the provider alias `aws.mach` to every component. -/
def awsPlugin : PluginHandler :=
  { Name := "aws"
    RenderTerraformProviders := fun _ => .ok "aws = \x7b\x7d"
    RenderTerraformResources := fun _ => .ok ""
    RenderTerraformComponent := fun _ _ =>
      .ok (some { Resources := "", Variables := "aws_region = \"eu-west-1\"",
                  Providers := ["aws.mach"], DependsOn := [] }) }

/-- A second plugin that contributes the same provider alias `aws.mach`. -/
def awsEdgePlugin : PluginHandler :=
  { Name := "aws-edge"
    RenderTerraformProviders := fun _ => .ok ""
    RenderTerraformResources := fun _ => .ok ""
    RenderTerraformComponent := fun _ _ =>
      .ok (some { Resources := "", Variables := "", Providers := ["aws.mach"],
                  DependsOn := ["null_resource.edge"] }) }

/-- The registry of the three example plugins. -/
def examplePlugins : PluginRepository :=
  { Get := fun name =>
      if name = "sentry" then .ok failingPlugin
      else if name = "aws" then .ok awsPlugin
      else if name = "aws-edge" then .ok awsEdgePlugin
      else .error ("plugin not found: " ++ name)
    Names := fun names =>
      names.filterMap (fun name =>
        if name = "sentry" then some failingPlugin
        else if name = "aws" then some awsPlugin
        else if name = "aws-edge" then some awsEdgePlugin
        else none) }

/-- The example configuration with the three example plugins registered. -/
def pluginConfig : MachConfig := { exampleConfig with Plugins := examplePlugins }

/-- A site for which `exampleRepository` has no backend. -/
def siteS : SiteConfig := { Identifier := "S", Components := [] }

/-- A site for which `exampleRepository` has a backend. -/
def siteA : SiteConfig := { Identifier := "A", Components := [] }

/-- A component that integrates the plugin whose provider render call fails. -/
def sentryComponent : SiteComponentConfig :=
  { Name := "C"
    Definition :=
      { Source := "mach/c", Version := "1.0", Integrations := ["sentry"], IsGitSource := false }
    Variables := { entries := [] }
    Secrets := { entries := [] }
    DeploymentType := "site" }

/-- A component that integrates `aws`, which makes it cloud-integrated in `exampleGenEnv`,
and declares one variable and no secret. -/
def awsComponent : SiteComponentConfig :=
  { Name := "C"
    Definition :=
      { Source := "mach/c", Version := "1.0", Integrations := ["aws"], IsGitSource := false }
    Variables := { entries := [("size", .scalar "10")] }
    Secrets := { entries := [] }
    DeploymentType := "site" }

/-- A component that integrates both `aws` and `aws-edge`. -/
def awsEdgeComponent : SiteComponentConfig :=
  { Name := "C"
    Definition :=
      { Source := "mach/c", Version := "1.0", Integrations := ["aws", "aws-edge"],
        IsGitSource := false }
    Variables := { entries := [] }
    Secrets := { entries := [] }
    DeploymentType := "site" }

/-- The contributions that the plugin loop of `renderComponentModule` collects: the results
of the plugins, in order, that are neither an error nor nil. -/
def componentContributions (cfg : MachConfig) (siteIdentifier componentName : String)
    (plugins : List PluginHandler) : List ComponentSchema :=
  plugins.filterMap (fun plugin =>
    match cfg.Plugins.Get plugin.Name with
    | .error _ => none
    | .ok plugin =>
      match plugin.RenderTerraformComponent siteIdentifier componentName with
      | .ok (some cr) => some cr
      | _ => none)

/-- The provider aliases of a list of contributions, one list after the other. -/
def concatProviders (crs : List ComponentSchema) : List String :=
  crs.foldl (fun acc cr => acc ++ cr.Providers) []

/-- The context that `renderComponentModule` builds for `awsComponent` at site `A`. -/
def awsComponentContext : componentContext :=
  { ComponentName := "C"
    ComponentVersion := "1.0"
    ComponentHash := "hash-C"
    ComponentVariables := "variables = \x7b size \x7d"
    ComponentSecrets := "secrets = \x7b\x7d"
    SiteName := "A"
    Environment := "test"
    Source := "mach/c"
    PluginResources := [""]
    PluginProviders := ["aws.mach"]
    PluginDependsOn := []
    PluginVariables := ["aws_region = \"eu-west-1\""]
    HasCloudIntegration := true }

/-- The context that `renderComponentModule` builds for `awsEdgeComponent` at site `A`. -/
def awsEdgeComponentContext : componentContext :=
  { ComponentName := "C"
    ComponentVersion := "1.0"
    ComponentHash := "hash-C"
    ComponentVariables := "variables = \x7b\x7d"
    ComponentSecrets := "secrets = \x7b\x7d"
    SiteName := "A"
    Environment := "test"
    Source := "mach/c"
    PluginResources := ["", ""]
    PluginProviders := ["aws.mach", "aws.mach"]
    PluginDependsOn := ["null_resource.edge"]
    PluginVariables := ["aws_region = \"eu-west-1\"", ""]
    HasCloudIntegration := true }

/-- The events recorded in `w2` after those of `w`. -/
def World.since {σ : Type} (w2 w : World σ) : List Event := w2.trace.drop w.trace.length

/-- The event records a failed directory creation, a failed write of `site.tf`, or a failed
copy of a file source. -/
def Event.isFailedWrite : Event → Bool
  | .mkdirAll _ false => true
  | .writeFile _ _ false => true
  | .copyFile _ _ false => true
  | _ => false

/-- The event records a call of `lock.Update` or of `lockfile.WriteLock`. -/
def Event.isLockEvent : Event → Bool
  | .lockUpdate _ _ => true
  | .writeLock _ _ => true
  | _ => false

/-- The event is one of those the copy loop records: a log line or a copy. -/
def Event.isCopyStep : Event → Bool
  | .info _ => true
  | .copyFile _ _ _ => true
  | _ => false

/-- The operations that create directories and write files leave every lock as
`lockfile.GetLock` reads it. -/
def LockFrame {σ L : Type} (env : WriteEnv σ L) : Prop :=
  ∀ (s : σ) (c : MachConfig) (q : String),
    (∀ p, env.GetLock c (env.MkdirAll s p).1 q = env.GetLock c s q) ∧
    (∀ f d, env.GetLock c (env.WriteFile s f d).1 q = env.GetLock c s q) ∧
    (∀ p, env.GetLock c (env.Create s p).1 q = env.GetLock c s q) ∧
    (∀ p d, env.GetLock c (env.Write s p d).1 q = env.GetLock c s q)

/-- The file system of the example environment: the files, and the lock records by
directory. -/
structure ExampleFS where
  files : List (String × String)
  locks : List (String × String)
  deriving DecidableEq, Repr

/-- The lock of the example environment: its directory and the fingerprint it holds. -/
structure ExampleLock where
  path : String
  hash : Option String
  deriving DecidableEq, Repr

/-- The fingerprint of a configuration in the example environment. -/
def exampleFingerprint (cfg : MachConfig) : String := "fingerprint of " ++ cfg.Filename

/-- The renderer of a site in the example environment; its key is the site identifier. -/
def exampleRenderer (identifier : String) : Renderer :=
  { Key := identifier
    Backend := .ok ("backend " ++ identifier)
    RemoteState := .ok ("remote_state " ++ identifier) }

/-- The state repository `repo` with a renderer registered under `key`. -/
def exampleAdd (repo : StateRepository) (key : String) (renderer : Renderer) : StateRepository :=
  { Has := fun identifier => identifier = key || repo.Has identifier
    Key := fun name => if name = key then some key else repo.Key name
    Backend := fun k => if k = key then renderer.Backend else repo.Backend k
    RemoteState := fun k => if k = key then renderer.RemoteState else repo.RemoteState k }

/-- An in-memory environment for `writer.go`.  Directories and files whose path is in
`denied` cannot be created or written, and `invalid` tells whether the parser reports
errors. -/
def exampleWriteEnv (denied : List String) (invalid : Bool) : WriteEnv ExampleFS ExampleLock :=
  { Join := fun a b => a ++ "/" ++ b
    Base := fun p => String.mk (p.data.reverse.takeWhile (fun ch => ch ≠ '/')).reverse
    Ext := fun p =>
      let name := p.data.reverse.takeWhile (fun ch => ch ≠ '/')
      if '.' ∈ name then String.mk ('.' :: (name.takeWhile (fun ch => ch ≠ '.')).reverse) else ""
    ReplaceAll := fun _ src _ => src
    Format := fun src => src
    ParseHCLHasErrors := fun _ _ => invalid
    NewRenderer := fun _ identifier _ => .ok (exampleRenderer identifier)
    Add := fun repo key renderer => .ok (exampleAdd repo key renderer)
    GetLock := fun _ s path => .ok { path := path, hash := mapFind s.locks path }
    HasChanges := fun lock cfg => lock.hash ≠ some (exampleFingerprint cfg)
    Update := fun lock cfg => .ok { lock with hash := some (exampleFingerprint cfg) }
    WriteLock := fun s lock => ({ s with locks := mapSet s.locks lock.path (lock.hash.getD "") }, none)
    renderSite := fun _ site => .ok ("# site " ++ site.Identifier)
    MkdirAll := fun s path => if path ∈ denied then (s, some "permission denied") else (s, none)
    WriteFile := fun s filename data =>
      if filename ∈ denied then (s, some "permission denied")
      else ({ s with files := mapSet s.files filename data }, none)
    Open := fun s path => if (mapFind s.files path).isSome then none else some "no such file"
    ReadAll := fun s path =>
      match mapFind s.files path with
      | some contents => .ok contents
      | none => .error "no such file"
    Create := fun s path =>
      if path ∈ denied then (s, some "permission denied")
      else ({ s with files := mapSet s.files path "" }, none)
    Write := fun s path contents => ({ s with files := mapSet s.files path contents }, none) }

/-- A configuration with the two sites `A` and `S`, in the file `conf/main.yml`. -/
def twoSiteConfig : MachConfig :=
  { exampleConfig with
    Filename := "conf/main.yml"
    Sites := [siteA, siteS]
    StateRepository :=
      { Has := fun _ => false, Key := fun _ => none
        Backend := fun key => .error ("no renderer for " ++ key)
        RemoteState := fun key => .error ("no renderer for " ++ key) } }

/-- Options that select every site and write below `out`. -/
def allSites : GenerateOptions := { OutputPath := "out", Site := "" }

/-- Options that select the site `S` only. -/
def onlySiteS : GenerateOptions := { OutputPath := "out", Site := "S" }

/-- A file system without files in which the lock of site `A` holds the current fingerprint
of `twoSiteConfig`. -/
def cleanAFS : ExampleFS :=
  { files := [], locks := [("out/main/A", "fingerprint of conf/main.yml")] }

/-- A file system without files and without locks. -/
def emptyFS : ExampleFS := { files := [], locks := [] }

/-- The world after the iteration of `WriteFiles` for the site `A` of `twoSiteConfig`, started
on `cleanAFS`: the renderer of `A` is registered and nothing else has been done. -/
def worldAfterA : World ExampleFS :=
  { ext := cleanAFS
    repo := exampleAdd twoSiteConfig.StateRepository "A" (exampleRenderer "A")
    trace := [.addRenderer "A" "A", .info "Files for site A are up-to-date"] }

/-- The world `w` with the events `t` put before its record. -/
def World.retrace {σ : Type} (w : World σ) (t : List Event) : World σ :=
  { w with trace := t ++ w.trace }

/-- The environment `env` with another parser verdict. -/
def withVerdict {σ L : Type} (env : WriteEnv σ L) (verdict : String → String → Bool) :
    WriteEnv σ L :=
  { env with ParseHCLHasErrors := verdict }

/-- The site whose state renderer the event records as added, if it records that. -/
def Event.addedSite : Event → Option String
  | .addRenderer site _ => some site
  | _ => none

/-- The site whose rendering the event records, if it records that. -/
def Event.renderedSite : Event → Option String
  | .renderSite site _ => some site
  | _ => none

/-- The sites for which a record shows a state renderer added to the state repository, in
the order of the additions. -/
def addedSites (trace : List Event) : List String := trace.filterMap Event.addedSite

/-- The state repository after the first lines of the iterations of `WriteFiles` (lines
31-43) for the given sites, in order: a renderer is made for each site and added under
its key. -/
def registerSites {σ L : Type} (env : WriteEnv σ L) (cfg : MachConfig) :
    List SiteConfig → StateRepository → Except Error StateRepository
  | [], repo => .ok repo
  | site :: rest, repo =>
    match env.NewRenderer cfg.TerraformStateProvider site.Identifier cfg.TerraformRemoteState with
    | .error err => .error err
    | .ok renderer =>
      match env.Add repo renderer.Key renderer with
      | .error err => .error err
      | .ok repo => registerSites env cfg rest repo

/-- A step of `copyFile` fails for one of the file sources when they are copied in order into
`path`, starting on the file system `s`: `os.Open`, `ioutil.ReadAll`, `os.Create` or `Write`
returns an error for it, the sources before it having been copied. -/
def copyFails {σ L : Type} (env : WriteEnv σ L) (path : String) : List FileSource → σ → Prop
  | [], _ => False
  | fs :: rest, s =>
    (∃ err, env.Open s fs.Filename = some err) ∨
    (env.Open s fs.Filename = none ∧
      ((∃ err, env.ReadAll s fs.Filename = .error err) ∨
        ∃ contents, env.ReadAll s fs.Filename = .ok contents ∧
          ((∃ s1 err, env.Create s (env.Join path fs.Filename) = (s1, some err)) ∨
            ∃ s1, env.Create s (env.Join path fs.Filename) = (s1, none) ∧
              ((∃ s2 err, env.Write s1 (env.Join path fs.Filename) contents = (s2, some err)) ∨
                ∃ s2, env.Write s1 (env.Join path fs.Filename) contents = (s2, none) ∧
                  copyFails env path rest s2))))

/-- Every step of `copyFile` succeeds for every file source when they are copied in order
into `path`, starting on the file system `s`. -/
def copiesSucceed {σ L : Type} (env : WriteEnv σ L) (path : String) :
    List FileSource → σ → Prop
  | [], _ => True
  | fs :: rest, s =>
    env.Open s fs.Filename = none ∧
      ∃ contents s1 s2, env.ReadAll s fs.Filename = .ok contents ∧
        env.Create s (env.Join path fs.Filename) = (s1, none) ∧
        env.Write s1 (env.Join path fs.Filename) contents = (s2, none) ∧
        copiesSucceed env path rest s2

/-- Creating the directory `path`, writing `filename` or copying one of the file sources
fails, on the file system `s`: `os.MkdirAll` returns an error, or it succeeds and
`os.WriteFile` returns an error, or both succeed and a copy fails. -/
def outputFails {σ L : Type} (env : WriteEnv σ L) (path filename formatted : String)
    (sources : List FileSource) (s : σ) : Prop :=
  (∃ s1 err, env.MkdirAll s path = (s1, some err)) ∨
    ∃ s1, env.MkdirAll s path = (s1, none) ∧
      ((∃ s2 err, env.WriteFile s1 filename formatted = (s2, some err)) ∨
        ∃ s2, env.WriteFile s1 filename formatted = (s2, none) ∧
          copyFails env path sources s2)

/-- The file system after the copy loop of `WriteFiles` (lines 83-89) on `s`: the file
sources are copied in order until a copy fails. -/
def copiedState {σ L : Type} (env : WriteEnv σ L) (path : String) : List FileSource → σ → σ
  | [], s => s
  | fs :: rest, s =>
    match copyFile env s fs.Filename (env.Join path fs.Filename) with
    | (s1, some _) => s1
    | (s1, none) => copiedState env path rest s1

/-- What the copy loop of `WriteFiles` records when every copy succeeds. -/
def copyEvents {σ L : Type} (env : WriteEnv σ L) (path : String) : List FileSource → List Event
  | [] => []
  | fs :: rest =>
    .info ("Copying " ++ env.Join path fs.Filename) ::
      .copyFile fs.Filename (env.Join path fs.Filename) true :: copyEvents env path rest

/-- What lines 67-73 of `WriteFiles` record: the error line when `validateFile` fails on the
formatted output, nothing otherwise. -/
def validationLog {σ L : Type} (env : WriteEnv σ L) (formatted : String) : List Event :=
  match validateFile env formatted with
  | some _ =>
    [.error ("The generated terraform code is invalid. " ++
      "This is a bug in mach composer. Please report the issue at " ++
      "https://github.com/mach-composer/mach-composer-cli")]
  | none => []

/-- The file operations that `WriteFiles` performs for the sites of `cfg` leave the lock of
the directory `q` as `lockfile.GetLock` reads it: creating a site directory, writing its
`site.tf`, copying a file source into it, and writing the lock of a site directory other
than `q`. -/
def LockIsolated {σ L : Type} (env : WriteEnv σ L) (cfg : MachConfig)
    (locations : List (String × String)) (q : String) : Prop :=
  ∀ (s : σ) (c : MachConfig) (x : SiteConfig), x ∈ cfg.Sites →
    env.GetLock c (env.MkdirAll s (mapGet locations x.Identifier)).1 q = env.GetLock c s q ∧
    (∀ d, env.GetLock c
        (env.WriteFile s (env.Join (mapGet locations x.Identifier) "site.tf") d).1 q =
      env.GetLock c s q) ∧
    (∀ fs ∈ cfg.Variables.GetEncryptedSources x.Identifier,
      env.GetLock c (env.Create s (env.Join (mapGet locations x.Identifier) fs.Filename)).1 q =
          env.GetLock c s q ∧
        ∀ d, env.GetLock c
            (env.Write s (env.Join (mapGet locations x.Identifier) fs.Filename) d).1 q =
          env.GetLock c s q) ∧
    (mapGet locations x.Identifier ≠ q →
      ∀ (c1 : MachConfig) (s1 : σ) (l0 : L) (c2 : MachConfig) (l : L),
        env.GetLock c1 s1 (mapGet locations x.Identifier) = .ok l0 →
        env.Update l0 c2 = .ok l →
        env.GetLock c (env.WriteLock s l).1 q = env.GetLock c s q)

/-- An in-memory environment for `writer.go` in which the lock of a directory is the file
`.mach-composer.lock` inside it.  The file system is the list of files with their contents;
files whose path is in `denied` cannot be created or written, and neither can a directory. -/
def fileLockEnv (denied : List String) : WriteEnv (List (String × String)) ExampleLock :=
  { Join := fun a b => a ++ "/" ++ b
    Base := fun p => String.mk (p.data.reverse.takeWhile (fun ch => ch ≠ '/')).reverse
    Ext := fun p =>
      let name := p.data.reverse.takeWhile (fun ch => ch ≠ '/')
      if '.' ∈ name then String.mk ('.' :: (name.takeWhile (fun ch => ch ≠ '.')).reverse) else ""
    ReplaceAll := fun _ src _ => src
    Format := fun src => src
    ParseHCLHasErrors := fun _ _ => false
    NewRenderer := fun _ identifier _ => .ok (exampleRenderer identifier)
    Add := fun repo key renderer => .ok (exampleAdd repo key renderer)
    GetLock := fun _ s path =>
      .ok { path := path, hash := mapFind s (path ++ "/.mach-composer.lock") }
    HasChanges := fun lock cfg => lock.hash ≠ some (exampleFingerprint cfg)
    Update := fun lock cfg => .ok { lock with hash := some (exampleFingerprint cfg) }
    WriteLock := fun s lock =>
      (mapSet s (lock.path ++ "/.mach-composer.lock") (lock.hash.getD ""), none)
    renderSite := fun _ site => .ok ("# site " ++ site.Identifier)
    MkdirAll := fun s path => if path ∈ denied then (s, some "permission denied") else (s, none)
    WriteFile := fun s filename data =>
      if filename ∈ denied then (s, some "permission denied")
      else (mapSet s filename data, none)
    Open := fun s path => if (mapFind s path).isSome then none else some "no such file"
    ReadAll := fun s path =>
      match mapFind s path with
      | some contents => .ok contents
      | none => .error "no such file"
    Create := fun s path =>
      if path ∈ denied then (s, some "permission denied") else (mapSet s path "", none)
    Write := fun s path contents => (mapSet s path contents, none) }

/-- The configuration `twoSiteConfig` in which the site `S` has the encrypted file source
`secrets.enc.yaml`. -/
def sourceConfig : MachConfig :=
  { twoSiteConfig with
    Variables :=
      { HasEncrypted := fun identifier => identifier = "S"
        GetEncryptedSources := fun identifier =>
          if identifier = "S" then [{ Filename := "secrets.enc.yaml" }] else [] } }

/-- A file system that holds the file source of `S` and the lock of `A` with the current
fingerprint of `sourceConfig`. -/
def sourceFiles : List (String × String) :=
  [("secrets.enc.yaml", "sops"), ("out/main/A/.mach-composer.lock", "fingerprint of conf/main.yml")]

/-- The world after the iteration of `WriteFiles` for the site `A` of `sourceConfig`, started
on `sourceFiles`. -/
def sourceWorldAfterA : World (List (String × String)) :=
  { ext := sourceFiles
    repo := exampleAdd sourceConfig.StateRepository "A" (exampleRenderer "A")
    trace := [.addRenderer "A" "A", .info "Files for site A are up-to-date"] }

/-- The world after the iteration of `WriteFiles` for the site `A` of `twoSiteConfig` when
only `S` is selected, started on `emptyFS`: the renderer of `A` is registered. -/
def worldAfterSkippedA : World ExampleFS :=
  { ext := emptyFS
    repo := exampleAdd twoSiteConfig.StateRepository "A" (exampleRenderer "A")
    trace := [.addRenderer "A" "A"] }

/-- The file system that lines 75-89 of `WriteFiles` leave on `s`: the directory is created,
`filename` is written and the file sources are copied, up to the first operation that
fails.  No lock is written. -/
def outputState {σ L : Type} (env : WriteEnv σ L) (path filename formatted : String)
    (sources : List FileSource) (s : σ) : σ :=
  match env.MkdirAll s path with
  | (s1, some _) => s1
  | (s1, none) =>
    match env.WriteFile s1 filename formatted with
    | (s2, some _) => s2
    | (s2, none) => copiedState env path sources s2

/-! ## Properties of `renderRemoteSources` -/

theorem linksLoop_append_ok (cfg : MachConfig) (parents links : List String) :
    (∀ p ∈ parents, cfg.StateRepository.Key p ≠ none) →
      ∃ keys, linksLoop cfg parents links = .ok (links ++ keys) := by
  induction parents generalizing links with
  | nil => intro _; exact ⟨[], by simp [linksLoop]⟩
  | cons p rest ih =>
    intro h
    have hp := h p (List.mem_cons_self _ _)
    cases hk : cfg.StateRepository.Key p with
    | none => exact absurd hk hp
    | some key =>
      obtain ⟨keys, hkeys⟩ := ih (links ++ [key]) (fun q hq => h q (List.mem_cons_of_mem _ hq))
      exact ⟨key :: keys, by simp [linksLoop, hk, hkeys]⟩

theorem linksLoop_first_missing (cfg : MachConfig) (pre : List String) (q : String)
    (post links : List String) (hpre : ∀ p ∈ pre, cfg.StateRepository.Key p ≠ none)
    (hq : cfg.StateRepository.Key q = none) :
    linksLoop cfg (pre ++ q :: post) links = .error ("missing remoteState for " ++ q) := by
  induction pre generalizing links with
  | nil => simp [linksLoop, hq]
  | cons p rest ih =>
    have hp := hpre p (List.mem_cons_self _ _)
    cases hk : cfg.StateRepository.Key p with
    | none => exact absurd hk hp
    | some key =>
      simp only [List.cons_append, linksLoop, hk]
      exact ih (links ++ [key]) (fun x hx => hpre x (List.mem_cons_of_mem _ hx))

/-- Every list with an element that has no key splits at the first such element. -/
theorem exists_first_missing (cfg : MachConfig) (parents : List String)
    (h : ∃ p ∈ parents, cfg.StateRepository.Key p = none) :
    ∃ pre q post, parents = pre ++ q :: post ∧
      (∀ p ∈ pre, cfg.StateRepository.Key p ≠ none) ∧ cfg.StateRepository.Key q = none := by
  induction parents with
  | nil => obtain ⟨p, hp, _⟩ := h; cases hp
  | cons a rest ih =>
    cases ha : cfg.StateRepository.Key a with
    | none => exact ⟨[], a, rest, rfl, by simp, ha⟩
    | some key =>
      obtain ⟨p, hp, hk⟩ := h
      have hrest : ∃ p ∈ rest, cfg.StateRepository.Key p = none := by
        rcases List.mem_cons.mp hp with rfl | hmem
        · rw [ha] at hk; cases hk
        · exact ⟨p, hmem, hk⟩
      obtain ⟨pre, q, post, hsplit, hpre, hq⟩ := ih hrest
      refine ⟨a :: pre, q, post, by simp [hsplit], ?_, hq⟩
      intro x hx
      rcases List.mem_cons.mp hx with rfl | hmem
      · simp [ha]
      · exact hpre x hmem

/-- C1: at the component whose variables reference `A` then `B` and whose secrets reference
`A` again, `renderRemoteSources` emits the snippet of key `A` twice: the keys it renders are
`A`, `B`, `A`, since `slices.Compact` only removes repetitions that are adjacent. -/
theorem renderRemoteSources_repeats_key :
    remoteSourceParents exampleGenEnv componentABA = ["A", "B", "A"] ∧
      remoteSourceLinks exampleGenEnv exampleConfig componentABA = .ok ["A", "B", "A"] ∧
      renderRemoteSources exampleGenEnv exampleConfig componentABA =
        .ok "remote_state A\nremote_state B\nremote_state A" := by
  refine ⟨by decide, by rfl, by rfl⟩

/-- C3: if a component referenced by the variables or secrets has no key in the state
repository, `renderRemoteSources` returns the error that names the first referenced
component without a key, and no text; hence it returns text only when every referenced
component has a key. -/
theorem renderRemoteSources_missing_key (env : GenEnv) (cfg : MachConfig)
    (component : SiteComponentConfig) :
    ((∃ p ∈ remoteSourceParents env component, cfg.StateRepository.Key p = none) →
      ∃ pre q post, remoteSourceParents env component = pre ++ q :: post ∧
        (∀ p ∈ pre, cfg.StateRepository.Key p ≠ none) ∧ cfg.StateRepository.Key q = none ∧
        renderRemoteSources env cfg component = .error ("missing remoteState for " ++ q)) ∧
    (∀ text, renderRemoteSources env cfg component = .ok text →
      ∀ p ∈ remoteSourceParents env component, cfg.StateRepository.Key p ≠ none) := by
  have key : (∃ p ∈ remoteSourceParents env component, cfg.StateRepository.Key p = none) →
      ∃ pre q post, remoteSourceParents env component = pre ++ q :: post ∧
        (∀ p ∈ pre, cfg.StateRepository.Key p ≠ none) ∧ cfg.StateRepository.Key q = none ∧
        renderRemoteSources env cfg component = .error ("missing remoteState for " ++ q) := by
    intro h
    obtain ⟨pre, q, post, hsplit, hpre, hq⟩ := exists_first_missing cfg _ h
    refine ⟨pre, q, post, hsplit, hpre, hq, ?_⟩
    simp [renderRemoteSources, remoteSourceLinks, hsplit,
      linksLoop_first_missing cfg pre q post [] hpre hq]
  refine ⟨key, ?_⟩
  intro text htext p hp hk
  obtain ⟨_, q, _, _, _, _, herr⟩ := key ⟨p, hp, hk⟩
  rw [herr] at htext
  cases htext

/-- C3 at `componentAZ`: `Z` has no key, and the error names `Z`. -/
theorem renderRemoteSources_missing_key_witness :
    renderRemoteSources exampleGenEnv exampleConfig componentAZ =
      .error "missing remoteState for Z" := by
  obtain ⟨pre, q, post, hsplit, hpre, hq, herr⟩ :=
    (renderRemoteSources_missing_key exampleGenEnv exampleConfig componentAZ).1
      ⟨"Z", by decide, by decide⟩
  have hqZ : q = "Z" := by
    have hmem : q ∈ remoteSourceParents exampleGenEnv componentAZ := by
      rw [hsplit]; simp
    have hparents : remoteSourceParents exampleGenEnv componentAZ = ["A", "Z"] := by decide
    rw [hparents] at hmem
    rcases List.mem_cons.mp hmem with rfl | hmem
    · exact absurd hq (by decide)
    · simpa using hmem
  rw [herr, hqZ]
  rfl

/-! ## Properties of `renderSiteComponentTerraformConfig` -/

theorem providersLoop_all_ok (siteIdentifier : String) (plugins : List PluginHandler)
    (providers : List String)
    (h : ∀ plugin ∈ plugins, ∃ content, plugin.RenderTerraformProviders siteIdentifier = .ok content) :
    ∃ result, providersLoop siteIdentifier plugins providers = .ok result := by
  induction plugins generalizing providers with
  | nil => exact ⟨providers, rfl⟩
  | cons plugin rest ih =>
    obtain ⟨content, hcontent⟩ := h plugin (List.mem_cons_self _ _)
    simp only [providersLoop, hcontent]
    exact ih _ (fun q hq => h q (List.mem_cons_of_mem _ hq))

theorem providersLoop_first_error (siteIdentifier : String) (pre : List PluginHandler)
    (plugin : PluginHandler) (post : List PluginHandler) (providers : List String) (err : Error)
    (hpre : ∀ q ∈ pre, ∃ content, q.RenderTerraformProviders siteIdentifier = .ok content)
    (herr : plugin.RenderTerraformProviders siteIdentifier = .error err) :
    providersLoop siteIdentifier (pre ++ plugin :: post) providers =
      .error ("plugin " ++ plugin.Name ++ " failed to render providers: " ++ err) := by
  induction pre generalizing providers with
  | nil => simp [providersLoop, herr]
  | cons q rest ih =>
    obtain ⟨content, hcontent⟩ := hpre q (List.mem_cons_self _ _)
    simp only [List.cons_append, providersLoop, hcontent]
    exact ih _ (fun x hx => hpre x (List.mem_cons_of_mem _ hx))

/-- C2, as stated, fails: at a site without backend and a component whose plugin fails to
render its providers, the error is the one of the plugin, not the missing-backend error. -/
theorem renderSiteComponentTerraformConfig_plugin_error_first :
    pluginConfig.StateRepository.Has siteS.Identifier = false ∧
      renderSiteComponentTerraformConfig exampleGenEnv pluginConfig siteS sentryComponent =
        .error "plugin sentry failed to render providers: no DSN configured" ∧
      renderSiteComponentTerraformConfig exampleGenEnv pluginConfig siteS sentryComponent ≠
        .error "state repository does not have a backend for site S" := by
  refine ⟨by decide, by rfl, ?_⟩
  intro h
  have h2 : renderSiteComponentTerraformConfig exampleGenEnv pluginConfig siteS sentryComponent =
      .error "plugin sentry failed to render providers: no DSN configured" := by rfl
  rw [h2] at h
  exact absurd (Except.error.inj h) (by decide)

/-- C2, amended: when the state repository has no backend for the identifier of the site,
`renderSiteComponentTerraformConfig` fails with the missing-backend error naming that
identifier provided every provider render call of the plugins of the component succeeds;
these calls come first, and when one of them fails the result is the error of the first
plugin that fails. -/
theorem renderSiteComponentTerraformConfig_missing_backend (env : GenEnv) (cfg : MachConfig)
    (site : SiteConfig) (siteComponent : SiteComponentConfig)
    (hHas : cfg.StateRepository.Has site.Identifier = false) :
    ((∀ plugin ∈ cfg.Plugins.Names siteComponent.Definition.Integrations,
        ∃ content, plugin.RenderTerraformProviders site.Identifier = .ok content) →
      renderSiteComponentTerraformConfig env cfg site siteComponent =
        .error ("state repository does not have a backend for site " ++ site.Identifier)) ∧
    (∀ pre plugin post err,
      cfg.Plugins.Names siteComponent.Definition.Integrations = pre ++ plugin :: post →
      (∀ q ∈ pre, ∃ content, q.RenderTerraformProviders site.Identifier = .ok content) →
      plugin.RenderTerraformProviders site.Identifier = .error err →
      renderSiteComponentTerraformConfig env cfg site siteComponent =
        .error ("plugin " ++ plugin.Name ++ " failed to render providers: " ++ err)) := by
  constructor
  · intro hall
    obtain ⟨providers, hproviders⟩ := providersLoop_all_ok site.Identifier _ [] hall
    simp [renderSiteComponentTerraformConfig, hproviders, hHas]
  · intro pre plugin post err hsplit hpre herr
    simp [renderSiteComponentTerraformConfig, hsplit,
      providersLoop_first_error site.Identifier pre plugin post [] err hpre herr]

/-- C2 at the site `S` without backend and a component that integrates `aws`, whose
provider render call succeeds. -/
theorem renderSiteComponentTerraformConfig_missing_backend_witness :
    renderSiteComponentTerraformConfig exampleGenEnv pluginConfig siteS awsComponent =
      .error ("state repository does not have a backend for site " ++ siteS.Identifier) :=
  (renderSiteComponentTerraformConfig_missing_backend exampleGenEnv pluginConfig siteS
    awsComponent (by decide)).1
    (by
      intro plugin hplugin
      have hnames : pluginConfig.Plugins.Names awsComponent.Definition.Integrations =
          [awsPlugin] := by rfl
      rw [hnames] at hplugin
      rw [List.mem_singleton.mp hplugin]
      exact ⟨_, rfl⟩)

/-! ## Properties of `renderComponentModule` -/

theorem setCloudIntegration_providers (env : GenEnv) (siteComponent : SiteComponentConfig)
    (tc : componentContext) :
    (setCloudIntegration env siteComponent tc).PluginProviders = tc.PluginProviders := by
  unfold setCloudIntegration
  split <;> rfl

theorem setComponentVariables_providers (env : GenEnv) (cfg : MachConfig)
    (siteComponent : SiteComponentConfig) (tc tc2 : componentContext)
    (h : setComponentVariables env cfg siteComponent tc = .ok tc2) :
    tc2.PluginProviders = tc.PluginProviders := by
  unfold setComponentVariables at h
  split at h
  · split at h
    · cases h
    · cases h; rfl
  · cases h; rfl

theorem setComponentSecrets_providers (env : GenEnv) (cfg : MachConfig)
    (siteComponent : SiteComponentConfig) (tc tc2 : componentContext)
    (h : setComponentSecrets env cfg siteComponent tc = .ok tc2) :
    tc2.PluginProviders = tc.PluginProviders := by
  unfold setComponentSecrets at h
  split at h
  · split at h
    · cases h
    · cases h; rfl
  · cases h; rfl

theorem setGitSource_fields (siteComponent : SiteComponentConfig) (tc : componentContext) :
    (setGitSource siteComponent tc).PluginProviders = tc.PluginProviders ∧
      (setGitSource siteComponent tc).ComponentVariables = tc.ComponentVariables ∧
      (setGitSource siteComponent tc).ComponentSecrets = tc.ComponentSecrets ∧
      (setGitSource siteComponent tc).HasCloudIntegration = tc.HasCloudIntegration := by
  unfold setGitSource
  split <;> exact ⟨rfl, rfl, rfl, rfl⟩

theorem foldl_providers_append (crs : List ComponentSchema) (init : List String) :
    crs.foldl (fun acc cr => acc ++ cr.Providers) init = init ++ concatProviders crs := by
  induction crs generalizing init with
  | nil => simp [concatProviders]
  | cons cr rest ih =>
    simp only [concatProviders, List.foldl_cons, List.nil_append]
    rw [ih (init ++ cr.Providers), ih cr.Providers]
    simp [concatProviders]

theorem componentPluginLoop_providers (cfg : MachConfig) (siteIdentifier componentName : String)
    (plugins : List PluginHandler) (tc tc2 : componentContext)
    (h : componentPluginLoop cfg siteIdentifier componentName plugins tc = .ok tc2) :
    tc2.PluginProviders =
      tc.PluginProviders ++
        concatProviders (componentContributions cfg siteIdentifier componentName plugins) := by
  induction plugins generalizing tc with
  | nil =>
    simp only [componentPluginLoop] at h
    cases h
    simp [componentContributions, concatProviders]
  | cons plugin rest ih =>
    simp only [componentPluginLoop] at h
    cases hget : cfg.Plugins.Get plugin.Name with
    | error err => rw [hget] at h; cases h
    | ok found =>
      rw [hget] at h
      simp only at h
      cases hrender : found.RenderTerraformComponent siteIdentifier componentName with
      | error err => rw [hrender] at h; cases h
      | ok result =>
        rw [hrender] at h
        cases result with
        | none =>
          simp only at h
          rw [ih tc h]
          simp [componentContributions, hget, hrender]
        | some cr =>
          simp only at h
          rw [ih _ h]
          have hcons : componentContributions cfg siteIdentifier componentName (plugin :: rest) =
              cr :: componentContributions cfg siteIdentifier componentName rest := by
            simp [componentContributions, hget, hrender]
          rw [hcons]
          simp only [concatProviders, List.foldl_cons, List.nil_append]
          rw [foldl_providers_append _ cr.Providers]
          simp [concatProviders]

theorem componentModuleContext_ok (env : GenEnv) (cfg : MachConfig) (site : SiteConfig)
    (siteComponent : SiteComponentConfig) (tpl : String) (tc : componentContext)
    (hok : componentModuleContext env cfg site siteComponent = .ok (tpl, tc)) :
    ∃ hash tc1 tc2 tc3,
      env.Hash siteComponent = .ok hash ∧
      componentPluginLoop cfg site.Identifier siteComponent.Name
        (cfg.Plugins.Names siteComponent.Definition.Integrations)
        { ComponentName := siteComponent.Name
          ComponentVersion := siteComponent.Definition.Version
          ComponentHash := hash
          ComponentVariables := ""
          ComponentSecrets := ""
          SiteName := site.Identifier
          Environment := cfg.Environment
          Source := siteComponent.Definition.Source
          PluginResources := []
          PluginProviders := []
          PluginDependsOn := []
          PluginVariables := []
          HasCloudIntegration := false } = .ok tc1 ∧
      env.ReadFile "templates/site_component.tmpl" = .ok tpl ∧
      setComponentVariables env cfg siteComponent (setCloudIntegration env siteComponent tc1) =
        .ok tc2 ∧
      setComponentSecrets env cfg siteComponent tc2 = .ok tc3 ∧
      tc = setGitSource siteComponent tc3 := by
  unfold componentModuleContext at hok
  cases hhash : env.Hash siteComponent with
  | error err => rw [hhash] at hok; cases hok
  | ok hash =>
    rw [hhash] at hok
    simp only at hok
    cases hloop : componentPluginLoop cfg site.Identifier siteComponent.Name
        (cfg.Plugins.Names siteComponent.Definition.Integrations)
        { ComponentName := siteComponent.Name
          ComponentVersion := siteComponent.Definition.Version
          ComponentHash := hash
          ComponentVariables := ""
          ComponentSecrets := ""
          SiteName := site.Identifier
          Environment := cfg.Environment
          Source := siteComponent.Definition.Source
          PluginResources := []
          PluginProviders := []
          PluginDependsOn := []
          PluginVariables := []
          HasCloudIntegration := false } with
    | error err => rw [hloop] at hok; cases hok
    | ok tc1 =>
      rw [hloop] at hok
      simp only at hok
      cases hread : env.ReadFile "templates/site_component.tmpl" with
      | error err => rw [hread] at hok; cases hok
      | ok tpl1 =>
        rw [hread] at hok
        simp only at hok
        cases hvars : setComponentVariables env cfg siteComponent
            (setCloudIntegration env siteComponent tc1) with
        | error err => rw [hvars] at hok; cases hok
        | ok tc2 =>
          rw [hvars] at hok
          simp only at hok
          cases hsecs : setComponentSecrets env cfg siteComponent tc2 with
          | error err => rw [hsecs] at hok; cases hok
          | ok tc3 =>
            rw [hsecs] at hok
            simp only [Except.ok.injEq, Prod.mk.injEq] at hok
            obtain ⟨h1, h2⟩ := hok
            exact ⟨hash, tc1, tc2, tc3, rfl, hloop, by rw [h1], hvars, hsecs, h2.symm⟩

theorem setCloudIntegration_flag (env : GenEnv) (siteComponent : SiteComponentConfig)
    (tc : componentContext) (hflag : env.HasCloudIntegration siteComponent = true) :
    (setCloudIntegration env siteComponent tc).HasCloudIntegration = true ∧
      (setCloudIntegration env siteComponent tc).ComponentVariables = "variables = \x7b\x7d" ∧
      (setCloudIntegration env siteComponent tc).ComponentSecrets = "secrets = \x7b\x7d" := by
  simp [setCloudIntegration, hflag]

theorem setComponentVariables_fields (env : GenEnv) (cfg : MachConfig)
    (siteComponent : SiteComponentConfig) (tc tc2 : componentContext)
    (h : setComponentVariables env cfg siteComponent tc = .ok tc2) :
    tc2.HasCloudIntegration = tc.HasCloudIntegration ∧
      tc2.ComponentSecrets = tc.ComponentSecrets ∧
      (siteComponent.Variables.len = 0 → tc2.ComponentVariables = tc.ComponentVariables) ∧
      (siteComponent.Variables.len > 0 →
        env.serializeToHCL "variables" siteComponent.Variables siteComponent.DeploymentType
          cfg.StateRepository = .ok tc2.ComponentVariables) := by
  unfold setComponentVariables at h
  by_cases hv : siteComponent.Variables.len > 0
  · simp only [hv, if_true] at h
    cases hser : env.serializeToHCL "variables" siteComponent.Variables
        siteComponent.DeploymentType cfg.StateRepository with
    | error err => rw [hser] at h; cases h
    | ok val =>
      rw [hser] at h
      cases h
      exact ⟨rfl, rfl, fun h0 => by omega, fun _ => rfl⟩
  · simp only [hv, if_false] at h
    cases h
    exact ⟨rfl, rfl, fun _ => rfl, fun h0 => absurd h0 hv⟩

theorem setComponentSecrets_fields (env : GenEnv) (cfg : MachConfig)
    (siteComponent : SiteComponentConfig) (tc tc2 : componentContext)
    (h : setComponentSecrets env cfg siteComponent tc = .ok tc2) :
    tc2.HasCloudIntegration = tc.HasCloudIntegration ∧
      tc2.ComponentVariables = tc.ComponentVariables ∧
      (siteComponent.Secrets.len = 0 → tc2.ComponentSecrets = tc.ComponentSecrets) ∧
      (siteComponent.Secrets.len > 0 →
        env.serializeToHCL "secrets" siteComponent.Secrets siteComponent.DeploymentType
          cfg.StateRepository = .ok tc2.ComponentSecrets) := by
  unfold setComponentSecrets at h
  by_cases hv : siteComponent.Secrets.len > 0
  · simp only [hv, if_true] at h
    cases hser : env.serializeToHCL "secrets" siteComponent.Secrets
        siteComponent.DeploymentType cfg.StateRepository with
    | error err => rw [hser] at h; cases h
    | ok val =>
      rw [hser] at h
      cases h
      exact ⟨rfl, rfl, fun h0 => by omega, fun _ => rfl⟩
  · simp only [hv, if_false] at h
    cases h
    exact ⟨rfl, rfl, fun _ => rfl, fun h0 => absurd h0 hv⟩

/-- C7, as stated, fails: the component `awsComponent` is cloud-integrated and declares the
variable `size`; its context carries the serialized variables, not the placeholder. -/
theorem componentModuleContext_flag_keeps_variables :
    exampleGenEnv.HasCloudIntegration awsComponent = true ∧
      ∃ tpl tc, componentModuleContext exampleGenEnv pluginConfig siteA awsComponent = .ok (tpl, tc) ∧
        tc.HasCloudIntegration = true ∧
        tc.ComponentVariables = "variables = \x7b size \x7d" ∧
        tc.ComponentVariables ≠ "variables = \x7b\x7d" ∧
        renderComponentModule exampleGenEnv pluginConfig siteA awsComponent =
          .ok "variables = \x7b size \x7d\nsecrets = \x7b\x7d" := by
  refine ⟨by decide, "templates/site_component.tmpl", _, rfl, rfl, rfl, by decide, rfl⟩

/-- C7, amended: for a component with the cloud-integration flag, the context that
`renderComponentModule` hands to the template has `HasCloudIntegration` set, its variables
block is the placeholder `variables = {}` when the component declares no variables and the
serialized variables when it declares some, and likewise for the secrets. -/
theorem componentModuleContext_cloud_integration (env : GenEnv) (cfg : MachConfig)
    (site : SiteConfig) (siteComponent : SiteComponentConfig) (tpl : String)
    (tc : componentContext) (hflag : env.HasCloudIntegration siteComponent = true)
    (hok : componentModuleContext env cfg site siteComponent = .ok (tpl, tc)) :
    tc.HasCloudIntegration = true ∧
      (siteComponent.Variables.len = 0 → tc.ComponentVariables = "variables = \x7b\x7d") ∧
      (siteComponent.Variables.len > 0 →
        env.serializeToHCL "variables" siteComponent.Variables siteComponent.DeploymentType
          cfg.StateRepository = .ok tc.ComponentVariables) ∧
      (siteComponent.Secrets.len = 0 → tc.ComponentSecrets = "secrets = \x7b\x7d") ∧
      (siteComponent.Secrets.len > 0 →
        env.serializeToHCL "secrets" siteComponent.Secrets siteComponent.DeploymentType
          cfg.StateRepository = .ok tc.ComponentSecrets) ∧
      renderComponentModule env cfg site siteComponent =
        (match env.RenderComponentTemplate tpl tc with
         | .error err => .error ("renderSiteTerraformConfig: " ++ err)
         | .ok val => .ok val) := by
  have hrender : renderComponentModule env cfg site siteComponent =
      (match env.RenderComponentTemplate tpl tc with
       | .error err => .error ("renderSiteTerraformConfig: " ++ err)
       | .ok val => .ok val) := by
    simp only [renderComponentModule, hok]
  obtain ⟨hash, tc1, tc2, tc3, _, _, _, hvars, hsecs, rfl⟩ :=
    componentModuleContext_ok env cfg site siteComponent tpl tc hok
  obtain ⟨_, hg2, hg3, hg4⟩ := setGitSource_fields siteComponent tc3
  obtain ⟨hv1, hv2, hv3, hv4⟩ := setComponentVariables_fields env cfg siteComponent _ tc2 hvars
  obtain ⟨hs1, hs2, hs3, hs4⟩ := setComponentSecrets_fields env cfg siteComponent tc2 tc3 hsecs
  obtain ⟨hc1, hc2, hc3⟩ := setCloudIntegration_flag env siteComponent tc1 hflag
  refine ⟨?_, ?_, ?_, ?_, ?_, hrender⟩
  · rw [hg4, hs1, hv1, hc1]
  · intro h0
    rw [hg2, hs2, hv3 h0, hc2]
  · intro h0
    rw [hg2, hs2]
    exact hv4 h0
  · intro h0
    rw [hg3, hs3 h0, hv2, hc3]
  · intro h0
    rw [hg3]
    exact hs4 h0

/-- C7 at `awsComponent`, which is cloud-integrated and declares a variable but no secret:
the secrets block is the placeholder, the variables block is the serialized one. -/
theorem componentModuleContext_cloud_integration_witness :
    exampleGenEnv.HasCloudIntegration awsComponent = true ∧
      componentModuleContext exampleGenEnv pluginConfig siteA awsComponent =
        .ok ("templates/site_component.tmpl", awsComponentContext) ∧
      awsComponentContext.ComponentSecrets = "secrets = \x7b\x7d" ∧
      exampleGenEnv.serializeToHCL "variables" awsComponent.Variables awsComponent.DeploymentType
        pluginConfig.StateRepository = .ok awsComponentContext.ComponentVariables :=
  have h := componentModuleContext_cloud_integration exampleGenEnv pluginConfig siteA awsComponent
    "templates/site_component.tmpl" awsComponentContext (by decide) rfl
  ⟨by decide, rfl, h.2.2.2.1 (by decide), h.2.2.1 (by decide)⟩

/-- C9, as stated, fails: the plugins `aws` and `aws-edge` both return the provider alias
`aws.mach`, and the context of a component that integrates both lists it twice. -/
theorem componentModuleContext_duplicate_provider :
    componentModuleContext exampleGenEnv pluginConfig siteA awsEdgeComponent =
        .ok ("templates/site_component.tmpl", awsEdgeComponentContext) ∧
      awsEdgeComponentContext.PluginProviders = ["aws.mach", "aws.mach"] ∧
      ¬ awsEdgeComponentContext.PluginProviders.Nodup := by
  refine ⟨rfl, rfl, by decide⟩

/-- C9, amended: the `PluginProviders` list of the context built by `renderComponentModule`
is the concatenation, in plugin order, of the provider lists of the plugins that returned a
contribution; an alias returned twice appears twice. -/
theorem componentModuleContext_providers (env : GenEnv) (cfg : MachConfig) (site : SiteConfig)
    (siteComponent : SiteComponentConfig) (tpl : String) (tc : componentContext)
    (hok : componentModuleContext env cfg site siteComponent = .ok (tpl, tc)) :
    tc.PluginProviders =
      concatProviders
        (componentContributions cfg site.Identifier siteComponent.Name
          (cfg.Plugins.Names siteComponent.Definition.Integrations)) := by
  obtain ⟨hash, tc1, tc2, tc3, _, hloop, _, hvars, hsecs, rfl⟩ :=
    componentModuleContext_ok env cfg site siteComponent tpl tc hok
  rw [(setGitSource_fields siteComponent tc3).1,
    setComponentSecrets_providers env cfg siteComponent tc2 tc3 hsecs,
    setComponentVariables_providers env cfg siteComponent _ tc2 hvars,
    setCloudIntegration_providers,
    componentPluginLoop_providers cfg site.Identifier siteComponent.Name _ _ tc1 hloop]
  simp

/-- C9 at `awsEdgeComponent`: the providers are those of `aws` followed by those of
`aws-edge`. -/
theorem componentModuleContext_providers_witness :
    awsEdgeComponentContext.PluginProviders =
      concatProviders
        (componentContributions pluginConfig siteA.Identifier awsEdgeComponent.Name
          (pluginConfig.Plugins.Names awsEdgeComponent.Definition.Integrations)) :=
  componentModuleContext_providers exampleGenEnv pluginConfig siteA awsEdgeComponent
    "templates/site_component.tmpl" awsEdgeComponentContext rfl

/-! ## Properties of the commercetools plugin -/

namespace Commercetools

/-- The five render calls that look the site configuration up return empty output for a
site without one; the depends-on list does not look it up. -/
theorem render_without_site_config {Payload : Type} (env : PluginEnv Payload)
    (p : CommercetoolsPlugin) (site component : String) (h : getSiteConfig p site = none) :
    TerraformRenderProviders env p site = .ok "" ∧
      TerraformRenderResources env p site = .ok "" ∧
      TerraformRenderComponentResources p site component = .ok "" ∧
      TerraformRenderComponentVars env p site component = .ok "" ∧
      TerraformRenderComponentProviders p site component = .ok [] ∧
      TerraformRenderComponentDependsOn p site component = .ok ["null_resource.commercetools"] := by
  simp [TerraformRenderProviders, TerraformRenderResources, TerraformRenderComponentResources,
    TerraformRenderComponentVars, TerraformRenderComponentProviders,
    TerraformRenderComponentDependsOn, h]

/-- C8: on a freshly constructed plugin, which is not enabled and holds no site
configuration, the depends-on list of every site and component is
`["null_resource.commercetools"]`, not the empty list; the other five render calls return
empty output. -/
theorem fresh_plugin_depends_on {Payload : Type} (env : PluginEnv Payload)
    (site component : String) :
    IsEnabled NewCommercetoolsPlugin = false ∧
      getSiteConfig NewCommercetoolsPlugin site = none ∧
      TerraformRenderComponentDependsOn NewCommercetoolsPlugin site component =
        .ok ["null_resource.commercetools"] ∧
      TerraformRenderComponentDependsOn NewCommercetoolsPlugin site component ≠ .ok [] ∧
      TerraformRenderProviders env NewCommercetoolsPlugin site = .ok "" ∧
      TerraformRenderResources env NewCommercetoolsPlugin site = .ok "" ∧
      TerraformRenderComponentResources NewCommercetoolsPlugin site component = .ok "" ∧
      TerraformRenderComponentVars env NewCommercetoolsPlugin site component = .ok "" ∧
      TerraformRenderComponentProviders NewCommercetoolsPlugin site component = .ok [] := by
  have hnone : getSiteConfig NewCommercetoolsPlugin site = none := rfl
  obtain ⟨h1, h2, h3, h4, h5, h6⟩ :=
    render_without_site_config env NewCommercetoolsPlugin site component hnone
  refine ⟨by decide, hnone, h6, ?_, h1, h2, h3, h4, h5⟩
  rw [h6]
  intro h
  cases h

end Commercetools

/-! ## Properties of `WriteFiles` -/

theorem copyFile_frame {σ L : Type} (env : WriteEnv σ L) (hframe : LockFrame env) (s : σ)
    (a b : String) (c : MachConfig) (q : String) :
    env.GetLock c (copyFile env s a b).1 q = env.GetLock c s q := by
  unfold copyFile
  cases hopen : env.Open s a with
  | some err => rfl
  | none =>
    cases hread : env.ReadAll s a with
    | error err => rfl
    | ok contents =>
      have hc := (hframe s c q).2.2.1 b
      cases hcreate : env.Create s b with
      | mk s1 o =>
        rw [hcreate] at hc
        cases o with
        | some err => exact hc
        | none =>
          have hw := (hframe s1 c q).2.2.2 b contents
          dsimp only
          cases hwrite : env.Write s1 b contents with
          | mk s2 o2 =>
            rw [hwrite] at hw
            cases o2 with
            | some err => exact hw.trans hc
            | none => exact hw.trans hc

theorem copyLoop_shape {σ L : Type} (env : WriteEnv σ L) (path : String)
    (sources : List FileSource) (w : World σ) :
    ∃ evs, (copyLoop env path sources w).1.trace = w.trace ++ evs ∧
      (copyLoop env path sources w).1.repo = w.repo ∧
      (∀ e ∈ evs, e.isCopyStep = true) ∧
      ((copyLoop env path sources w).2 = none → ∀ e ∈ evs, e.isFailedWrite = false) ∧
      (LockFrame env → ∀ c q,
        env.GetLock c (copyLoop env path sources w).1.ext q = env.GetLock c w.ext q) := by
  induction sources generalizing w with
  | nil => exact ⟨[], by simp [copyLoop]⟩
  | cons fs rest ih =>
    unfold copyLoop
    simp only
    have hfr := fun (hframe : LockFrame env) c q =>
      copyFile_frame env hframe (w.emit (.info ("Copying " ++ env.Join path fs.Filename))).ext
        fs.Filename (env.Join path fs.Filename) c q
    cases hcopy : copyFile env (w.emit (.info ("Copying " ++ env.Join path fs.Filename))).ext
        fs.Filename (env.Join path fs.Filename) with
    | mk s1 o =>
      rw [hcopy] at hfr
      cases o with
      | some err =>
        refine ⟨[.info ("Copying " ++ env.Join path fs.Filename),
          .copyFile fs.Filename (env.Join path fs.Filename) false], ?_, ?_, ?_, ?_, ?_⟩
        · simp [World.emit]
        · simp [World.emit]
        · intro e he
          simp only [List.mem_cons, List.mem_singleton, List.not_mem_nil, or_false] at he
          rcases he with rfl | rfl <;> rfl
        · intro h; simp at h
        · intro hframe c q
          simpa [World.emit] using hfr hframe c q
      | none =>
        simp only
        obtain ⟨evs, h1, h2, h3, h4, h5⟩ := ih
          (({ w.emit (.info ("Copying " ++ env.Join path fs.Filename)) with ext := s1 } :
            World σ).emit (.copyFile fs.Filename (env.Join path fs.Filename) true))
        refine ⟨[.info ("Copying " ++ env.Join path fs.Filename),
          .copyFile fs.Filename (env.Join path fs.Filename) true] ++ evs, ?_, ?_, ?_, ?_, ?_⟩
        · rw [h1]; simp [World.emit]
        · rw [h2]; simp [World.emit]
        · intro e he
          simp only [List.cons_append, List.nil_append, List.mem_cons] at he
          rcases he with rfl | rfl | he
          · rfl
          · rfl
          · exact h3 e he
        · intro hnone e he
          simp only [List.cons_append, List.nil_append, List.mem_cons] at he
          rcases he with rfl | rfl | he
          · rfl
          · rfl
          · exact h4 hnone e he
        · intro hframe c q
          rw [h5 hframe c q]
          simpa [World.emit] using hfr hframe c q

theorem commitLock_shape {σ L : Type} (env : WriteEnv σ L) (cfg : MachConfig)
    (site : SiteConfig) (lock : L) (w : World σ) :
    ∃ evs, (commitLock env cfg site lock w).1.trace = w.trace ++ evs ∧
      (commitLock env cfg site lock w).1.repo = w.repo ∧
      (∀ e ∈ evs, e.isLockEvent = true) ∧ evs ≠ [] := by
  unfold commitLock
  cases hupdate : env.Update lock cfg with
  | error err =>
    refine ⟨[.lockUpdate site.Identifier false], by simp [World.emit], by simp [World.emit], ?_,
      by simp⟩
    intro e he
    rw [List.mem_singleton.mp he]
    rfl
  | ok lock2 =>
    dsimp only
    cases hwrite : env.WriteLock (w.emit (.lockUpdate site.Identifier true)).ext lock2 with
    | mk s o =>
      cases o with
      | some err =>
        refine ⟨[.lockUpdate site.Identifier true, .writeLock site.Identifier false],
          by simp [World.emit], by simp [World.emit], ?_, by simp⟩
        intro e he
        simp only [List.mem_cons, List.mem_singleton, List.not_mem_nil, or_false] at he
        rcases he with rfl | rfl <;> rfl
      | none =>
        refine ⟨[.lockUpdate site.Identifier true, .writeLock site.Identifier true],
          by simp [World.emit], by simp [World.emit], ?_, by simp⟩
        intro e he
        simp only [List.mem_cons, List.mem_singleton, List.not_mem_nil, or_false] at he
        rcases he with rfl | rfl <;> rfl

theorem isCopyStep_not_lock (e : Event) (h : e.isCopyStep = true) : e.isLockEvent = false := by
  cases e <;> simp_all [Event.isCopyStep, Event.isLockEvent]

theorem isLockEvent_not_failed (e : Event) (h : e.isLockEvent = true) :
    e.isFailedWrite = false := by
  cases e <;> simp_all [Event.isFailedWrite, Event.isLockEvent]

theorem isCopyStep_not_writeFile (f d : String) (ok : Bool) :
    (Event.writeFile f d ok).isCopyStep = false := rfl

theorem isLockEvent_not_writeFile (f d : String) (ok : Bool) :
    (Event.writeFile f d ok).isLockEvent = false := rfl

theorem writeOutput_shape {σ L : Type} (env : WriteEnv σ L) (cfg : MachConfig)
    (site : SiteConfig) (path filename formatted : String) (lock : L) (w : World σ) :
    ∃ evs, (writeOutput env cfg site path filename formatted lock w).1.trace = w.trace ++ evs ∧
      (writeOutput env cfg site path filename formatted lock w).1.repo = w.repo ∧
      ((writeOutput env cfg site path filename formatted lock w).2 = none →
        ∀ e ∈ evs, e.isFailedWrite = false) ∧
      ((∃ e ∈ evs, e.isLockEvent = true) →
        (∀ e ∈ evs, e.isFailedWrite = false) ∧ Event.mkdirAll path true ∈ evs ∧
          Event.writeFile filename formatted true ∈ evs) ∧
      (LockFrame env → (∀ e ∈ evs, e.isLockEvent = false) → ∀ c q,
        env.GetLock c (writeOutput env cfg site path filename formatted lock w).1.ext q =
          env.GetLock c w.ext q) ∧
      (∀ f d ok, Event.writeFile f d ok ∈ evs → f = filename ∧ d = formatted) ∧
      (∀ s1, env.MkdirAll w.ext path = (s1, none) →
        ∃ ok, Event.writeFile filename formatted ok ∈ evs) := by
  unfold writeOutput
  have hfm := fun (hframe : LockFrame env) c q => (hframe w.ext c q).1 path
  cases hmk : env.MkdirAll w.ext path with
  | mk s1 o1 =>
    rw [hmk] at hfm
    cases o1 with
    | some err =>
      refine ⟨[.mkdirAll path false], by simp [World.emit], by simp [World.emit], ?_, ?_, ?_, ?_,
        ?_⟩
      · intro h; simp at h
      · rintro ⟨e, he, hl⟩
        rw [List.mem_singleton.mp he] at hl
        simp [Event.isLockEvent] at hl
      · intro hframe _ c q
        simpa [World.emit] using hfm hframe c q
      · intro f d ok h
        simp at h
      · intro s h
        simp at h
    | none =>
      dsimp only
      have hfw := fun (hframe : LockFrame env) c q => (hframe s1 c q).2.1 filename formatted
      cases hwr : env.WriteFile
          (({ w with ext := s1 } : World σ).emit (.mkdirAll path true)).ext filename formatted with
      | mk s2 o2 =>
        have hwr2 : env.WriteFile s1 filename formatted = (s2, o2) := hwr
        rw [hwr2] at hfw
        cases o2 with
        | some err =>
          refine ⟨[.mkdirAll path true, .writeFile filename formatted false],
            by simp [World.emit], by simp [World.emit], ?_, ?_, ?_, ?_, ?_⟩
          · intro h; simp at h
          · rintro ⟨e, he, hl⟩
            simp only [List.mem_cons, List.mem_singleton, List.not_mem_nil, or_false] at he
            rcases he with rfl | rfl <;> simp [Event.isLockEvent] at hl
          · intro hframe _ c q
            have h1 := hfw hframe c q
            have h2 := hfm hframe c q
            simp only [World.emit] at *
            exact h1.trans h2
          · intro f d ok h
            simp only [List.mem_cons, List.mem_singleton, List.not_mem_nil, or_false] at h
            rcases h with h | h
            · cases h
            · cases h
              exact ⟨rfl, rfl⟩
          · intro s _
            exact ⟨false, by simp⟩
        | none =>
          dsimp only
          obtain ⟨cevs, hc1, hc2, hc3, hc4, hc5⟩ := copyLoop_shape env path
            (cfg.Variables.GetEncryptedSources site.Identifier)
            (({ ({ w with ext := s1 } : World σ).emit (.mkdirAll path true) with ext := s2 } :
              World σ).emit (.writeFile filename formatted true))
          cases hcl : copyLoop env path (cfg.Variables.GetEncryptedSources site.Identifier)
            (({ ({ w with ext := s1 } : World σ).emit (.mkdirAll path true) with ext := s2 } :
              World σ).emit (.writeFile filename formatted true)) with
          | mk w3 o3 =>
            rw [hcl] at hc1 hc2 hc4 hc5
            simp only [World.emit, List.append_assoc, List.singleton_append] at hc1 hc2 hc5
            cases o3 with
            | some err =>
              refine ⟨[.mkdirAll path true, .writeFile filename formatted true] ++ cevs,
                by simp [hc1], hc2, ?_, ?_, ?_, ?_, ?_⟩
              · intro h; simp at h
              · rintro ⟨e, he, hl⟩
                simp only [List.cons_append, List.nil_append, List.mem_cons] at he
                rcases he with rfl | rfl | he
                · simp [Event.isLockEvent] at hl
                · simp [Event.isLockEvent] at hl
                · rw [isCopyStep_not_lock e (hc3 e he)] at hl
                  cases hl
              · intro hframe _ c q
                have h0 := hc5 hframe c q
                have h1 := hfw hframe c q
                have h2 := hfm hframe c q
                simp only at h0 h1 h2 ⊢
                exact h0.trans (h1.trans h2)
              · intro f d ok h
                simp only [List.cons_append, List.nil_append, List.mem_cons] at h
                rcases h with h | h | h
                · cases h
                · cases h
                  exact ⟨rfl, rfl⟩
                · have := hc3 _ h
                  rw [isCopyStep_not_writeFile] at this
                  cases this
              · intro s _
                exact ⟨true, by simp⟩
            | none =>
              dsimp only
              obtain ⟨kevs, hk1, hk2, hk3, hk4⟩ := commitLock_shape env cfg site lock w3
              refine ⟨[.mkdirAll path true, .writeFile filename formatted true] ++ cevs ++ kevs,
                by simp [hk1, hc1], by rw [hk2, hc2], ?_, ?_, ?_, ?_, ?_⟩
              · intro _ e he
                simp only [List.cons_append, List.nil_append, List.mem_cons,
                  List.mem_append] at he
                rcases he with rfl | rfl | he | he
                · rfl
                · rfl
                · exact hc4 rfl e he
                · exact isLockEvent_not_failed e (hk3 e he)
              · intro _
                refine ⟨?_, by simp, by simp⟩
                intro e he
                simp only [List.cons_append, List.nil_append, List.mem_cons,
                  List.mem_append] at he
                rcases he with rfl | rfl | he | he
                · rfl
                · rfl
                · exact hc4 rfl e he
                · exact isLockEvent_not_failed e (hk3 e he)
              · intro _ hno
                exfalso
                cases kevs with
                | nil => exact hk4 rfl
                | cons k rest =>
                  have h1 := hk3 k (List.mem_cons_self _ _)
                  have h2 := hno k (by simp)
                  rw [h1] at h2
                  cases h2
              · intro f d ok h
                simp only [List.cons_append, List.nil_append, List.mem_cons,
                  List.mem_append] at h
                rcases h with h | h | h | h
                · cases h
                · cases h
                  exact ⟨rfl, rfl⟩
                · have := hc3 _ h
                  rw [isCopyStep_not_writeFile] at this
                  cases this
                · have := hk3 _ h
                  rw [isLockEvent_not_writeFile] at this
                  cases this
              · intro s _
                exact ⟨true, by simp⟩

theorem logValidation_shape {σ L : Type} (env : WriteEnv σ L) (formatted : String)
    (w : World σ) :
    ∃ evs, (logValidation env formatted w).trace = w.trace ++ evs ∧
      (logValidation env formatted w).repo = w.repo ∧
      (logValidation env formatted w).ext = w.ext ∧
      (∀ e ∈ evs, ∃ msg, e = Event.error msg) := by
  unfold logValidation
  cases validateFile env formatted with
  | none => exact ⟨[], by simp⟩
  | some err =>
    refine ⟨[.error ("The generated terraform code is invalid. " ++
      "This is a bug in mach composer. Please report the issue at " ++
      "https://github.com/mach-composer/mach-composer-cli")], by simp [World.emit],
      by simp [World.emit], by simp [World.emit], ?_⟩
    intro e he
    exact ⟨_, List.mem_singleton.mp he⟩

theorem generateSite_shape {σ L : Type} (env : WriteEnv σ L) (cfg : MachConfig)
    (site : SiteConfig) (path : String) (lock : L) (w : World σ) :
    ∃ evs, (generateSite env cfg site path lock w).1.trace = w.trace ++ evs ∧
      (generateSite env cfg site path lock w).1.repo = w.repo ∧
      ((generateSite env cfg site path lock w).2 = none → ∀ e ∈ evs, e.isFailedWrite = false) ∧
      ((∃ e ∈ evs, e.isLockEvent = true) →
        (∀ e ∈ evs, e.isFailedWrite = false) ∧ Event.renderSite site.Identifier true ∈ evs ∧
          Event.mkdirAll path true ∈ evs ∧
          ∃ body, env.renderSite cfg site = .ok body ∧
            Event.writeFile (env.Join path "site.tf") (formatFile env body) true ∈ evs) ∧
      (LockFrame env → (∀ e ∈ evs, e.isLockEvent = false) → ∀ c q,
        env.GetLock c (generateSite env cfg site path lock w).1.ext q = env.GetLock c w.ext q) ∧
      (∀ f d ok, Event.writeFile f d ok ∈ evs →
        f = env.Join path "site.tf" ∧
          ∃ body, env.renderSite cfg site = .ok body ∧ d = formatFile env body) ∧
      (∀ body s1, env.renderSite cfg site = .ok body → env.MkdirAll w.ext path = (s1, none) →
        ∃ ok, Event.writeFile (env.Join path "site.tf") (formatFile env body) ok ∈ evs) := by
  unfold generateSite
  dsimp only
  cases hrender : env.renderSite cfg site with
  | error err =>
    refine ⟨[.info ("Writing " ++ env.Join path "site.tf"), .renderSite site.Identifier false],
      by simp [World.emit], by simp [World.emit], ?_, ?_, ?_, ?_, ?_⟩
    · intro _ e he
      simp only [List.mem_cons, List.mem_singleton, List.not_mem_nil, or_false] at he
      rcases he with rfl | rfl <;> rfl
    · rintro ⟨e, he, hl⟩
      simp only [List.mem_cons, List.mem_singleton, List.not_mem_nil, or_false] at he
      rcases he with rfl | rfl <;> simp [Event.isLockEvent] at hl
    · intro _ _ c q
      simp [World.emit]
    · intro f d ok h
      simp only [List.mem_cons, List.mem_singleton, List.not_mem_nil, or_false] at h
      rcases h with h | h <;> cases h
    · intro body s1 h
      cases h
  | ok body =>
    dsimp only
    obtain ⟨w2, hw2⟩ : ∃ w2 : World σ, w2 =
        (w.emit (.info ("Writing " ++ env.Join path "site.tf"))).emit
          (.renderSite site.Identifier true) := ⟨_, rfl⟩
    rw [← hw2]
    have ht : w2.trace = w.trace ++
        [.info ("Writing " ++ env.Join path "site.tf"), .renderSite site.Identifier true] := by
      rw [hw2]; simp [World.emit]
    have hr : w2.repo = w.repo := by rw [hw2]; rfl
    have hx : w2.ext = w.ext := by rw [hw2]; rfl
    obtain ⟨vevs, hv1, hv2, hv3, hv4⟩ := logValidation_shape env (formatFile env body) w2
    obtain ⟨oevs, ho1, ho2, ho3, ho4, ho5, ho6, ho7⟩ := writeOutput_shape env cfg site path
      (env.Join path "site.tf") (formatFile env body) lock
      (logValidation env (formatFile env body) w2)
    rw [hv1, ht] at ho1
    rw [hv2, hr] at ho2
    rw [hv3, hx] at ho5 ho7
    have hvnot : ∀ e ∈ vevs, e.isFailedWrite = false ∧ e.isLockEvent = false := by
      intro e he
      obtain ⟨msg, rfl⟩ := hv4 e he
      exact ⟨rfl, rfl⟩
    refine ⟨[.info ("Writing " ++ env.Join path "site.tf"), .renderSite site.Identifier true]
      ++ vevs ++ oevs, by simp [ho1], ho2, ?_, ?_, ?_, ?_, ?_⟩
    · intro hnone e he
      simp only [List.cons_append, List.nil_append, List.mem_cons, List.mem_append] at he
      rcases he with rfl | rfl | he | he
      · rfl
      · rfl
      · exact (hvnot e he).1
      · exact ho3 hnone e he
    · rintro ⟨e, he, hl⟩
      simp only [List.cons_append, List.nil_append, List.mem_cons, List.mem_append] at he
      have hlock : ∃ e ∈ oevs, e.isLockEvent = true := by
        rcases he with rfl | rfl | he | he
        · simp [Event.isLockEvent] at hl
        · simp [Event.isLockEvent] at hl
        · rw [(hvnot e he).2] at hl
          cases hl
        · exact ⟨e, he, hl⟩
      obtain ⟨h1, h2, h3⟩ := ho4 hlock
      refine ⟨?_, by simp, by simp [h2], body, rfl, by simp [h3]⟩
      intro e2 he2
      simp only [List.cons_append, List.nil_append, List.mem_cons, List.mem_append] at he2
      rcases he2 with rfl | rfl | he2 | he2
      · rfl
      · rfl
      · exact (hvnot e2 he2).1
      · exact h1 e2 he2
    · intro hframe hno c q
      exact ho5 hframe (fun e he => hno e (by simp [he])) c q
    · intro f d ok h
      simp only [List.cons_append, List.nil_append, List.mem_cons, List.mem_append] at h
      rcases h with h | h | h | h
      · cases h
      · cases h
      · obtain ⟨msg, hmsg⟩ := hv4 _ h
        cases hmsg
      · obtain ⟨h1, h2⟩ := ho6 f d ok h
        exact ⟨h1, body, rfl, h2⟩
    · intro body2 s1 hb hmk
      cases hb
      obtain ⟨ok, hok⟩ := ho7 s1 hmk
      exact ⟨ok, by simp [hok]⟩

theorem since_append {σ : Type} (w2 w : World σ) (evs : List Event)
    (h : w2.trace = w.trace ++ evs) : w2.since w = evs := by
  simp [World.since, h]

theorem skipSite_eq_false_iff (options : GenerateOptions) (site : SiteConfig) :
    skipSite options site = false ↔ (options.Site = "" ∨ site.Identifier = options.Site) := by
  unfold skipSite
  by_cases h1 : options.Site = "" <;> by_cases h2 : site.Identifier = options.Site <;>
    simp [h1, h2]

theorem writeSite_shape {σ L : Type} (env : WriteEnv σ L) (cfg : MachConfig)
    (options : GenerateOptions) (locations : List (String × String)) (w : World σ)
    (site : SiteConfig) :
    ∃ evs, (writeSite env cfg options locations w site).1.trace = w.trace ++ evs ∧
      ((writeSite env cfg options locations w site).2 = none →
        ∀ e ∈ evs, e.isFailedWrite = false) ∧
      ((∃ e ∈ evs, e.isLockEvent = true) →
        (∀ e ∈ evs, e.isFailedWrite = false) ∧ Event.renderSite site.Identifier true ∈ evs ∧
          Event.mkdirAll (mapGet locations site.Identifier) true ∈ evs ∧
          ∃ repo body, env.renderSite { cfg with StateRepository := repo } site = .ok body ∧
            Event.writeFile (env.Join (mapGet locations site.Identifier) "site.tf")
              (formatFile env body) true ∈ evs) ∧
      (LockFrame env → (∀ e ∈ evs, e.isLockEvent = false) → ∀ c q,
        env.GetLock c (writeSite env cfg options locations w site).1.ext q =
          env.GetLock c w.ext q) ∧
      (∀ f d ok, Event.writeFile f d ok ∈ evs →
        skipSite options site = false ∧
          f = env.Join (mapGet locations site.Identifier) "site.tf" ∧
          ∃ repo body, env.renderSite { cfg with StateRepository := repo } site = .ok body ∧
            d = formatFile env body) := by
  unfold writeSite
  cases hnew : env.NewRenderer cfg.TerraformStateProvider site.Identifier
      cfg.TerraformRemoteState with
  | error err =>
    refine ⟨[], by simp, by simp, ?_, by simp, by simp⟩
    rintro ⟨e, he, _⟩
    cases he
  | ok renderer =>
    dsimp only
    cases hadd : env.Add w.repo renderer.Key renderer with
    | error err =>
      refine ⟨[], by simp, by simp, ?_, by simp, by simp⟩
      rintro ⟨e, he, _⟩
      cases he
    | ok repo =>
      dsimp only
      by_cases hskip : skipSite options site = true
      · simp only [hskip, if_true]
        refine ⟨[.addRenderer site.Identifier renderer.Key], by simp [World.emit], ?_, ?_, ?_, ?_⟩
        · intro _ e he
          rw [List.mem_singleton.mp he]
          rfl
        · rintro ⟨e, he, hl⟩
          rw [List.mem_singleton.mp he] at hl
          simp [Event.isLockEvent] at hl
        · intro _ _ c q
          simp [World.emit]
        · intro f d ok h
          simp at h
      · have hskip2 : skipSite options site = false := by simpa using hskip
        simp only [hskip2, Bool.false_eq_true, if_false]
        cases hlock : env.GetLock
            { cfg with StateRepository :=
                (({ w with repo := repo } : World σ).emit
                  (.addRenderer site.Identifier renderer.Key)).repo }
            (({ w with repo := repo } : World σ).emit
              (.addRenderer site.Identifier renderer.Key)).ext
            (mapGet locations site.Identifier) with
        | error err =>
          dsimp only
          refine ⟨[.addRenderer site.Identifier renderer.Key], by simp [World.emit], ?_, ?_, ?_,
            ?_⟩
          · intro _ e he
            rw [List.mem_singleton.mp he]
            rfl
          · rintro ⟨e, he, hl⟩
            rw [List.mem_singleton.mp he] at hl
            simp [Event.isLockEvent] at hl
          · intro _ _ c q
            simp [World.emit]
          · intro f d ok h
            simp at h
        | ok lock =>
          dsimp only
          by_cases hchanges : env.HasChanges lock
              { cfg with StateRepository :=
                  (({ w with repo := repo } : World σ).emit
                    (.addRenderer site.Identifier renderer.Key)).repo } = true
          · simp only [hchanges, Bool.not_true, Bool.false_eq_true, if_false]
            obtain ⟨gevs, hg1, hg2, hg3, hg4, hg5, hg6, hg7⟩ := generateSite_shape env
              { cfg with StateRepository :=
                  (({ w with repo := repo } : World σ).emit
                    (.addRenderer site.Identifier renderer.Key)).repo }
              site (mapGet locations site.Identifier) lock
              (({ w with repo := repo } : World σ).emit
                (.addRenderer site.Identifier renderer.Key))
            simp only [World.emit] at hg1 hg5
            refine ⟨[.addRenderer site.Identifier renderer.Key] ++ gevs, by simp [hg1, World.emit],
              ?_, ?_, ?_, ?_⟩
            · intro hnone e he
              simp only [List.cons_append, List.nil_append, List.mem_cons] at he
              rcases he with rfl | he
              · rfl
              · exact hg3 hnone e he
            · rintro ⟨e, he, hl⟩
              simp only [List.cons_append, List.nil_append, List.mem_cons] at he
              have hlock2 : ∃ e ∈ gevs, e.isLockEvent = true := by
                rcases he with rfl | he
                · simp [Event.isLockEvent] at hl
                · exact ⟨e, he, hl⟩
              obtain ⟨h1, h2, h3, body, h4, h5⟩ := hg4 hlock2
              refine ⟨?_, by simp [h2], by simp [h3], _, body, h4, by simp [h5]⟩
              intro e2 he2
              simp only [List.cons_append, List.nil_append, List.mem_cons] at he2
              rcases he2 with rfl | he2
              · rfl
              · exact h1 e2 he2
            · intro hframe hno c q
              exact hg5 hframe (fun e he => hno e (by simp [he])) c q
            · intro f d ok h
              simp only [List.cons_append, List.nil_append, List.mem_cons] at h
              rcases h with h | h
              · cases h
              · obtain ⟨h1, body, h2, h3⟩ := hg6 f d ok h
                exact ⟨trivial, h1, _, body, h2, h3⟩
          · have hchanges2 : env.HasChanges lock
                { cfg with StateRepository :=
                    (({ w with repo := repo } : World σ).emit
                      (.addRenderer site.Identifier renderer.Key)).repo } = false := by
              simpa using hchanges
            simp only [hchanges2, Bool.not_false, if_true]
            refine ⟨[.addRenderer site.Identifier renderer.Key,
              .info ("Files for site " ++ site.Identifier ++ " are up-to-date")],
              by simp [World.emit], ?_, ?_, ?_, ?_⟩
            · intro _ e he
              simp only [List.mem_cons, List.mem_singleton, List.not_mem_nil, or_false] at he
              rcases he with rfl | rfl <;> rfl
            · rintro ⟨e, he, hl⟩
              simp only [List.mem_cons, List.mem_singleton, List.not_mem_nil, or_false] at he
              rcases he with rfl | rfl <;> simp [Event.isLockEvent] at hl
            · intro _ _ c q
              simp [World.emit]
            · intro f d ok h
              simp only [List.mem_cons, List.mem_singleton, List.not_mem_nil, or_false] at h
              rcases h with h | h <;> cases h

theorem emit_retrace {σ : Type} (w : World σ) (t : List Event) (e : Event) :
    (w.retrace t).emit e = (w.emit e).retrace t := by
  simp [World.retrace, World.emit]

theorem copyLoop_retrace {σ L : Type} (env : WriteEnv σ L) (path : String)
    (sources : List FileSource) (w : World σ) (t : List Event) :
    copyLoop env path sources (w.retrace t) =
      ((copyLoop env path sources w).1.retrace t, (copyLoop env path sources w).2) := by
  induction sources generalizing w with
  | nil => rfl
  | cons fs rest ih =>
    unfold copyLoop
    dsimp only
    rw [emit_retrace]
    have hext : ((w.emit (.info ("Copying " ++ env.Join path fs.Filename))).retrace t).ext =
        (w.emit (.info ("Copying " ++ env.Join path fs.Filename))).ext := rfl
    rw [hext]
    cases copyFile env (w.emit (.info ("Copying " ++ env.Join path fs.Filename))).ext
        fs.Filename (env.Join path fs.Filename) with
    | mk s1 o =>
      cases o with
      | some err =>
        dsimp only
        simp [World.retrace, World.emit]
      | none =>
        dsimp only
        have hw : (({ (w.emit (.info ("Copying " ++ env.Join path fs.Filename))).retrace t with
              ext := s1 } : World σ).emit
              (.copyFile fs.Filename (env.Join path fs.Filename) true)) =
            ((({ w.emit (.info ("Copying " ++ env.Join path fs.Filename)) with
              ext := s1 } : World σ).emit
              (.copyFile fs.Filename (env.Join path fs.Filename) true))).retrace t := by
          simp [World.retrace, World.emit]
        rw [hw, ih]

theorem commitLock_retrace {σ L : Type} (env : WriteEnv σ L) (cfg : MachConfig)
    (site : SiteConfig) (lock : L) (w : World σ) (t : List Event) :
    commitLock env cfg site lock (w.retrace t) =
      ((commitLock env cfg site lock w).1.retrace t, (commitLock env cfg site lock w).2) := by
  unfold commitLock
  cases env.Update lock cfg with
  | error err => simp [World.retrace, World.emit]
  | ok lock2 =>
    dsimp only
    have hext : ((w.retrace t).emit (.lockUpdate site.Identifier true)).ext =
        (w.emit (.lockUpdate site.Identifier true)).ext := rfl
    rw [hext]
    cases env.WriteLock (w.emit (.lockUpdate site.Identifier true)).ext lock2 with
    | mk s1 o =>
      cases o with
      | some err => simp [World.retrace, World.emit]
      | none => simp [World.retrace, World.emit]

theorem writeOutput_retrace {σ L : Type} (env : WriteEnv σ L) (cfg : MachConfig)
    (site : SiteConfig) (path filename formatted : String) (lock : L) (w : World σ)
    (t : List Event) :
    writeOutput env cfg site path filename formatted lock (w.retrace t) =
      ((writeOutput env cfg site path filename formatted lock w).1.retrace t,
        (writeOutput env cfg site path filename formatted lock w).2) := by
  unfold writeOutput
  have hext : (w.retrace t).ext = w.ext := rfl
  rw [hext]
  cases env.MkdirAll w.ext path with
  | mk s1 o1 =>
    cases o1 with
    | some err => simp [World.retrace, World.emit]
    | none =>
      dsimp only
      have hext2 : (({ w.retrace t with ext := s1 } : World σ).emit (.mkdirAll path true)).ext =
          (({ w with ext := s1 } : World σ).emit (.mkdirAll path true)).ext := rfl
      rw [hext2]
      cases env.WriteFile (({ w with ext := s1 } : World σ).emit (.mkdirAll path true)).ext
          filename formatted with
      | mk s2 o2 =>
        cases o2 with
        | some err => simp [World.retrace, World.emit]
        | none =>
          dsimp only
          have hw : (({ ({ w.retrace t with ext := s1 } : World σ).emit (.mkdirAll path true)
                with ext := s2 } : World σ).emit (.writeFile filename formatted true)) =
              ((({ ({ w with ext := s1 } : World σ).emit (.mkdirAll path true)
                with ext := s2 } : World σ).emit
                (.writeFile filename formatted true))).retrace t := by
            simp [World.retrace, World.emit]
          rw [hw, copyLoop_retrace]
          cases copyLoop env path (cfg.Variables.GetEncryptedSources site.Identifier)
              (({ ({ w with ext := s1 } : World σ).emit (.mkdirAll path true)
                with ext := s2 } : World σ).emit (.writeFile filename formatted true)) with
          | mk w3 o3 =>
            cases o3 with
            | some err => rfl
            | none =>
              dsimp only
              rw [commitLock_retrace]

theorem copyLoop_withVerdict {σ L : Type} (env : WriteEnv σ L)
    (verdict : String → String → Bool) (path : String) (sources : List FileSource)
    (w : World σ) :
    copyLoop (withVerdict env verdict) path sources w = copyLoop env path sources w := by
  induction sources generalizing w with
  | nil => rfl
  | cons fs rest ih =>
    unfold copyLoop
    dsimp only
    have hcopy : ∀ s a b, copyFile (withVerdict env verdict) s a b = copyFile env s a b :=
      fun _ _ _ => rfl
    have hjoin : (withVerdict env verdict).Join = env.Join := rfl
    rw [hcopy, hjoin]
    cases copyFile env (w.emit (.info ("Copying " ++ env.Join path fs.Filename))).ext
        fs.Filename (env.Join path fs.Filename) with
    | mk s1 o =>
      cases o with
      | some err => rfl
      | none =>
        dsimp only
        rw [ih]

theorem writeOutput_withVerdict {σ L : Type} (env : WriteEnv σ L)
    (verdict : String → String → Bool) (cfg : MachConfig) (site : SiteConfig)
    (path filename formatted : String) (lock : L) (w : World σ) :
    writeOutput (withVerdict env verdict) cfg site path filename formatted lock w =
      writeOutput env cfg site path filename formatted lock w := by
  unfold writeOutput
  have hmk : (withVerdict env verdict).MkdirAll = env.MkdirAll := rfl
  have hwr : (withVerdict env verdict).WriteFile = env.WriteFile := rfl
  have hcommit : ∀ w3, commitLock (withVerdict env verdict) cfg site lock w3 =
      commitLock env cfg site lock w3 := fun _ => rfl
  rw [hmk]
  cases env.MkdirAll w.ext path with
  | mk s1 o1 =>
    cases o1 with
    | some err => rfl
    | none =>
      dsimp only
      rw [hwr]
      cases env.WriteFile (({ w with ext := s1 } : World σ).emit (.mkdirAll path true)).ext
          filename formatted with
      | mk s2 o2 =>
        cases o2 with
        | some err => rfl
        | none =>
          dsimp only
          rw [copyLoop_withVerdict]
          cases copyLoop env path (cfg.Variables.GetEncryptedSources site.Identifier)
              (({ ({ w with ext := s1 } : World σ).emit (.mkdirAll path true)
                with ext := s2 } : World σ).emit (.writeFile filename formatted true)) with
          | mk w3 o3 =>
            cases o3 with
            | some err => rfl
            | none =>
              dsimp only
              rw [hcommit]

theorem world_eq {σ : Type} (w1 w2 : World σ) (hext : w1.ext = w2.ext)
    (hrepo : w1.repo = w2.repo) (htrace : w1.trace = w2.trace) : w1 = w2 := by
  cases w1
  cases w2
  simp only at hext hrepo htrace
  subst hext hrepo htrace
  rfl

theorem filter_lock_errors (vevs : List Event) (h : ∀ e ∈ vevs, ∃ msg, e = Event.error msg) :
    vevs.filter Event.isLockEvent = [] := by
  rw [List.filter_eq_nil_iff]
  intro e he
  obtain ⟨msg, rfl⟩ := h e he
  simp [Event.isLockEvent]

theorem generateSite_withVerdict {σ L : Type} (env : WriteEnv σ L)
    (verdict : String → String → Bool) (cfg : MachConfig) (site : SiteConfig) (path : String)
    (lock : L) (w : World σ) :
    (generateSite (withVerdict env verdict) cfg site path lock w).2 =
        (generateSite env cfg site path lock w).2 ∧
      (generateSite (withVerdict env verdict) cfg site path lock w).1.ext =
        (generateSite env cfg site path lock w).1.ext ∧
      (generateSite (withVerdict env verdict) cfg site path lock w).1.repo =
        (generateSite env cfg site path lock w).1.repo ∧
      (generateSite (withVerdict env verdict) cfg site path lock w).1.trace.filter
          Event.isLockEvent =
        (generateSite env cfg site path lock w).1.trace.filter Event.isLockEvent := by
  unfold generateSite
  dsimp only
  have hjoin : (withVerdict env verdict).Join = env.Join := rfl
  have hrender : (withVerdict env verdict).renderSite = env.renderSite := rfl
  have hformat : ∀ body, formatFile (withVerdict env verdict) body = formatFile env body :=
    fun _ => rfl
  rw [hjoin, hrender]
  cases env.renderSite cfg site with
  | error err => exact ⟨rfl, rfl, rfl, rfl⟩
  | ok body =>
    dsimp only
    rw [hformat, writeOutput_withVerdict]
    obtain ⟨w2, hw2⟩ : ∃ w2 : World σ, w2 =
        (w.emit (.info ("Writing " ++ env.Join path "site.tf"))).emit
          (.renderSite site.Identifier true) := ⟨_, rfl⟩
    rw [← hw2]
    obtain ⟨v1, ha1, ha2, ha3, ha4⟩ :=
      logValidation_shape (withVerdict env verdict) (formatFile env body) w2
    obtain ⟨v2, hb1, hb2, hb3, hb4⟩ := logValidation_shape env (formatFile env body) w2
    have e1 : logValidation (withVerdict env verdict) (formatFile env body) w2 =
        (({ ext := w2.ext, repo := w2.repo, trace := [] } : World σ)).retrace (w2.trace ++ v1) :=
      world_eq _ _ ha3 ha2 (by simp [World.retrace, ha1])
    have e2 : logValidation env (formatFile env body) w2 =
        (({ ext := w2.ext, repo := w2.repo, trace := [] } : World σ)).retrace (w2.trace ++ v2) :=
      world_eq _ _ hb3 hb2 (by simp [World.retrace, hb1])
    rw [e1, e2, writeOutput_retrace, writeOutput_retrace]
    refine ⟨rfl, rfl, rfl, ?_⟩
    simp only [World.retrace, List.filter_append, filter_lock_errors v1 ha4,
      filter_lock_errors v2 hb4]

theorem writeSite_withVerdict {σ L : Type} (env : WriteEnv σ L)
    (verdict : String → String → Bool) (cfg : MachConfig) (options : GenerateOptions)
    (locations : List (String × String)) (w : World σ) (site : SiteConfig) :
    (writeSite (withVerdict env verdict) cfg options locations w site).2 =
        (writeSite env cfg options locations w site).2 ∧
      (writeSite (withVerdict env verdict) cfg options locations w site).1.ext =
        (writeSite env cfg options locations w site).1.ext ∧
      (writeSite (withVerdict env verdict) cfg options locations w site).1.repo =
        (writeSite env cfg options locations w site).1.repo ∧
      (writeSite (withVerdict env verdict) cfg options locations w site).1.trace.filter
          Event.isLockEvent =
        (writeSite env cfg options locations w site).1.trace.filter Event.isLockEvent := by
  unfold writeSite
  have hnew : (withVerdict env verdict).NewRenderer = env.NewRenderer := rfl
  have hadd : (withVerdict env verdict).Add = env.Add := rfl
  have hget : (withVerdict env verdict).GetLock = env.GetLock := rfl
  have hchg : (withVerdict env verdict).HasChanges = env.HasChanges := rfl
  rw [hnew, hadd, hget, hchg]
  cases env.NewRenderer cfg.TerraformStateProvider site.Identifier cfg.TerraformRemoteState with
  | error err => exact ⟨rfl, rfl, rfl, rfl⟩
  | ok renderer =>
    dsimp only
    cases env.Add w.repo renderer.Key renderer with
    | error err => exact ⟨rfl, rfl, rfl, rfl⟩
    | ok repo =>
      dsimp only
      cases skipSite options site with
      | true => exact ⟨rfl, rfl, rfl, rfl⟩
      | false =>
        simp only [Bool.false_eq_true, if_false]
        cases env.GetLock
            { cfg with StateRepository :=
                (({ w with repo := repo } : World σ).emit
                  (.addRenderer site.Identifier renderer.Key)).repo }
            (({ w with repo := repo } : World σ).emit
              (.addRenderer site.Identifier renderer.Key)).ext
            (mapGet locations site.Identifier) with
        | error err => exact ⟨rfl, rfl, rfl, rfl⟩
        | ok lock =>
          dsimp only
          cases env.HasChanges lock
              { cfg with StateRepository :=
                  (({ w with repo := repo } : World σ).emit
                    (.addRenderer site.Identifier renderer.Key)).repo } with
          | false => exact ⟨rfl, rfl, rfl, rfl⟩
          | true =>
            simp only [Bool.not_true, Bool.false_eq_true, if_false]
            exact generateSite_withVerdict env verdict _ site _ lock _

theorem sitesLoop_append {σ L : Type} (env : WriteEnv σ L) (cfg : MachConfig)
    (options : GenerateOptions) (locations : List (String × String))
    (pre rest : List SiteConfig) (w w1 : World σ)
    (hpre : sitesLoop env cfg options locations pre w = (w1, none)) :
    sitesLoop env cfg options locations (pre ++ rest) w =
      sitesLoop env cfg options locations rest w1 := by
  induction pre generalizing w with
  | nil =>
    simp only [sitesLoop, Prod.mk.injEq, and_true] at hpre
    subst hpre
    rfl
  | cons site more ih =>
    simp only [List.cons_append, sitesLoop] at hpre ⊢
    cases hstep : writeSite env cfg options locations w site with
    | mk w2 o =>
      rw [hstep] at hpre
      cases o with
      | some err => simp at hpre
      | none =>
        dsimp only at hpre ⊢
        exact ih w2 hpre

theorem mapFind_mapSet {β : Type} (m : List (String × β)) (k k2 : String) (v : β) :
    mapFind (mapSet m k v) k2 = if k = k2 then some v else mapFind m k2 := by
  induction m with
  | nil => simp [mapSet, mapFind]
  | cons e rest ih =>
    obtain ⟨k1, v1⟩ := e
    by_cases h1 : k1 = k
    · subst h1
      by_cases h2 : k1 = k2 <;> simp [mapSet, mapFind, h2]
    · by_cases h2 : k1 = k2
      · subst h2
        have h3 : ¬ k = k1 := fun h => h1 h.symm
        simp [mapSet, mapFind, h1, h3]
      · simp [mapSet, mapFind, h1, h2, ih]

theorem keys_mapSet {β : Type} (m : List (String × β)) (k : String) (v : β) :
    (mapSet m k v).map Prod.fst =
      if k ∈ m.map Prod.fst then m.map Prod.fst else m.map Prod.fst ++ [k] := by
  induction m with
  | nil => simp [mapSet]
  | cons e rest ih =>
    obtain ⟨k1, v1⟩ := e
    by_cases h1 : k1 = k
    · subst h1
      simp [mapSet]
    · have h3 : ¬ k = k1 := fun h => h1 h.symm
      simp only [mapSet, h1, if_false, List.map_cons, ih, List.mem_cons, h3, false_or]
      split <;> simp

theorem mem_mapSet {β : Type} (m : List (String × β)) (k : String) (v : β)
    (e : String × β) (he : e ∈ mapSet m k v) : e ∈ m ∨ e = (k, v) := by
  induction m with
  | nil =>
    simp only [mapSet, List.mem_singleton] at he
    exact Or.inr he
  | cons e1 rest ih =>
    obtain ⟨k1, v1⟩ := e1
    by_cases h1 : k1 = k
    · simp only [mapSet, h1, if_true, List.mem_cons] at he
      rcases he with he | he
      · exact Or.inr he
      · exact Or.inl (List.mem_cons_of_mem _ he)
    · simp only [mapSet, h1, if_false, List.mem_cons] at he
      rcases he with he | he
      · exact Or.inl (by rw [he]; exact List.mem_cons_self _ _)
      · rcases ih he with h | h
        · exact Or.inl (List.mem_cons_of_mem _ h)
        · exact Or.inr h

theorem mapFind_mem {β : Type} (m : List (String × β)) (k : String) (v : β)
    (h : mapFind m k = some v) : (k, v) ∈ m := by
  induction m with
  | nil => simp [mapFind] at h
  | cons e rest ih =>
    obtain ⟨k1, v1⟩ := e
    by_cases h1 : k1 = k
    · simp only [mapFind, h1, if_true, Option.some.injEq] at h
      rw [h1, h]
      exact List.mem_cons_self _ _
    · simp only [mapFind, h1, if_false] at h
      exact List.mem_cons_of_mem _ (ih h)

theorem mapFind_isSome_iff {β : Type} (m : List (String × β)) (k : String) :
    (∃ v, mapFind m k = some v) ↔ k ∈ m.map Prod.fst := by
  induction m with
  | nil => simp [mapFind]
  | cons e rest ih =>
    obtain ⟨k1, v1⟩ := e
    by_cases h1 : k1 = k
    · simp [mapFind, h1]
    · have h3 : ¬ k = k1 := fun h => h1 h.symm
      simp only [mapFind, h1, if_false, ih, List.map_cons, List.mem_cons, h3, false_or]

theorem locationsLoop_spec {σ L : Type} (env : WriteEnv σ L) (options : GenerateOptions)
    (root : String) (sites : List SiteConfig) (acc : List (String × String)) :
    (∀ k, k ∈ (locationsLoop env options root sites acc).map Prod.fst ↔
      (k ∈ acc.map Prod.fst ∨
        ∃ site ∈ sites, skipSite options site = false ∧ site.Identifier = k)) ∧
    ((acc.map Prod.fst).Nodup → ((locationsLoop env options root sites acc).map Prod.fst).Nodup) ∧
    ((∀ e ∈ acc, e.2 = env.Join root e.1) →
      ∀ e ∈ locationsLoop env options root sites acc, e.2 = env.Join root e.1) := by
  induction sites generalizing acc with
  | nil => simp [locationsLoop]
  | cons site rest ih =>
    unfold locationsLoop
    cases hskip : skipSite options site with
    | true =>
      simp only [if_true]
      obtain ⟨h1, h2, h3⟩ := ih acc
      refine ⟨?_, h2, h3⟩
      intro k
      rw [h1 k]
      constructor
      · rintro (h | ⟨x, hx, hs, hk⟩)
        · exact Or.inl h
        · exact Or.inr ⟨x, List.mem_cons_of_mem _ hx, hs, hk⟩
      · rintro (h | ⟨x, hx, hs, hk⟩)
        · exact Or.inl h
        · rcases List.mem_cons.mp hx with rfl | hx
          · rw [hskip] at hs
            cases hs
          · exact Or.inr ⟨x, hx, hs, hk⟩
    | false =>
      simp only [Bool.false_eq_true, if_false]
      obtain ⟨h1, h2, h3⟩ := ih (mapSet acc site.Identifier (env.Join root site.Identifier))
      have hkeys : ∀ k, k ∈ (mapSet acc site.Identifier
          (env.Join root site.Identifier)).map Prod.fst ↔
          (k ∈ acc.map Prod.fst ∨ k = site.Identifier) := by
        intro k
        rw [keys_mapSet]
        split
        · rename_i hmem
          constructor
          · exact fun h => Or.inl h
          · rintro (h | rfl)
            · exact h
            · exact hmem
        · simp
      refine ⟨?_, ?_, ?_⟩
      · intro k
        rw [h1 k, hkeys k]
        constructor
        · rintro ((h | rfl) | ⟨x, hx, hs, hk⟩)
          · exact Or.inl h
          · exact Or.inr ⟨site, List.mem_cons_self _ _, hskip, rfl⟩
          · exact Or.inr ⟨x, List.mem_cons_of_mem _ hx, hs, hk⟩
        · rintro (h | ⟨x, hx, hs, hk⟩)
          · exact Or.inl (Or.inl h)
          · rcases List.mem_cons.mp hx with rfl | hx
            · exact Or.inl (Or.inr hk.symm)
            · exact Or.inr ⟨x, hx, hs, hk⟩
      · intro hnodup
        apply h2
        rw [keys_mapSet]
        split
        · exact hnodup
        · rename_i hmem
          rw [List.nodup_append]
          refine ⟨hnodup, List.nodup_singleton _, ?_⟩
          intro a ha hb
          rw [List.mem_singleton] at hb
          exact hmem (hb ▸ ha)
      · intro hvals
        apply h3
        intro e he
        rcases mem_mapSet _ _ _ e he with h | h
        · exact hvals e h
        · rw [h]

theorem WriteFiles_after_sites {σ L : Type} (env : WriteEnv σ L) (cfg : MachConfig)
    (options : GenerateOptions) (s : σ) (pre rest : List SiteConfig) (w : World σ)
    (hsites : cfg.Sites = pre ++ rest)
    (hpre : sitesLoop env cfg options (FileLocations env cfg options) pre (initialWorld cfg s) =
      (w, none)) :
    WriteFiles env cfg options s =
      (match sitesLoop env cfg options (FileLocations env cfg options) rest w with
       | (w3, some err) => (w3, .error err)
       | (w3, none) => (w3, .ok (FileLocations env cfg options))) := by
  unfold WriteFiles
  dsimp only
  rw [hsites, sitesLoop_append env cfg options _ pre rest _ w hpre]

/-- C4: when the loop of `WriteFiles` reaches, in the world `w`, a selected site whose lock
reports no changes, the iteration for that site returns no error, leaves the file system
(lock files included) as it is, and records nothing but the registration of the renderer
and the log line: no rendering, no directory creation, no file write, no copy, no lock
update.  `WriteFiles` then goes on with the remaining sites from that world. -/
theorem WriteFiles_clean_site_untouched {σ L : Type} (env : WriteEnv σ L) (cfg : MachConfig)
    (options : GenerateOptions) (s : σ) (pre post : List SiteConfig) (site : SiteConfig)
    (w : World σ) (renderer : Renderer) (repo : StateRepository) (lock : L)
    (hsites : cfg.Sites = pre ++ site :: post)
    (hpre : sitesLoop env cfg options (FileLocations env cfg options) pre (initialWorld cfg s) =
      (w, none))
    (hnew : env.NewRenderer cfg.TerraformStateProvider site.Identifier cfg.TerraformRemoteState =
      .ok renderer)
    (hadd : env.Add w.repo renderer.Key renderer = .ok repo)
    (hsel : options.Site = "" ∨ site.Identifier = options.Site)
    (hlock : env.GetLock { cfg with StateRepository := repo } w.ext
      (mapGet (FileLocations env cfg options) site.Identifier) = .ok lock)
    (hclean : env.HasChanges lock { cfg with StateRepository := repo } = false) :
    writeSite env cfg options (FileLocations env cfg options) w site =
        ({ ext := w.ext, repo := repo,
           trace := w.trace ++ [.addRenderer site.Identifier renderer.Key,
             .info ("Files for site " ++ site.Identifier ++ " are up-to-date")] }, none) ∧
      WriteFiles env cfg options s =
        (match sitesLoop env cfg options (FileLocations env cfg options) post
            { ext := w.ext, repo := repo,
              trace := w.trace ++ [.addRenderer site.Identifier renderer.Key,
                .info ("Files for site " ++ site.Identifier ++ " are up-to-date")] } with
         | (w3, some err) => (w3, .error err)
         | (w3, none) => (w3, .ok (FileLocations env cfg options))) := by
  have hskip : skipSite options site = false := (skipSite_eq_false_iff options site).mpr hsel
  have hstep : writeSite env cfg options (FileLocations env cfg options) w site =
      ({ ext := w.ext, repo := repo,
         trace := w.trace ++ [.addRenderer site.Identifier renderer.Key,
           .info ("Files for site " ++ site.Identifier ++ " are up-to-date")] }, none) := by
    unfold writeSite
    simp only [hnew, hadd, hskip, Bool.false_eq_true, if_false, World.emit, hlock, hclean,
      Bool.not_false, if_true, List.append_assoc, List.singleton_append]
  refine ⟨hstep, ?_⟩
  rw [WriteFiles_after_sites env cfg options s pre (site :: post) w hsites hpre]
  simp only [sitesLoop, hstep]

/-- C4 at the configuration with the sites `A` and `S`, where the lock of `A` holds the
current fingerprint: the iteration for `A` leaves the file system `cleanAFS` as it is. -/
theorem WriteFiles_clean_site_untouched_witness :
    writeSite (exampleWriteEnv [] false) twoSiteConfig allSites
        (FileLocations (exampleWriteEnv [] false) twoSiteConfig allSites)
        (initialWorld twoSiteConfig cleanAFS) siteA =
      ({ ext := cleanAFS
         repo := exampleAdd twoSiteConfig.StateRepository "A" (exampleRenderer "A")
         trace := [.addRenderer "A" "A", .info "Files for site A are up-to-date"] }, none) :=
  (WriteFiles_clean_site_untouched (exampleWriteEnv [] false) twoSiteConfig allSites cleanAFS
    [] [siteS] siteA (initialWorld twoSiteConfig cleanAFS) (exampleRenderer "A")
    (exampleAdd twoSiteConfig.StateRepository "A" (exampleRenderer "A"))
    { path := "out/main/A", hash := some "fingerprint of conf/main.yml" }
    rfl rfl rfl rfl (Or.inl rfl) rfl rfl).1

/-- C6, as stated, fails: in the example environment whose parser rejects every output,
`validateFile` fails on the formatted output of site `S`, and `WriteFiles` still updates
and persists the lock of `S` and returns without error. -/
theorem WriteFiles_invalid_output_advances_lock :
    validateFile (exampleWriteEnv [] true) (formatFile (exampleWriteEnv [] true) "# site S") =
        some "generated HCL is invalid" ∧
      Event.writeFile "out/main/S/site.tf" "# site S" true ∈
        (WriteFiles (exampleWriteEnv [] true) twoSiteConfig onlySiteS emptyFS).1.trace ∧
      Event.lockUpdate "S" true ∈
        (WriteFiles (exampleWriteEnv [] true) twoSiteConfig onlySiteS emptyFS).1.trace ∧
      Event.writeLock "S" true ∈
        (WriteFiles (exampleWriteEnv [] true) twoSiteConfig onlySiteS emptyFS).1.trace ∧
      (WriteFiles (exampleWriteEnv [] true) twoSiteConfig onlySiteS emptyFS).1.ext.locks =
        [("out/main/S", "fingerprint of conf/main.yml")] ∧
      (WriteFiles (exampleWriteEnv [] true) twoSiteConfig onlySiteS emptyFS).2 =
        .ok [("S", "out/main/S")] := by
  refine ⟨rfl, by decide, by decide, by decide, by decide, rfl⟩

theorem sitesLoop_writeFile {σ L : Type} (env : WriteEnv σ L) (cfg : MachConfig)
    (options : GenerateOptions) (locations : List (String × String)) (sites : List SiteConfig)
    (w : World σ) :
    ∃ evs, (sitesLoop env cfg options locations sites w).1.trace = w.trace ++ evs ∧
      ∀ f d ok, Event.writeFile f d ok ∈ evs →
        ∃ site ∈ sites, skipSite options site = false ∧
          f = env.Join (mapGet locations site.Identifier) "site.tf" ∧
          ∃ repo body, env.renderSite { cfg with StateRepository := repo } site = .ok body ∧
            d = formatFile env body := by
  induction sites generalizing w with
  | nil => exact ⟨[], by simp [sitesLoop]⟩
  | cons site rest ih =>
    obtain ⟨evs, h1, _, _, _, h5⟩ := writeSite_shape env cfg options locations w site
    unfold sitesLoop
    cases hstep : writeSite env cfg options locations w site with
    | mk w1 o =>
      rw [hstep] at h1
      have hhere : ∀ f d ok, Event.writeFile f d ok ∈ evs →
          ∃ x ∈ site :: rest, skipSite options x = false ∧
            f = env.Join (mapGet locations x.Identifier) "site.tf" ∧
            ∃ repo body, env.renderSite { cfg with StateRepository := repo } x = .ok body ∧
              d = formatFile env body := by
        intro f d ok h
        obtain ⟨a, b, c⟩ := h5 f d ok h
        exact ⟨site, List.mem_cons_self _ _, a, b, c⟩
      cases o with
      | some err => exact ⟨evs, h1, hhere⟩
      | none =>
        dsimp only
        obtain ⟨evs2, h21, h22⟩ := ih w1
        refine ⟨evs ++ evs2, by rw [h21, h1, List.append_assoc], ?_⟩
        intro f d ok h
        rcases List.mem_append.mp h with h | h
        · exact hhere f d ok h
        · obtain ⟨x, hx, rest2⟩ := h22 f d ok h
          exact ⟨x, List.mem_cons_of_mem _ hx, rest2⟩

theorem FileLocations_find {σ L : Type} (env : WriteEnv σ L) (cfg : MachConfig)
    (options : GenerateOptions) (site : SiteConfig) (hsite : site ∈ cfg.Sites)
    (hskip : skipSite options site = false) :
    mapFind (FileLocations env cfg options) site.Identifier =
      some (env.Join (sitesPath env cfg options) site.Identifier) := by
  obtain ⟨h1, _, h3⟩ := locationsLoop_spec env options (sitesPath env cfg options) cfg.Sites []
  have hkey : site.Identifier ∈ (FileLocations env cfg options).map Prod.fst :=
    (h1 site.Identifier).mpr (Or.inr ⟨site, hsite, hskip, rfl⟩)
  obtain ⟨v, hv⟩ := (mapFind_isSome_iff _ _).mpr hkey
  have hmem := mapFind_mem _ _ _ hv
  have hval := h3 (by simp) _ hmem
  rw [hv]
  exact congrArg some hval

/-! ## The state renderers registered when a site is rendered -/

theorem split_at_event (l1 l2 before after : List Event) (e : Event)
    (h : l1 ++ l2 = before ++ e :: after) :
    (∃ a1, l1 = before ++ e :: a1 ∧ after = a1 ++ l2) ∨
      (∃ b2, before = l1 ++ b2 ∧ l2 = b2 ++ e :: after) := by
  induction l1 generalizing before with
  | nil => exact Or.inr ⟨before, rfl, h⟩
  | cons x xs ih =>
    cases before with
    | nil =>
      simp only [List.cons_append, List.nil_append, List.cons.injEq] at h
      exact Or.inl ⟨xs, by simp [h.1], h.2.symm⟩
    | cons y ys =>
      simp only [List.cons_append, List.cons.injEq] at h
      rcases ih ys h.2 with ⟨a1, h1, h2⟩ | ⟨b2, h1, h2⟩
      · exact Or.inl ⟨a1, by simp [h.1, h1], h2⟩
      · exact Or.inr ⟨b2, by simp [h.1, h1], h2⟩

theorem isCopyStep_quiet (e : Event) (h : e.isCopyStep = true) :
    e.addedSite = none ∧ e.renderedSite = none := by
  cases e <;> simp_all [Event.isCopyStep, Event.addedSite, Event.renderedSite]

theorem isLockEvent_quiet (e : Event) (h : e.isLockEvent = true) :
    e.addedSite = none ∧ e.renderedSite = none := by
  cases e <;> simp_all [Event.isLockEvent, Event.addedSite, Event.renderedSite]

theorem writeOutput_quiet {σ L : Type} (env : WriteEnv σ L) (cfg : MachConfig)
    (site : SiteConfig) (path filename formatted : String) (lock : L) (w : World σ) :
    ∃ evs, (writeOutput env cfg site path filename formatted lock w).1.trace = w.trace ++ evs ∧
      ∀ e ∈ evs, e.addedSite = none ∧ e.renderedSite = none := by
  unfold writeOutput
  cases env.MkdirAll w.ext path with
  | mk s1 o1 =>
    cases o1 with
    | some err =>
      refine ⟨[.mkdirAll path false], by simp [World.emit], ?_⟩
      intro e he
      rw [List.mem_singleton.mp he]
      exact ⟨rfl, rfl⟩
    | none =>
      dsimp only
      cases env.WriteFile
          (({ w with ext := s1 } : World σ).emit (.mkdirAll path true)).ext filename formatted with
      | mk s2 o2 =>
        cases o2 with
        | some err =>
          refine ⟨[.mkdirAll path true, .writeFile filename formatted false],
            by simp [World.emit], ?_⟩
          intro e he
          simp only [List.mem_cons, List.mem_singleton, List.not_mem_nil, or_false] at he
          rcases he with rfl | rfl <;> exact ⟨rfl, rfl⟩
        | none =>
          dsimp only
          obtain ⟨cevs, hc1, _, hc3, _, _⟩ := copyLoop_shape env path
            (cfg.Variables.GetEncryptedSources site.Identifier)
            (({ ({ w with ext := s1 } : World σ).emit (.mkdirAll path true) with ext := s2 } :
              World σ).emit (.writeFile filename formatted true))
          cases hcl : copyLoop env path (cfg.Variables.GetEncryptedSources site.Identifier)
            (({ ({ w with ext := s1 } : World σ).emit (.mkdirAll path true) with ext := s2 } :
              World σ).emit (.writeFile filename formatted true)) with
          | mk w3 o3 =>
            rw [hcl] at hc1
            simp only [World.emit, List.append_assoc, List.singleton_append] at hc1
            cases o3 with
            | some err =>
              refine ⟨[.mkdirAll path true, .writeFile filename formatted true] ++ cevs,
                by simp [hc1], ?_⟩
              intro e he
              simp only [List.cons_append, List.nil_append, List.mem_cons] at he
              rcases he with rfl | rfl | he
              · exact ⟨rfl, rfl⟩
              · exact ⟨rfl, rfl⟩
              · exact isCopyStep_quiet e (hc3 e he)
            | none =>
              dsimp only
              obtain ⟨kevs, hk1, _, hk3, _⟩ := commitLock_shape env cfg site lock w3
              refine ⟨[.mkdirAll path true, .writeFile filename formatted true] ++ cevs ++ kevs,
                by simp [hk1, hc1], ?_⟩
              intro e he
              simp only [List.cons_append, List.nil_append, List.mem_cons,
                List.mem_append] at he
              rcases he with rfl | rfl | he | he
              · exact ⟨rfl, rfl⟩
              · exact ⟨rfl, rfl⟩
              · exact isCopyStep_quiet e (hc3 e he)
              · exact isLockEvent_quiet e (hk3 e he)

theorem generateSite_registry {σ L : Type} (env : WriteEnv σ L) (cfg : MachConfig)
    (site : SiteConfig) (path : String) (lock : L) (w : World σ) :
    ∃ evs, (generateSite env cfg site path lock w).1.trace = w.trace ++ evs ∧
      ∀ e ∈ evs, e.addedSite = none ∧ ∀ x, e.renderedSite = some x → x = site.Identifier := by
  unfold generateSite
  dsimp only
  cases env.renderSite cfg site with
  | error err =>
    refine ⟨[.info ("Writing " ++ env.Join path "site.tf"), .renderSite site.Identifier false],
      by simp [World.emit], ?_⟩
    intro e he
    simp only [List.mem_cons, List.mem_singleton, List.not_mem_nil, or_false] at he
    rcases he with rfl | rfl
    · exact ⟨rfl, fun x hx => by cases hx⟩
    · refine ⟨rfl, fun x hx => ?_⟩
      simp only [Event.renderedSite, Option.some.injEq] at hx
      exact hx.symm
  | ok body =>
    dsimp only
    obtain ⟨w2, hw2⟩ : ∃ w2 : World σ, w2 =
        (w.emit (.info ("Writing " ++ env.Join path "site.tf"))).emit
          (.renderSite site.Identifier true) := ⟨_, rfl⟩
    rw [← hw2]
    have ht : w2.trace = w.trace ++
        [.info ("Writing " ++ env.Join path "site.tf"), .renderSite site.Identifier true] := by
      rw [hw2]; simp [World.emit]
    obtain ⟨vevs, hv1, _, _, hv4⟩ := logValidation_shape env (formatFile env body) w2
    obtain ⟨oevs, ho1, ho2⟩ := writeOutput_quiet env cfg site path
      (env.Join path "site.tf") (formatFile env body) lock
      (logValidation env (formatFile env body) w2)
    rw [hv1, ht] at ho1
    refine ⟨[.info ("Writing " ++ env.Join path "site.tf"), .renderSite site.Identifier true]
      ++ vevs ++ oevs, by simp [ho1], ?_⟩
    intro e he
    simp only [List.cons_append, List.nil_append, List.mem_cons, List.mem_append] at he
    rcases he with rfl | rfl | he | he
    · exact ⟨rfl, fun x hx => by cases hx⟩
    · refine ⟨rfl, fun x hx => ?_⟩
      simp only [Event.renderedSite, Option.some.injEq] at hx
      exact hx.symm
    · obtain ⟨msg, rfl⟩ := hv4 e he
      exact ⟨rfl, fun x hx => by cases hx⟩
    · obtain ⟨h1, h2⟩ := ho2 e he
      refine ⟨h1, fun x hx => ?_⟩
      rw [h2] at hx
      cases hx

theorem addedSites_append (l1 l2 : List Event) :
    addedSites (l1 ++ l2) = addedSites l1 ++ addedSites l2 := by
  simp [addedSites, List.filterMap_append]

theorem addedSites_quiet (l : List Event) (h : ∀ e ∈ l, e.addedSite = none) :
    addedSites l = [] := by
  induction l with
  | nil => rfl
  | cons e rest ih =>
    have he := h e (List.mem_cons_self _ _)
    have hrest := ih (fun x hx => h x (List.mem_cons_of_mem _ hx))
    simp only [addedSites] at hrest ⊢
    rw [List.filterMap_cons, he]
    exact hrest

theorem addedSites_addRenderer (site key : String) (rest : List Event) :
    addedSites (Event.addRenderer site key :: rest) = site :: addedSites rest := by
  simp [addedSites, List.filterMap_cons, Event.addedSite]

theorem first_site_split (site key : String) (rest before after : List Event) (other : String)
    (ok : Bool)
    (hquiet : ∀ e ∈ rest, e.addedSite = none ∧ ∀ x, e.renderedSite = some x → x = site)
    (h : Event.addRenderer site key :: rest = before ++ Event.renderSite other ok :: after) :
    other = site ∧ addedSites before = [site] := by
  cases before with
  | nil =>
    simp only [List.nil_append, List.cons.injEq] at h
    cases h.1
  | cons b bs =>
    simp only [List.cons_append, List.cons.injEq] at h
    obtain ⟨hb, hrest⟩ := h
    have hmem : Event.renderSite other ok ∈ rest := by
      rw [hrest]
      simp
    refine ⟨(hquiet _ hmem).2 other rfl, ?_⟩
    rw [← hb, addedSites_addRenderer]
    have hbs : addedSites bs = [] := by
      apply addedSites_quiet
      intro e he
      exact (hquiet e (by rw [hrest]; simp [he])).1
    rw [hbs]

theorem writeSite_registry {σ L : Type} (env : WriteEnv σ L) (cfg : MachConfig)
    (options : GenerateOptions) (locations : List (String × String)) (w : World σ)
    (site : SiteConfig) :
    ∃ evs, (writeSite env cfg options locations w site).1.trace = w.trace ++ evs ∧
      ((evs = [] ∧ ∃ err, (writeSite env cfg options locations w site).2 = some err) ∨
        (∃ renderer repo rest,
          env.NewRenderer cfg.TerraformStateProvider site.Identifier cfg.TerraformRemoteState =
            .ok renderer ∧
          env.Add w.repo renderer.Key renderer = .ok repo ∧
          (writeSite env cfg options locations w site).1.repo = repo ∧
          evs = Event.addRenderer site.Identifier renderer.Key :: rest ∧
          ∀ e ∈ rest, e.addedSite = none ∧
            ∀ x, e.renderedSite = some x → x = site.Identifier)) := by
  unfold writeSite
  cases hnew : env.NewRenderer cfg.TerraformStateProvider site.Identifier
      cfg.TerraformRemoteState with
  | error err => exact ⟨[], by simp, Or.inl ⟨rfl, err, rfl⟩⟩
  | ok renderer =>
    dsimp only
    cases hadd : env.Add w.repo renderer.Key renderer with
    | error err => exact ⟨[], by simp, Or.inl ⟨rfl, err, rfl⟩⟩
    | ok repo =>
      dsimp only
      cases skipSite options site with
      | true =>
        refine ⟨[.addRenderer site.Identifier renderer.Key], by simp [World.emit],
          Or.inr ⟨renderer, repo, [], rfl, hadd, rfl, rfl, ?_⟩⟩
        intro e he
        cases he
      | false =>
        simp only [Bool.false_eq_true, if_false]
        cases env.GetLock
            { cfg with StateRepository :=
                (({ w with repo := repo } : World σ).emit
                  (.addRenderer site.Identifier renderer.Key)).repo }
            (({ w with repo := repo } : World σ).emit
              (.addRenderer site.Identifier renderer.Key)).ext
            (mapGet locations site.Identifier) with
        | error err =>
          refine ⟨[.addRenderer site.Identifier renderer.Key], by simp [World.emit],
            Or.inr ⟨renderer, repo, [], rfl, hadd, rfl, rfl, ?_⟩⟩
          intro e he
          cases he
        | ok lock =>
          dsimp only
          cases env.HasChanges lock
              { cfg with StateRepository :=
                  (({ w with repo := repo } : World σ).emit
                    (.addRenderer site.Identifier renderer.Key)).repo } with
          | false =>
            simp only [Bool.not_false, if_true]
            refine ⟨[.addRenderer site.Identifier renderer.Key,
              .info ("Files for site " ++ site.Identifier ++ " are up-to-date")],
              by simp [World.emit], Or.inr ⟨renderer, repo, _, rfl, hadd, rfl, rfl, ?_⟩⟩
            intro e he
            rw [List.mem_singleton.mp he]
            exact ⟨rfl, fun x hx => by cases hx⟩
          | true =>
            simp only [Bool.not_true, Bool.false_eq_true, if_false]
            obtain ⟨gevs, hg1, hg2⟩ := generateSite_registry env
              { cfg with StateRepository :=
                  (({ w with repo := repo } : World σ).emit
                    (.addRenderer site.Identifier renderer.Key)).repo }
              site (mapGet locations site.Identifier) lock
              (({ w with repo := repo } : World σ).emit
                (.addRenderer site.Identifier renderer.Key))
            obtain ⟨_, _, hrepo, _⟩ := generateSite_shape env
              { cfg with StateRepository :=
                  (({ w with repo := repo } : World σ).emit
                    (.addRenderer site.Identifier renderer.Key)).repo }
              site (mapGet locations site.Identifier) lock
              (({ w with repo := repo } : World σ).emit
                (.addRenderer site.Identifier renderer.Key))
            refine ⟨[.addRenderer site.Identifier renderer.Key] ++ gevs,
              by rw [hg1]; simp [World.emit],
              Or.inr ⟨renderer, repo, gevs, rfl, hadd, hrepo, rfl, hg2⟩⟩

theorem sitesLoop_registry {σ L : Type} (env : WriteEnv σ L) (cfg : MachConfig)
    (options : GenerateOptions) (locations : List (String × String)) (sites : List SiteConfig)
    (w : World σ) :
    ∃ evs, (sitesLoop env cfg options locations sites w).1.trace = w.trace ++ evs ∧
      (∀ before after other ok, evs = before ++ Event.renderSite other ok :: after →
        ∃ pre site post, sites = pre ++ site :: post ∧ site.Identifier = other ∧
          addedSites before = (pre ++ [site]).map SiteConfig.Identifier) ∧
      ((sitesLoop env cfg options locations sites w).2 = none →
        addedSites evs = sites.map SiteConfig.Identifier ∧
          registerSites env cfg sites w.repo =
            .ok (sitesLoop env cfg options locations sites w).1.repo) := by
  induction sites generalizing w with
  | nil =>
    refine ⟨[], by simp [sitesLoop], ?_, ?_⟩
    · intro before after other ok h
      cases before <;> cases h
    · intro _
      exact ⟨rfl, rfl⟩
  | cons site rest ih =>
    obtain ⟨evs1, h1, hcase⟩ := writeSite_registry env cfg options locations w site
    unfold sitesLoop
    cases hstep : writeSite env cfg options locations w site with
    | mk w1 o =>
      rw [hstep] at h1 hcase
      rcases hcase with ⟨hnil, err, herr⟩ | ⟨renderer, repo, rest1, hnew, hadd, hrepo, hevs,
        hquiet⟩
      · simp only at herr
        subst herr
        refine ⟨evs1, h1, ?_, ?_⟩
        · intro before after other ok h
          rw [hnil] at h
          cases before <;> cases h
        · intro h
          cases h
      · have hhere : ∀ before after other ok,
            evs1 = before ++ Event.renderSite other ok :: after →
            ∃ pre x post, site :: rest = pre ++ x :: post ∧ x.Identifier = other ∧
              addedSites before = (pre ++ [x]).map SiteConfig.Identifier := by
          intro before after other ok h
          rw [hevs] at h
          obtain ⟨ha, hb⟩ := first_site_split _ _ _ _ _ _ _ hquiet h
          exact ⟨[], site, rest, rfl, ha.symm, by simp [hb]⟩
        have hadded1 : addedSites evs1 = [site.Identifier] := by
          rw [hevs, addedSites_addRenderer, addedSites_quiet rest1 (fun e he => (hquiet e he).1)]
        cases o with
        | some err =>
          refine ⟨evs1, h1, hhere, ?_⟩
          intro h
          cases h
        | none =>
          dsimp only at hrepo ⊢
          obtain ⟨evs2, h21, h22, h23⟩ := ih w1
          refine ⟨evs1 ++ evs2, by rw [h21, h1, List.append_assoc], ?_, ?_⟩
          · intro before after other ok h
            rcases split_at_event evs1 evs2 before after _ h with ⟨a1, hl, _⟩ | ⟨b2, hb, hl⟩
            · exact hhere before a1 other ok hl
            · obtain ⟨pre, x, post, hs, hx, hadded⟩ := h22 b2 after other ok hl
              refine ⟨site :: pre, x, post, by simp [hs], hx, ?_⟩
              rw [hb, addedSites_append, hadded1, hadded]
              simp
          · intro hnone
            obtain ⟨ha, hb⟩ := h23 hnone
            refine ⟨by rw [addedSites_append, hadded1, ha]; simp, ?_⟩
            simp only [registerSites, hnew, hadd]
            rw [← hrepo]
            exact hb

theorem registerSites_append {σ L : Type} (env : WriteEnv σ L) (cfg : MachConfig)
    (pre rest : List SiteConfig) (repo repo1 : StateRepository)
    (h : registerSites env cfg pre repo = .ok repo1) :
    registerSites env cfg (pre ++ rest) repo = registerSites env cfg rest repo1 := by
  induction pre generalizing repo with
  | nil =>
    simp only [registerSites, Except.ok.injEq] at h
    subst h
    rfl
  | cons site more ih =>
    simp only [List.cons_append, registerSites] at h ⊢
    cases hnew : env.NewRenderer cfg.TerraformStateProvider site.Identifier
        cfg.TerraformRemoteState with
    | error err => rw [hnew] at h; cases h
    | ok renderer =>
      rw [hnew] at h
      dsimp only at h ⊢
      cases hadd : env.Add repo renderer.Key renderer with
      | error err => rw [hadd] at h; cases h
      | ok repo2 =>
        rw [hadd] at h
        dsimp only at h ⊢
        exact ih repo2 h

theorem WriteFiles_world {σ L : Type} (env : WriteEnv σ L) (cfg : MachConfig)
    (options : GenerateOptions) (s : σ) :
    (WriteFiles env cfg options s).1 =
        (sitesLoop env cfg options (FileLocations env cfg options) cfg.Sites
          (initialWorld cfg s)).1 ∧
      (∀ locations, (WriteFiles env cfg options s).2 = .ok locations →
        (sitesLoop env cfg options (FileLocations env cfg options) cfg.Sites
          (initialWorld cfg s)).2 = none) := by
  unfold WriteFiles
  dsimp only
  cases sitesLoop env cfg options (FileLocations env cfg options) cfg.Sites
      (initialWorld cfg s) with
  | mk w3 o =>
    cases o with
    | some err =>
      refine ⟨rfl, ?_⟩
      intro locations h
      cases h
    | none => exact ⟨rfl, fun _ _ => rfl⟩

/-- C11: whenever `WriteFiles` renders a site, the state renderers added so far are those of
the sites at the positions up to and including that of the rendered site, in order, skipped
and clean sites included, and none of a later position; so they are as many as the sites
only when the rendered site is the last.  When `WriteFiles` returns without error a
renderer has been added for every site.  The state repository that the rendering of the
site at a position sees is the one of the configuration with the renderers of the sites up
to that position registered. -/
theorem WriteFiles_renderers_added_when_rendering {σ L : Type} (env : WriteEnv σ L)
    (cfg : MachConfig) (options : GenerateOptions) (s : σ) :
    (∀ before after other ok,
      (WriteFiles env cfg options s).1.trace = before ++ Event.renderSite other ok :: after →
      ∃ pre site post, cfg.Sites = pre ++ site :: post ∧ site.Identifier = other ∧
        addedSites before = (pre ++ [site]).map SiteConfig.Identifier ∧
        ((addedSites before).length = cfg.Sites.length ↔ post = [])) ∧
    (∀ locations, (WriteFiles env cfg options s).2 = .ok locations →
      addedSites (WriteFiles env cfg options s).1.trace = cfg.Sites.map SiteConfig.Identifier ∧
        registerSites env cfg cfg.Sites cfg.StateRepository =
          .ok (WriteFiles env cfg options s).1.repo) ∧
    (∀ (pre post : List SiteConfig) (site : SiteConfig) (w : World σ) (renderer : Renderer)
      (repo : StateRepository) (lock : L),
      cfg.Sites = pre ++ site :: post →
      sitesLoop env cfg options (FileLocations env cfg options) pre (initialWorld cfg s) =
        (w, none) →
      env.NewRenderer cfg.TerraformStateProvider site.Identifier cfg.TerraformRemoteState =
        .ok renderer →
      env.Add w.repo renderer.Key renderer = .ok repo →
      (options.Site = "" ∨ site.Identifier = options.Site) →
      env.GetLock { cfg with StateRepository := repo } w.ext
        (mapGet (FileLocations env cfg options) site.Identifier) = .ok lock →
      env.HasChanges lock { cfg with StateRepository := repo } = true →
      registerSites env cfg (pre ++ [site]) cfg.StateRepository = .ok repo ∧
        writeSite env cfg options (FileLocations env cfg options) w site =
          generateSite env { cfg with StateRepository := repo } site
            (mapGet (FileLocations env cfg options) site.Identifier) lock
            { ext := w.ext, repo := repo,
              trace := w.trace ++ [.addRenderer site.Identifier renderer.Key] }) := by
  obtain ⟨hworld, hok⟩ := WriteFiles_world env cfg options s
  obtain ⟨evs, h1, h2, h3⟩ := sitesLoop_registry env cfg options
    (FileLocations env cfg options) cfg.Sites (initialWorld cfg s)
  have htr : (initialWorld cfg s).trace = [] := rfl
  rw [htr, List.nil_append] at h1
  refine ⟨?_, ?_, ?_⟩
  · intro before after other ok h
    rw [hworld, h1] at h
    obtain ⟨pre, site, post, hs, hid, hadded⟩ := h2 before after other ok h
    refine ⟨pre, site, post, hs, hid, hadded, ?_⟩
    rw [hadded, hs]
    simp only [List.length_map, List.length_append, List.length_cons, List.length_nil]
    constructor
    · intro hlen
      have : post.length = 0 := by omega
      exact List.length_eq_zero.mp this
    · intro hpost
      rw [hpost]
      rfl
  · intro locations hres
    obtain ⟨ha, hb⟩ := h3 (hok locations hres)
    rw [hworld, h1]
    exact ⟨ha, hb⟩
  · intro pre post site w renderer repo lock hsites hpre hnew hadd hsel hlock hchanges
    have hskip : skipSite options site = false := (skipSite_eq_false_iff options site).mpr hsel
    constructor
    · obtain ⟨_, _, _, hp3⟩ := sitesLoop_registry env cfg options
        (FileLocations env cfg options) pre (initialWorld cfg s)
      rw [hpre] at hp3
      have hreg := (hp3 rfl).2
      simp only [initialWorld] at hreg
      rw [registerSites_append env cfg pre [site] _ w.repo hreg]
      simp only [registerSites, hnew, hadd]
    · unfold writeSite
      simp only [hnew, hadd, hskip, Bool.false_eq_true, if_false, World.emit, hlock, hchanges,
        Bool.not_true]

/-- C11 at the configuration with the sites `A` and `S`: when `S`, the last site, is
rendered, the renderers of `A`, which is clean, and of `S` have been added. -/
theorem WriteFiles_renderers_added_when_rendering_witness :
    ∃ pre site post, twoSiteConfig.Sites = pre ++ site :: post ∧ site.Identifier = "S" ∧
      addedSites
          [.addRenderer "A" "A", .info "Files for site A are up-to-date",
            .addRenderer "S" "S", .info "Writing out/main/S/site.tf"] =
        (pre ++ [site]).map SiteConfig.Identifier ∧
      ((addedSites
          [.addRenderer "A" "A", .info "Files for site A are up-to-date",
            .addRenderer "S" "S", .info "Writing out/main/S/site.tf"]).length =
        twoSiteConfig.Sites.length ↔ post = []) :=
  (WriteFiles_renderers_added_when_rendering (exampleWriteEnv [] false) twoSiteConfig allSites
    cleanAFS).1
    [.addRenderer "A" "A", .info "Files for site A are up-to-date",
      .addRenderer "S" "S", .info "Writing out/main/S/site.tf"]
    [.mkdirAll "out/main/S" true, .writeFile "out/main/S/site.tf" "# site S" true,
      .lockUpdate "S" true, .writeLock "S" true]
    "S" true (by rfl)

/-! ## The loop body of `WriteFiles` in terms of the operations it calls -/

theorem copy_fails_or_succeeds {σ L : Type} (env : WriteEnv σ L) (path : String)
    (sources : List FileSource) (s : σ) :
    copyFails env path sources s ∨ copiesSucceed env path sources s := by
  induction sources generalizing s with
  | nil => exact Or.inr trivial
  | cons fs rest ih =>
    unfold copyFails copiesSucceed
    cases ho : env.Open s fs.Filename with
    | some err => exact Or.inl (Or.inl ⟨err, rfl⟩)
    | none =>
      cases hr : env.ReadAll s fs.Filename with
      | error err => exact Or.inl (Or.inr ⟨rfl, Or.inl ⟨err, rfl⟩⟩)
      | ok contents =>
        cases hc : env.Create s (env.Join path fs.Filename) with
        | mk s1 o1 =>
          cases o1 with
          | some err =>
            exact Or.inl (Or.inr ⟨rfl, Or.inr ⟨contents, rfl, Or.inl ⟨s1, err, rfl⟩⟩⟩)
          | none =>
            cases hw : env.Write s1 (env.Join path fs.Filename) contents with
            | mk s2 o2 =>
              cases o2 with
              | some err =>
                exact Or.inl (Or.inr ⟨rfl, Or.inr ⟨contents, rfl,
                  Or.inr ⟨s1, rfl, Or.inl ⟨s2, err, hw⟩⟩⟩⟩)
              | none =>
                rcases ih s2 with h | h
                · exact Or.inl (Or.inr ⟨rfl, Or.inr ⟨contents, rfl,
                    Or.inr ⟨s1, rfl, Or.inr ⟨s2, hw, h⟩⟩⟩⟩)
                · exact Or.inr ⟨rfl, contents, s1, s2, rfl, rfl, hw, h⟩

theorem copyLoop_ext {σ L : Type} (env : WriteEnv σ L) (path : String)
    (sources : List FileSource) (w : World σ) :
    (copyLoop env path sources w).1.ext = copiedState env path sources w.ext := by
  induction sources generalizing w with
  | nil => rfl
  | cons fs rest ih =>
    unfold copyLoop copiedState
    dsimp only
    have hext : (w.emit (.info ("Copying " ++ env.Join path fs.Filename))).ext = w.ext := rfl
    rw [hext]
    cases copyFile env w.ext fs.Filename (env.Join path fs.Filename) with
    | mk s1 o =>
      cases o with
      | some err => rfl
      | none =>
        dsimp only
        rw [ih]
        rfl

theorem copyLoop_of_fails {σ L : Type} (env : WriteEnv σ L) (path : String)
    (sources : List FileSource) (w : World σ) (h : copyFails env path sources w.ext) :
    ∃ err, (copyLoop env path sources w).2 = some ("error writing extra file: " ++ err) := by
  induction sources generalizing w with
  | nil => exact absurd h (by simp [copyFails])
  | cons fs rest ih =>
    unfold copyFails at h
    unfold copyLoop
    dsimp only
    have hext : (w.emit (.info ("Copying " ++ env.Join path fs.Filename))).ext = w.ext := rfl
    rw [hext]
    rcases h with ⟨err, ho⟩ | ⟨ho, ⟨err, hr⟩ | ⟨contents, hr, ⟨s1, err, hc⟩ |
      ⟨s1, hc, ⟨s2, err, hw⟩ | ⟨s2, hw, hrest⟩⟩⟩⟩
    · exact ⟨err, by simp [copyFile, ho]⟩
    · exact ⟨err, by simp [copyFile, ho, hr]⟩
    · exact ⟨err, by simp [copyFile, ho, hr, hc]⟩
    · exact ⟨err, by simp [copyFile, ho, hr, hc, hw]⟩
    · have hcopy : copyFile env w.ext fs.Filename (env.Join path fs.Filename) = (s2, none) := by
        simp [copyFile, ho, hr, hc, hw]
      rw [hcopy]
      dsimp only
      exact ih _ hrest

theorem copyLoop_of_succeeds {σ L : Type} (env : WriteEnv σ L) (path : String)
    (sources : List FileSource) (w : World σ) (h : copiesSucceed env path sources w.ext) :
    copyLoop env path sources w =
      ({ ext := copiedState env path sources w.ext, repo := w.repo,
         trace := w.trace ++ copyEvents env path sources }, none) := by
  induction sources generalizing w with
  | nil => simp [copyLoop, copiedState, copyEvents]
  | cons fs rest ih =>
    unfold copiesSucceed at h
    obtain ⟨ho, contents, s1, s2, hr, hc, hw, hrest⟩ := h
    have hcopy : copyFile env w.ext fs.Filename (env.Join path fs.Filename) = (s2, none) := by
      simp [copyFile, ho, hr, hc, hw]
    unfold copyLoop copiedState
    dsimp only
    have hext : (w.emit (.info ("Copying " ++ env.Join path fs.Filename))).ext = w.ext := rfl
    rw [hext, hcopy]
    dsimp only
    rw [ih _ hrest]
    simp [World.emit, copyEvents]

theorem copyLoop_none_succeeds {σ L : Type} (env : WriteEnv σ L) (path : String)
    (sources : List FileSource) (w : World σ)
    (h : (copyLoop env path sources w).2 = none) : copiesSucceed env path sources w.ext := by
  rcases copy_fails_or_succeeds env path sources w.ext with hf | hs
  · obtain ⟨err, herr⟩ := copyLoop_of_fails env path sources w hf
    rw [herr] at h
    cases h
  · exact hs

theorem logValidation_eq {σ L : Type} (env : WriteEnv σ L) (formatted : String)
    (w : World σ) :
    logValidation env formatted w =
      { ext := w.ext, repo := w.repo, trace := w.trace ++ validationLog env formatted } := by
  unfold logValidation validationLog
  cases validateFile env formatted with
  | none => simp
  | some err => simp [World.emit]

theorem commitLock_eq {σ L : Type} (env : WriteEnv σ L) (cfg : MachConfig) (site : SiteConfig)
    (lock lock2 : L) (w : World σ) (s4 : σ) (o4 : Option Error)
    (hupd : env.Update lock cfg = .ok lock2) (hwl : env.WriteLock w.ext lock2 = (s4, o4)) :
    commitLock env cfg site lock w =
      ({ ext := s4, repo := w.repo,
         trace := w.trace ++
           [.lockUpdate site.Identifier true, .writeLock site.Identifier o4.isNone] }, o4) := by
  unfold commitLock
  rw [hupd]
  dsimp only
  have hext : (w.emit (.lockUpdate site.Identifier true)).ext = w.ext := rfl
  rw [hext, hwl]
  cases o4 with
  | some err => simp [World.emit]
  | none => simp [World.emit]

theorem writeOutput_mkdir_fails {σ L : Type} (env : WriteEnv σ L) (cfg : MachConfig)
    (site : SiteConfig) (path filename formatted : String) (lock : L) (w : World σ) (s1 : σ)
    (err : Error) (hmk : env.MkdirAll w.ext path = (s1, some err)) :
    writeOutput env cfg site path filename formatted lock w =
      ({ ext := s1, repo := w.repo, trace := w.trace ++ [.mkdirAll path false] },
        some ("error creating directory structure: " ++ err)) := by
  unfold writeOutput
  rw [hmk]
  simp [World.emit]

theorem writeOutput_write_fails {σ L : Type} (env : WriteEnv σ L) (cfg : MachConfig)
    (site : SiteConfig) (path filename formatted : String) (lock : L) (w : World σ)
    (s1 s2 : σ) (err : Error) (hmk : env.MkdirAll w.ext path = (s1, none))
    (hwr : env.WriteFile s1 filename formatted = (s2, some err)) :
    writeOutput env cfg site path filename formatted lock w =
      ({ ext := s2, repo := w.repo,
         trace := w.trace ++ [.mkdirAll path true, .writeFile filename formatted false] },
        some ("error writing file: " ++ err)) := by
  unfold writeOutput
  rw [hmk]
  dsimp only
  have hext : (({ w with ext := s1 } : World σ).emit (.mkdirAll path true)).ext = s1 := rfl
  rw [hext, hwr]
  simp [World.emit]

theorem writeOutput_written {σ L : Type} (env : WriteEnv σ L) (cfg : MachConfig)
    (site : SiteConfig) (path filename formatted : String) (lock : L) (w : World σ)
    (s1 s2 : σ) (hmk : env.MkdirAll w.ext path = (s1, none))
    (hwr : env.WriteFile s1 filename formatted = (s2, none)) :
    writeOutput env cfg site path filename formatted lock w =
      (match copyLoop env path (cfg.Variables.GetEncryptedSources site.Identifier)
          { ext := s2, repo := w.repo,
            trace := w.trace ++ [.mkdirAll path true, .writeFile filename formatted true] } with
       | (w3, some err) => (w3, some err)
       | (w3, none) => commitLock env cfg site lock w3) := by
  unfold writeOutput
  rw [hmk]
  dsimp only
  have hext : (({ w with ext := s1 } : World σ).emit (.mkdirAll path true)).ext = s1 := rfl
  rw [hext, hwr]
  simp [World.emit]

theorem generateSite_render_fails {σ L : Type} (env : WriteEnv σ L) (cfg : MachConfig)
    (site : SiteConfig) (path : String) (lock : L) (w : World σ) (err : Error)
    (hrender : env.renderSite cfg site = .error err) :
    generateSite env cfg site path lock w =
      ({ ext := w.ext, repo := w.repo,
         trace := w.trace ++ [.info ("Writing " ++ env.Join path "site.tf"),
           .renderSite site.Identifier false] }, some err) := by
  unfold generateSite
  dsimp only
  rw [hrender]
  simp [World.emit]

theorem generateSite_rendered {σ L : Type} (env : WriteEnv σ L) (cfg : MachConfig)
    (site : SiteConfig) (path : String) (lock : L) (w : World σ) (body : String)
    (hrender : env.renderSite cfg site = .ok body) :
    generateSite env cfg site path lock w =
      writeOutput env cfg site path (env.Join path "site.tf") (formatFile env body) lock
        { ext := w.ext, repo := w.repo,
          trace := w.trace ++ ([.info ("Writing " ++ env.Join path "site.tf"),
            .renderSite site.Identifier true] ++ validationLog env (formatFile env body)) } := by
  unfold generateSite
  dsimp only
  rw [hrender]
  dsimp only
  rw [logValidation_eq]
  simp [World.emit]

theorem writeSite_dirty {σ L : Type} (env : WriteEnv σ L) (cfg : MachConfig)
    (options : GenerateOptions) (locations : List (String × String)) (w : World σ)
    (site : SiteConfig) (renderer : Renderer) (repo : StateRepository) (lock : L)
    (hnew : env.NewRenderer cfg.TerraformStateProvider site.Identifier cfg.TerraformRemoteState =
      .ok renderer)
    (hadd : env.Add w.repo renderer.Key renderer = .ok repo)
    (hsel : options.Site = "" ∨ site.Identifier = options.Site)
    (hlock : env.GetLock { cfg with StateRepository := repo } w.ext
      (mapGet locations site.Identifier) = .ok lock)
    (hchanges : env.HasChanges lock { cfg with StateRepository := repo } = true) :
    writeSite env cfg options locations w site =
      generateSite env { cfg with StateRepository := repo } site
        (mapGet locations site.Identifier) lock
        { ext := w.ext, repo := repo,
          trace := w.trace ++ [.addRenderer site.Identifier renderer.Key] } := by
  have hskip : skipSite options site = false := (skipSite_eq_false_iff options site).mpr hsel
  unfold writeSite
  simp only [hnew, hadd, hskip, Bool.false_eq_true, if_false, World.emit, hlock, hchanges,
    Bool.not_true]

theorem writeOutput_of_fails {σ L : Type} (env : WriteEnv σ L) (cfg : MachConfig)
    (site : SiteConfig) (path filename formatted : String) (lock : L) (w : World σ)
    (hfail : outputFails env path filename formatted
      (cfg.Variables.GetEncryptedSources site.Identifier) w.ext) :
    (∃ err, (writeOutput env cfg site path filename formatted lock w).2 = some err) ∧
      (writeOutput env cfg site path filename formatted lock w).1.repo = w.repo ∧
      ∃ evs, (writeOutput env cfg site path filename formatted lock w).1.trace = w.trace ++ evs ∧
        ∀ e ∈ evs, e.isLockEvent = false := by
  rcases hfail with ⟨s1, err, hmk⟩ | ⟨s1, hmk, ⟨s2, err, hwr⟩ | ⟨s2, hwr, hcopy⟩⟩
  · rw [writeOutput_mkdir_fails env cfg site path filename formatted lock w s1 err hmk]
    refine ⟨⟨_, rfl⟩, rfl, _, rfl, ?_⟩
    intro e he
    rw [List.mem_singleton.mp he]
    rfl
  · rw [writeOutput_write_fails env cfg site path filename formatted lock w s1 s2 err hmk hwr]
    refine ⟨⟨_, rfl⟩, rfl, _, rfl, ?_⟩
    intro e he
    simp only [List.mem_cons, List.mem_singleton, List.not_mem_nil, or_false] at he
    rcases he with rfl | rfl <;> rfl
  · rw [writeOutput_written env cfg site path filename formatted lock w s1 s2 hmk hwr]
    obtain ⟨err, herr⟩ := copyLoop_of_fails env path
      (cfg.Variables.GetEncryptedSources site.Identifier)
      { ext := s2, repo := w.repo,
        trace := w.trace ++ [.mkdirAll path true, .writeFile filename formatted true] } hcopy
    obtain ⟨cevs, hc1, hc2, hc3, _, _⟩ := copyLoop_shape env path
      (cfg.Variables.GetEncryptedSources site.Identifier)
      { ext := s2, repo := w.repo,
        trace := w.trace ++ [.mkdirAll path true, .writeFile filename formatted true] }
    cases hcl : copyLoop env path (cfg.Variables.GetEncryptedSources site.Identifier)
        { ext := s2, repo := w.repo,
          trace := w.trace ++ [.mkdirAll path true, .writeFile filename formatted true] } with
    | mk w3 o3 =>
      rw [hcl] at herr hc1 hc2
      simp only at herr hc1 hc2
      subst herr
      dsimp only
      refine ⟨⟨_, rfl⟩, hc2, [.mkdirAll path true, .writeFile filename formatted true] ++ cevs,
        by rw [hc1, List.append_assoc], ?_⟩
      intro e he
      simp only [List.cons_append, List.nil_append, List.mem_cons] at he
      rcases he with rfl | rfl | he
      · rfl
      · rfl
      · exact isCopyStep_not_lock e (hc3 e he)

theorem writeOutput_copy_fails_ext {σ L : Type} (env : WriteEnv σ L) (cfg : MachConfig)
    (site : SiteConfig) (path filename formatted : String) (lock : L) (w : World σ)
    (s1 s2 : σ) (hmk : env.MkdirAll w.ext path = (s1, none))
    (hwr : env.WriteFile s1 filename formatted = (s2, none))
    (hcopy : copyFails env path (cfg.Variables.GetEncryptedSources site.Identifier) s2) :
    (writeOutput env cfg site path filename formatted lock w).1.ext =
        copiedState env path (cfg.Variables.GetEncryptedSources site.Identifier) s2 ∧
      ∃ err, (writeOutput env cfg site path filename formatted lock w).2 =
        some ("error writing extra file: " ++ err) := by
  rw [writeOutput_written env cfg site path filename formatted lock w s1 s2 hmk hwr]
  obtain ⟨err, herr⟩ := copyLoop_of_fails env path
    (cfg.Variables.GetEncryptedSources site.Identifier)
    { ext := s2, repo := w.repo,
      trace := w.trace ++ [.mkdirAll path true, .writeFile filename formatted true] } hcopy
  have hext := copyLoop_ext env path (cfg.Variables.GetEncryptedSources site.Identifier)
    { ext := s2, repo := w.repo,
      trace := w.trace ++ [.mkdirAll path true, .writeFile filename formatted true] }
  cases hcl : copyLoop env path (cfg.Variables.GetEncryptedSources site.Identifier)
      { ext := s2, repo := w.repo,
        trace := w.trace ++ [.mkdirAll path true, .writeFile filename formatted true] } with
  | mk w3 o3 =>
    rw [hcl] at herr hext
    simp only at herr hext
    subst herr
    exact ⟨hext, err, rfl⟩

theorem copyFile_isolated {σ L : Type} (env : WriteEnv σ L) (q a b : String)
    (hC : ∀ (s : σ) (c : MachConfig),
      env.GetLock c (env.Create s b).1 q = env.GetLock c s q ∧
        ∀ d, env.GetLock c (env.Write s b d).1 q = env.GetLock c s q)
    (s : σ) (c : MachConfig) :
    env.GetLock c (copyFile env s a b).1 q = env.GetLock c s q := by
  unfold copyFile
  cases env.Open s a with
  | some err => rfl
  | none =>
    cases env.ReadAll s a with
    | error err => rfl
    | ok contents =>
      have hc := (hC s c).1
      cases hcreate : env.Create s b with
      | mk s1 o =>
        rw [hcreate] at hc
        cases o with
        | some err => exact hc
        | none =>
          have hw := (hC s1 c).2 contents
          dsimp only
          cases hwrite : env.Write s1 b contents with
          | mk s2 o2 =>
            rw [hwrite] at hw
            cases o2 with
            | some err => exact hw.trans hc
            | none => exact hw.trans hc

theorem copiedState_isolated {σ L : Type} (env : WriteEnv σ L) (q path : String)
    (sources : List FileSource)
    (hC : ∀ fs ∈ sources, ∀ (s : σ) (c : MachConfig),
      env.GetLock c (env.Create s (env.Join path fs.Filename)).1 q = env.GetLock c s q ∧
        ∀ d, env.GetLock c (env.Write s (env.Join path fs.Filename) d).1 q = env.GetLock c s q)
    (s : σ) (c : MachConfig) :
    env.GetLock c (copiedState env path sources s) q = env.GetLock c s q := by
  induction sources generalizing s with
  | nil => rfl
  | cons fs rest ih =>
    unfold copiedState
    have hstep := copyFile_isolated env q fs.Filename (env.Join path fs.Filename)
      (hC fs (List.mem_cons_self _ _)) s c
    cases hcopy : copyFile env s fs.Filename (env.Join path fs.Filename) with
    | mk s1 o =>
      rw [hcopy] at hstep
      cases o with
      | some err => exact hstep
      | none =>
        dsimp only
        rw [ih (fun x hx => hC x (List.mem_cons_of_mem _ hx)) s1]
        exact hstep

theorem writeOutput_isolated {σ L : Type} (env : WriteEnv σ L) (cfg : MachConfig)
    (site : SiteConfig) (q path filename formatted : String) (lock : L) (w : World σ)
    (hM : ∀ (s : σ) (c : MachConfig), env.GetLock c (env.MkdirAll s path).1 q = env.GetLock c s q)
    (hW : ∀ (s : σ) (c : MachConfig) (d : String),
      env.GetLock c (env.WriteFile s filename d).1 q = env.GetLock c s q)
    (hC : ∀ fs ∈ cfg.Variables.GetEncryptedSources site.Identifier,
      ∀ (s : σ) (c : MachConfig),
        env.GetLock c (env.Create s (env.Join path fs.Filename)).1 q = env.GetLock c s q ∧
          ∀ d, env.GetLock c (env.Write s (env.Join path fs.Filename) d).1 q =
            env.GetLock c s q)
    (hK : (∀ (s : σ) (c : MachConfig) (l : L), env.Update lock cfg = .ok l →
        env.GetLock c (env.WriteLock s l).1 q = env.GetLock c s q) ∨
      outputFails env path filename formatted
        (cfg.Variables.GetEncryptedSources site.Identifier) w.ext)
    (c : MachConfig) :
    env.GetLock c (writeOutput env cfg site path filename formatted lock w).1.ext q =
      env.GetLock c w.ext q := by
  have hm := hM w.ext c
  cases hmk : env.MkdirAll w.ext path with
  | mk s1 o1 =>
    rw [hmk] at hm
    cases o1 with
    | some err =>
      rw [writeOutput_mkdir_fails env cfg site path filename formatted lock w s1 err hmk]
      exact hm
    | none =>
      have hw := hW s1 c formatted
      cases hwr : env.WriteFile s1 filename formatted with
      | mk s2 o2 =>
        rw [hwr] at hw
        cases o2 with
        | some err =>
          rw [writeOutput_write_fails env cfg site path filename formatted lock w s1 s2 err
            hmk hwr]
          exact hw.trans hm
        | none =>
          rw [writeOutput_written env cfg site path filename formatted lock w s1 s2 hmk hwr]
          have hext := copyLoop_ext env path (cfg.Variables.GetEncryptedSources site.Identifier)
            { ext := s2, repo := w.repo,
              trace := w.trace ++ [.mkdirAll path true, .writeFile filename formatted true] }
          have hcs := copiedState_isolated env q path
            (cfg.Variables.GetEncryptedSources site.Identifier) hC s2 c
          have hcopied : ∀ w3 : World σ,
              w3.ext = copiedState env path
                (cfg.Variables.GetEncryptedSources site.Identifier) s2 →
              env.GetLock c w3.ext q = env.GetLock c w.ext q := by
            intro w3 h3
            rw [h3, hcs]
            exact hw.trans hm
          cases hcl : copyLoop env path (cfg.Variables.GetEncryptedSources site.Identifier)
              { ext := s2, repo := w.repo,
                trace := w.trace ++ [.mkdirAll path true, .writeFile filename formatted true] }
            with
          | mk w3 o3 =>
            rw [hcl] at hext
            cases o3 with
            | some err => exact hcopied w3 hext
            | none =>
              dsimp only
              rcases hK with hK | hfail
              · unfold commitLock
                cases hupd : env.Update lock cfg with
                | error err => exact hcopied w3 hext
                | ok lock2 =>
                  dsimp only
                  have hk := hK (w3.emit (.lockUpdate site.Identifier true)).ext c lock2 hupd
                  cases hwl : env.WriteLock (w3.emit (.lockUpdate site.Identifier true)).ext
                      lock2 with
                  | mk s4 o4 =>
                    rw [hwl] at hk
                    cases o4 with
                    | some err => exact hk.trans (hcopied w3 hext)
                    | none => exact hk.trans (hcopied w3 hext)
              · exfalso
                rcases hfail with ⟨t1, err, h⟩ | ⟨t1, h, ⟨t2, err, h2⟩ | ⟨t2, h2, hcopy⟩⟩
                · rw [hmk] at h
                  cases h
                · rw [hmk] at h
                  cases h
                  rw [hwr] at h2
                  cases h2
                · rw [hmk] at h
                  cases h
                  rw [hwr] at h2
                  cases h2
                  obtain ⟨err, herr⟩ := copyLoop_of_fails env path
                    (cfg.Variables.GetEncryptedSources site.Identifier)
                    { ext := s2, repo := w.repo,
                      trace := w.trace ++
                        [.mkdirAll path true, .writeFile filename formatted true] } hcopy
                  rw [hcl] at herr
                  cases herr

theorem writeSite_isolated {σ L : Type} (env : WriteEnv σ L) (cfg : MachConfig)
    (options : GenerateOptions) (locations : List (String × String)) (q : String)
    (hiso : LockIsolated env cfg locations q) (w : World σ) (x : SiteConfig)
    (hx : x ∈ cfg.Sites)
    (hother : skipSite options x = false → mapGet locations x.Identifier ≠ q)
    (c : MachConfig) :
    env.GetLock c (writeSite env cfg options locations w x).1.ext q = env.GetLock c w.ext q := by
  unfold writeSite
  cases env.NewRenderer cfg.TerraformStateProvider x.Identifier cfg.TerraformRemoteState with
  | error err => rfl
  | ok renderer =>
    dsimp only
    cases env.Add w.repo renderer.Key renderer with
    | error err => rfl
    | ok repo =>
      dsimp only
      cases hskip : skipSite options x with
      | true => rfl
      | false =>
        simp only [Bool.false_eq_true, if_false]
        cases hlock : env.GetLock
            { cfg with StateRepository :=
                (({ w with repo := repo } : World σ).emit
                  (.addRenderer x.Identifier renderer.Key)).repo }
            (({ w with repo := repo } : World σ).emit
              (.addRenderer x.Identifier renderer.Key)).ext
            (mapGet locations x.Identifier) with
        | error err => rfl
        | ok lock =>
          dsimp only
          cases env.HasChanges lock
              { cfg with StateRepository :=
                  (({ w with repo := repo } : World σ).emit
                    (.addRenderer x.Identifier renderer.Key)).repo } with
          | false => rfl
          | true =>
            simp only [Bool.not_true, Bool.false_eq_true, if_false]
            cases hrender : env.renderSite
                { cfg with StateRepository :=
                    (({ w with repo := repo } : World σ).emit
                      (.addRenderer x.Identifier renderer.Key)).repo } x with
            | error err =>
              rw [generateSite_render_fails _ _ _ _ _ _ err hrender]
              rfl
            | ok body =>
              rw [generateSite_rendered _ _ _ _ _ _ body hrender]
              have hne := hother hskip
              exact writeOutput_isolated env
                { cfg with StateRepository :=
                    (({ w with repo := repo } : World σ).emit
                      (.addRenderer x.Identifier renderer.Key)).repo }
                x q _ _ _ lock _
                (fun s c => (hiso s c x hx).1)
                (fun s c d => (hiso s c x hx).2.1 d)
                (fun fs hfs s c => (hiso s c x hx).2.2.1 fs hfs)
                (Or.inl (fun s c l hupd =>
                  (hiso s c x hx).2.2.2 hne _ _ lock _ l hlock hupd))
                c

theorem sitesLoop_isolated {σ L : Type} (env : WriteEnv σ L) (cfg : MachConfig)
    (options : GenerateOptions) (locations : List (String × String)) (q : String)
    (hiso : LockIsolated env cfg locations q) (sites : List SiteConfig) (w : World σ)
    (hsub : ∀ x ∈ sites, x ∈ cfg.Sites)
    (hother : ∀ x ∈ sites, skipSite options x = false → mapGet locations x.Identifier ≠ q)
    (c : MachConfig) :
    env.GetLock c (sitesLoop env cfg options locations sites w).1.ext q =
      env.GetLock c w.ext q := by
  induction sites generalizing w with
  | nil => rfl
  | cons x rest ih =>
    have hstep := writeSite_isolated env cfg options locations q hiso w x
      (hsub x (List.mem_cons_self _ _)) (hother x (List.mem_cons_self _ _)) c
    unfold sitesLoop
    cases hw : writeSite env cfg options locations w x with
    | mk w1 o =>
      rw [hw] at hstep
      cases o with
      | some err => exact hstep
      | none =>
        dsimp only
        rw [ih w1 (fun y hy => hsub y (List.mem_cons_of_mem _ hy))
          (fun y hy => hother y (List.mem_cons_of_mem _ hy))]
        exact hstep

theorem validationLog_not_lock {σ L : Type} (env : WriteEnv σ L) (formatted : String) :
    ∀ e ∈ validationLog env formatted, e.isLockEvent = false := by
  intro e he
  unfold validationLog at he
  split at he
  · rw [List.mem_singleton.mp he]
    rfl
  · cases he

theorem mem_of_split {σ : Type} (pre post : List σ) (x : σ) (sites : List σ)
    (h : sites = pre ++ x :: post) : x ∈ sites ∧ ∀ y ∈ pre, y ∈ sites := by
  subst h
  exact ⟨by simp, fun y hy => by simp [hy]⟩

/-- C5: when `WriteFiles` reaches a site with changes, renders it, and `os.MkdirAll`,
`os.WriteFile` of `site.tf` or a step of the copy of a file source returns an error,
`WriteFiles` returns an error and stops there: nothing it has done since the iteration
began is a call of `lock.Update` or `WriteLock`, the file system it leaves is the one the
failed operation left, and, when the file operations of the run leave the lock of the
directory of the site alone and the sites before it have other directories, `GetLock`
reads for that directory what it read before the run. -/
theorem WriteFiles_failed_write_keeps_lock {σ L : Type} (env : WriteEnv σ L) (cfg : MachConfig)
    (options : GenerateOptions) (s : σ) (pre post : List SiteConfig) (site : SiteConfig)
    (w : World σ) (renderer : Renderer) (repo : StateRepository) (lock : L)
    (body path filename : String)
    (hsites : cfg.Sites = pre ++ site :: post)
    (hpre : sitesLoop env cfg options (FileLocations env cfg options) pre (initialWorld cfg s) =
      (w, none))
    (hnew : env.NewRenderer cfg.TerraformStateProvider site.Identifier cfg.TerraformRemoteState =
      .ok renderer)
    (hadd : env.Add w.repo renderer.Key renderer = .ok repo)
    (hsel : options.Site = "" ∨ site.Identifier = options.Site)
    (hpath : path = mapGet (FileLocations env cfg options) site.Identifier)
    (hfilename : filename = env.Join path "site.tf")
    (hlock : env.GetLock { cfg with StateRepository := repo } w.ext path = .ok lock)
    (hchanges : env.HasChanges lock { cfg with StateRepository := repo } = true)
    (hrender : env.renderSite { cfg with StateRepository := repo } site = .ok body)
    (hfail : outputFails env path filename (formatFile env body)
      (cfg.Variables.GetEncryptedSources site.Identifier) w.ext) :
    (∃ err, (WriteFiles env cfg options s).2 = .error err) ∧
      (WriteFiles env cfg options s).1 =
        (writeSite env cfg options (FileLocations env cfg options) w site).1 ∧
      (∀ e ∈ (WriteFiles env cfg options s).1.since w, e.isLockEvent = false) ∧
      (∀ s1 err, env.MkdirAll w.ext path = (s1, some err) →
        (WriteFiles env cfg options s).1.ext = s1 ∧
          (WriteFiles env cfg options s).2 =
            .error ("error creating directory structure: " ++ err)) ∧
      (∀ s1 s2 err, env.MkdirAll w.ext path = (s1, none) →
        env.WriteFile s1 filename (formatFile env body) = (s2, some err) →
        (WriteFiles env cfg options s).1.ext = s2 ∧
          (WriteFiles env cfg options s).2 = .error ("error writing file: " ++ err)) ∧
      (∀ s1 s2, env.MkdirAll w.ext path = (s1, none) →
        env.WriteFile s1 filename (formatFile env body) = (s2, none) →
        copyFails env path (cfg.Variables.GetEncryptedSources site.Identifier) s2 →
        (WriteFiles env cfg options s).1.ext =
            copiedState env path (cfg.Variables.GetEncryptedSources site.Identifier) s2 ∧
          ∃ err, (WriteFiles env cfg options s).2 =
            .error ("error writing extra file: " ++ err)) ∧
      (LockIsolated env cfg (FileLocations env cfg options) path →
        (∀ x ∈ pre, skipSite options x = false →
          mapGet (FileLocations env cfg options) x.Identifier ≠ path) →
        ∀ c, env.GetLock c (WriteFiles env cfg options s).1.ext path = env.GetLock c s path) := by
  subst hpath hfilename
  obtain ⟨hsite, hpresub⟩ := mem_of_split pre post site cfg.Sites hsites
  have hstep : writeSite env cfg options (FileLocations env cfg options) w site =
      writeOutput env { cfg with StateRepository := repo } site
        (mapGet (FileLocations env cfg options) site.Identifier)
        (env.Join (mapGet (FileLocations env cfg options) site.Identifier) "site.tf")
        (formatFile env body) lock
        { ext := w.ext, repo := repo,
          trace := (w.trace ++ [.addRenderer site.Identifier renderer.Key]) ++
            ([.info ("Writing " ++
                env.Join (mapGet (FileLocations env cfg options) site.Identifier) "site.tf"),
              .renderSite site.Identifier true] ++ validationLog env (formatFile env body)) } := by
    rw [writeSite_dirty env cfg options _ w site renderer repo lock hnew hadd hsel hlock
      hchanges, generateSite_rendered _ _ _ _ _ _ body hrender]
  have hrun := WriteFiles_after_sites env cfg options s pre (site :: post) w hsites hpre
  simp only [sitesLoop] at hrun
  obtain ⟨⟨err, herr⟩, _, evs, htrace, hnolock⟩ := writeOutput_of_fails env
    { cfg with StateRepository := repo } site
    (mapGet (FileLocations env cfg options) site.Identifier)
    (env.Join (mapGet (FileLocations env cfg options) site.Identifier) "site.tf")
    (formatFile env body) lock
    { ext := w.ext, repo := repo,
      trace := (w.trace ++ [.addRenderer site.Identifier renderer.Key]) ++
        ([.info ("Writing " ++
            env.Join (mapGet (FileLocations env cfg options) site.Identifier) "site.tf"),
          .renderSite site.Identifier true] ++ validationLog env (formatFile env body)) }
    hfail
  rw [← hstep] at herr htrace
  have hfiles : WriteFiles env cfg options s =
      ((writeSite env cfg options (FileLocations env cfg options) w site).1, .error err) := by
    rw [hrun]
    cases hw : writeSite env cfg options (FileLocations env cfg options) w site with
    | mk w1 o =>
      rw [hw] at herr
      simp only at herr
      subst herr
      rfl
  refine ⟨⟨err, by rw [hfiles]⟩, by rw [hfiles], ?_, ?_, ?_, ?_, ?_⟩
  · rw [hfiles]
    dsimp only
    have hsince : (writeSite env cfg options (FileLocations env cfg options) w site).1.since w =
        [.addRenderer site.Identifier renderer.Key] ++
          ([.info ("Writing " ++
              env.Join (mapGet (FileLocations env cfg options) site.Identifier) "site.tf"),
            .renderSite site.Identifier true] ++ validationLog env (formatFile env body)) ++
          evs := by
      apply since_append
      rw [htrace]
      simp
    rw [hsince]
    intro e he
    simp only [List.cons_append, List.nil_append, List.mem_cons, List.mem_append] at he
    rcases he with rfl | rfl | rfl | he | he
    · rfl
    · rfl
    · rfl
    · exact validationLog_not_lock env _ e he
    · exact hnolock e he
  · intro s1 err1 hmk
    have := writeOutput_mkdir_fails env { cfg with StateRepository := repo } site _
      (env.Join (mapGet (FileLocations env cfg options) site.Identifier) "site.tf")
      (formatFile env body) lock
      { ext := w.ext, repo := repo,
        trace := (w.trace ++ [.addRenderer site.Identifier renderer.Key]) ++
          ([.info ("Writing " ++
              env.Join (mapGet (FileLocations env cfg options) site.Identifier) "site.tf"),
            .renderSite site.Identifier true] ++ validationLog env (formatFile env body)) }
      s1 err1 hmk
    rw [← hstep] at this
    rw [hrun, this]
    exact ⟨rfl, rfl⟩
  · intro s1 s2 err1 hmk hwr
    have := writeOutput_write_fails env { cfg with StateRepository := repo } site _
      (env.Join (mapGet (FileLocations env cfg options) site.Identifier) "site.tf")
      (formatFile env body) lock
      { ext := w.ext, repo := repo,
        trace := (w.trace ++ [.addRenderer site.Identifier renderer.Key]) ++
          ([.info ("Writing " ++
              env.Join (mapGet (FileLocations env cfg options) site.Identifier) "site.tf"),
            .renderSite site.Identifier true] ++ validationLog env (formatFile env body)) }
      s1 s2 err1 hmk hwr
    rw [← hstep] at this
    rw [hrun, this]
    exact ⟨rfl, rfl⟩
  · intro s1 s2 hmk hwr hcopy
    obtain ⟨hext, err1, herr1⟩ := writeOutput_copy_fails_ext env
      { cfg with StateRepository := repo } site _
      (env.Join (mapGet (FileLocations env cfg options) site.Identifier) "site.tf")
      (formatFile env body) lock
      { ext := w.ext, repo := repo,
        trace := (w.trace ++ [.addRenderer site.Identifier renderer.Key]) ++
          ([.info ("Writing " ++
              env.Join (mapGet (FileLocations env cfg options) site.Identifier) "site.tf"),
            .renderSite site.Identifier true] ++ validationLog env (formatFile env body)) }
      s1 s2 hmk hwr hcopy
    rw [← hstep] at hext herr1
    rw [herr] at herr1
    simp only [Option.some.injEq] at herr1
    rw [hfiles]
    exact ⟨hext, err1, by rw [herr1]⟩
  · intro hiso hother c
    rw [hfiles]
    dsimp only
    have hhere : env.GetLock c
        (writeSite env cfg options (FileLocations env cfg options) w site).1.ext
        (mapGet (FileLocations env cfg options) site.Identifier) =
        env.GetLock c w.ext (mapGet (FileLocations env cfg options) site.Identifier) := by
      rw [hstep]
      exact writeOutput_isolated env { cfg with StateRepository := repo } site _ _ _ _ lock
        { ext := w.ext, repo := repo,
          trace := (w.trace ++ [.addRenderer site.Identifier renderer.Key]) ++
            ([.info ("Writing " ++
                env.Join (mapGet (FileLocations env cfg options) site.Identifier) "site.tf"),
              .renderSite site.Identifier true] ++ validationLog env (formatFile env body)) }
        (fun s0 c0 => (hiso s0 c0 site hsite).1)
        (fun s0 c0 d => (hiso s0 c0 site hsite).2.1 d)
        (fun fs hfs s0 c0 => (hiso s0 c0 site hsite).2.2.1 fs hfs)
        (Or.inr hfail) c
    have hbefore := sitesLoop_isolated env cfg options (FileLocations env cfg options)
      (mapGet (FileLocations env cfg options) site.Identifier) hiso pre (initialWorld cfg s)
      hpresub hother c
    rw [hpre] at hbefore
    exact hhere.trans hbefore

theorem fileLockEnv_isolated (denied : List String) :
    LockIsolated (fileLockEnv denied) sourceConfig
      (FileLocations (fileLockEnv denied) sourceConfig allSites) "out/main/S" := by
  intro s c x hx
  have hloc : FileLocations (fileLockEnv denied) sourceConfig allSites =
      [("A", "out/main/A"), ("S", "out/main/S")] := by rfl
  rw [hloc]
  have hx2 : x = siteA ∨ x = siteS := by
    simpa [sourceConfig, twoSiteConfig] using hx
  rcases hx2 with rfl | rfl
  · have hA : mapGet [("A", "out/main/A"), ("S", "out/main/S")] siteA.Identifier =
        "out/main/A" := by decide
    rw [hA]
    refine ⟨?_, ?_, ?_, ?_⟩
    · simp only [fileLockEnv]
      split <;> rfl
    · intro d
      simp only [fileLockEnv]
      split
      · rfl
      · rw [mapFind_mapSet]
        simp
    · intro fs hfs
      simp [sourceConfig, siteA] at hfs
    · intro _ c1 s1 l0 c2 l hget hupd
      simp only [fileLockEnv, Except.ok.injEq] at hget hupd
      subst hget
      subst hupd
      simp only [fileLockEnv]
      rw [mapFind_mapSet]
      simp
  · have hS : mapGet [("A", "out/main/A"), ("S", "out/main/S")] siteS.Identifier =
        "out/main/S" := by decide
    rw [hS]
    refine ⟨?_, ?_, ?_, ?_⟩
    · simp only [fileLockEnv]
      split <;> rfl
    · intro d
      simp only [fileLockEnv]
      split
      · rfl
      · rw [mapFind_mapSet]
        simp
    · intro fs hfs
      have hfs2 : fs = { Filename := "secrets.enc.yaml" } := by
        simpa [sourceConfig, siteS] using hfs
      subst hfs2
      constructor
      · simp only [fileLockEnv]
        split
        · rfl
        · rw [mapFind_mapSet]
          simp
      · intro d
        simp only [fileLockEnv]
        rw [mapFind_mapSet]
        simp
    · intro hne
      exact absurd rfl hne

/-- C5 at the configuration with the sites `A` and `S`, with the lock of a directory kept in
a file inside it, when the file source of `S` cannot be created in `out/main/S`: the copy
fails, `WriteFiles` returns an error, and the lock of `out/main/S` reads as before the run. -/
theorem WriteFiles_failed_write_keeps_lock_witness :
    (∃ err, (WriteFiles (fileLockEnv ["out/main/S/secrets.enc.yaml"]) sourceConfig allSites
        sourceFiles).2 = .error err) ∧
      (∀ e ∈ (WriteFiles (fileLockEnv ["out/main/S/secrets.enc.yaml"]) sourceConfig allSites
        sourceFiles).1.since sourceWorldAfterA, e.isLockEvent = false) ∧
      (∀ c, (fileLockEnv ["out/main/S/secrets.enc.yaml"]).GetLock c
          (WriteFiles (fileLockEnv ["out/main/S/secrets.enc.yaml"]) sourceConfig allSites
            sourceFiles).1.ext "out/main/S" =
        (fileLockEnv ["out/main/S/secrets.enc.yaml"]).GetLock c sourceFiles "out/main/S") :=
  have h := WriteFiles_failed_write_keeps_lock (fileLockEnv ["out/main/S/secrets.enc.yaml"])
    sourceConfig allSites sourceFiles [siteA] [] siteS sourceWorldAfterA (exampleRenderer "S")
    (exampleAdd sourceWorldAfterA.repo "S" (exampleRenderer "S"))
    { path := "out/main/S", hash := none } "# site S" "out/main/S" "out/main/S/site.tf"
    rfl rfl rfl rfl (Or.inl rfl) (by decide) (by decide) rfl rfl rfl
    (Or.inr ⟨sourceFiles, rfl, Or.inr ⟨mapSet sourceFiles "out/main/S/site.tf" "# site S", rfl,
      Or.inr ⟨rfl, Or.inr ⟨"sops", rfl,
        Or.inl ⟨mapSet sourceFiles "out/main/S/site.tf" "# site S", "permission denied",
          rfl⟩⟩⟩⟩⟩)
  ⟨h.1, h.2.2.1, h.2.2.2.2.2.2 (fileLockEnv_isolated _)
    (by
      intro x hx _
      rw [List.mem_singleton.mp hx]
      decide)⟩

theorem output_fails_or_succeeds {σ L : Type} (env : WriteEnv σ L)
    (path filename formatted : String) (sources : List FileSource) (s : σ) :
    outputFails env path filename formatted sources s ∨
      ∃ s1 s2, env.MkdirAll s path = (s1, none) ∧
        env.WriteFile s1 filename formatted = (s2, none) ∧ copiesSucceed env path sources s2 := by
  unfold outputFails
  cases hmk : env.MkdirAll s path with
  | mk s1 o1 =>
    cases o1 with
    | some err => exact Or.inl (Or.inl ⟨s1, err, rfl⟩)
    | none =>
      cases hwr : env.WriteFile s1 filename formatted with
      | mk s2 o2 =>
        cases o2 with
        | some err => exact Or.inl (Or.inr ⟨s1, rfl, Or.inl ⟨s2, err, hwr⟩⟩)
        | none =>
          rcases copy_fails_or_succeeds env path sources s2 with h | h
          · exact Or.inl (Or.inr ⟨s1, rfl, Or.inr ⟨s2, hwr, h⟩⟩)
          · exact Or.inr ⟨s1, s2, rfl, hwr, h⟩

theorem writeSite_of_fails {σ L : Type} (env : WriteEnv σ L) (cfg : MachConfig)
    (options : GenerateOptions) (locations : List (String × String)) (w : World σ)
    (site : SiteConfig) (renderer : Renderer) (repo : StateRepository) (lock : L)
    (body : String)
    (hnew : env.NewRenderer cfg.TerraformStateProvider site.Identifier cfg.TerraformRemoteState =
      .ok renderer)
    (hadd : env.Add w.repo renderer.Key renderer = .ok repo)
    (hsel : options.Site = "" ∨ site.Identifier = options.Site)
    (hlock : env.GetLock { cfg with StateRepository := repo } w.ext
      (mapGet locations site.Identifier) = .ok lock)
    (hchanges : env.HasChanges lock { cfg with StateRepository := repo } = true)
    (hrender : env.renderSite { cfg with StateRepository := repo } site = .ok body)
    (hfail : outputFails env (mapGet locations site.Identifier)
      (env.Join (mapGet locations site.Identifier) "site.tf") (formatFile env body)
      (cfg.Variables.GetEncryptedSources site.Identifier) w.ext) :
    ∀ e ∈ (writeSite env cfg options locations w site).1.since w, e.isLockEvent = false := by
  rw [writeSite_dirty env cfg options _ w site renderer repo lock hnew hadd hsel hlock
    hchanges, generateSite_rendered _ _ _ _ _ _ body hrender]
  obtain ⟨_, _, evs, htrace, hnolock⟩ := writeOutput_of_fails env
    { cfg with StateRepository := repo } site (mapGet locations site.Identifier)
    (env.Join (mapGet locations site.Identifier) "site.tf") (formatFile env body) lock
    { ext := w.ext, repo := repo,
      trace := (w.trace ++ [.addRenderer site.Identifier renderer.Key]) ++
        ([.info ("Writing " ++ env.Join (mapGet locations site.Identifier) "site.tf"),
          .renderSite site.Identifier true] ++ validationLog env (formatFile env body)) }
    hfail
  rw [since_append _ w
    ([.addRenderer site.Identifier renderer.Key] ++
      ([.info ("Writing " ++ env.Join (mapGet locations site.Identifier) "site.tf"),
        .renderSite site.Identifier true] ++ validationLog env (formatFile env body)) ++ evs)
    (by rw [htrace]; simp)]
  intro e he
  simp only [List.cons_append, List.nil_append, List.mem_cons, List.mem_append] at he
  rcases he with rfl | rfl | rfl | he | he
  · rfl
  · rfl
  · rfl
  · exact validationLog_not_lock env _ e he
  · exact hnolock e he

theorem writeSite_rendered {σ L : Type} (env : WriteEnv σ L) (cfg : MachConfig)
    (options : GenerateOptions) (locations : List (String × String)) (w : World σ)
    (site : SiteConfig) (renderer : Renderer) (repo : StateRepository) (lock : L)
    (body : String)
    (hnew : env.NewRenderer cfg.TerraformStateProvider site.Identifier cfg.TerraformRemoteState =
      .ok renderer)
    (hadd : env.Add w.repo renderer.Key renderer = .ok repo)
    (hsel : options.Site = "" ∨ site.Identifier = options.Site)
    (hlock : env.GetLock { cfg with StateRepository := repo } w.ext
      (mapGet locations site.Identifier) = .ok lock)
    (hchanges : env.HasChanges lock { cfg with StateRepository := repo } = true)
    (hrender : env.renderSite { cfg with StateRepository := repo } site = .ok body) :
    writeSite env cfg options locations w site =
      writeOutput env { cfg with StateRepository := repo } site
        (mapGet locations site.Identifier)
        (env.Join (mapGet locations site.Identifier) "site.tf") (formatFile env body) lock
        { ext := w.ext, repo := repo,
          trace := (w.trace ++ [.addRenderer site.Identifier renderer.Key]) ++
            ([.info ("Writing " ++ env.Join (mapGet locations site.Identifier) "site.tf"),
              .renderSite site.Identifier true] ++ validationLog env (formatFile env body)) } := by
  rw [writeSite_dirty env cfg options _ w site renderer repo lock hnew hadd hsel hlock
    hchanges, generateSite_rendered _ _ _ _ _ _ body hrender]

theorem writeSite_of_succeeds {σ L : Type} (env : WriteEnv σ L) (cfg : MachConfig)
    (options : GenerateOptions) (locations : List (String × String)) (w : World σ)
    (site : SiteConfig) (renderer : Renderer) (repo : StateRepository) (lock lock2 : L)
    (body : String) (s1 s2 s4 : σ) (o4 : Option Error)
    (hnew : env.NewRenderer cfg.TerraformStateProvider site.Identifier cfg.TerraformRemoteState =
      .ok renderer)
    (hadd : env.Add w.repo renderer.Key renderer = .ok repo)
    (hsel : options.Site = "" ∨ site.Identifier = options.Site)
    (hlock : env.GetLock { cfg with StateRepository := repo } w.ext
      (mapGet locations site.Identifier) = .ok lock)
    (hchanges : env.HasChanges lock { cfg with StateRepository := repo } = true)
    (hrender : env.renderSite { cfg with StateRepository := repo } site = .ok body)
    (hmk : env.MkdirAll w.ext (mapGet locations site.Identifier) = (s1, none))
    (hwr : env.WriteFile s1 (env.Join (mapGet locations site.Identifier) "site.tf")
      (formatFile env body) = (s2, none))
    (hcopy : copiesSucceed env (mapGet locations site.Identifier)
      (cfg.Variables.GetEncryptedSources site.Identifier) s2)
    (hupd : env.Update lock { cfg with StateRepository := repo } = .ok lock2)
    (hwl : env.WriteLock
      (copiedState env (mapGet locations site.Identifier)
        (cfg.Variables.GetEncryptedSources site.Identifier) s2) lock2 = (s4, o4)) :
    writeSite env cfg options locations w site =
      ({ ext := s4, repo := repo,
         trace := w.trace ++
           ([.addRenderer site.Identifier renderer.Key,
              .info ("Writing " ++ env.Join (mapGet locations site.Identifier) "site.tf"),
              .renderSite site.Identifier true] ++
            validationLog env (formatFile env body) ++
            [.mkdirAll (mapGet locations site.Identifier) true,
              .writeFile (env.Join (mapGet locations site.Identifier) "site.tf")
                (formatFile env body) true] ++
            copyEvents env (mapGet locations site.Identifier)
              (cfg.Variables.GetEncryptedSources site.Identifier) ++
            [.lockUpdate site.Identifier true, .writeLock site.Identifier o4.isNone]) }, o4) := by
  rw [writeSite_rendered env cfg options _ w site renderer repo lock body hnew hadd hsel hlock
    hchanges hrender,
    writeOutput_written env { cfg with StateRepository := repo } site _ _ _ lock
      { ext := w.ext, repo := repo,
        trace := (w.trace ++ [.addRenderer site.Identifier renderer.Key]) ++
          ([.info ("Writing " ++ env.Join (mapGet locations site.Identifier) "site.tf"),
            .renderSite site.Identifier true] ++ validationLog env (formatFile env body)) }
      s1 s2 hmk hwr,
    copyLoop_of_succeeds env (mapGet locations site.Identifier)
      (cfg.Variables.GetEncryptedSources site.Identifier)
      { ext := s2, repo := repo,
        trace := ((w.trace ++ [.addRenderer site.Identifier renderer.Key]) ++
          ([.info ("Writing " ++ env.Join (mapGet locations site.Identifier) "site.tf"),
            .renderSite site.Identifier true] ++ validationLog env (formatFile env body))) ++
          [.mkdirAll (mapGet locations site.Identifier) true,
            .writeFile (env.Join (mapGet locations site.Identifier) "site.tf")
              (formatFile env body) true] } hcopy]
  dsimp only
  rw [commitLock_eq env { cfg with StateRepository := repo } site lock lock2 _ s4 o4 hupd hwl]
  simp

theorem writeOutput_fails_ext {σ L : Type} (env : WriteEnv σ L) (cfg : MachConfig)
    (site : SiteConfig) (path filename formatted : String) (lock : L) (w : World σ)
    (hfail : outputFails env path filename formatted
      (cfg.Variables.GetEncryptedSources site.Identifier) w.ext) :
    (writeOutput env cfg site path filename formatted lock w).1.ext =
      outputState env path filename formatted
        (cfg.Variables.GetEncryptedSources site.Identifier) w.ext := by
  unfold outputState
  rcases hfail with ⟨s1, err, hmk⟩ | ⟨s1, hmk, ⟨s2, err, hwr⟩ | ⟨s2, hwr, hcopy⟩⟩
  · rw [writeOutput_mkdir_fails env cfg site path filename formatted lock w s1 err hmk, hmk]
  · rw [writeOutput_write_fails env cfg site path filename formatted lock w s1 s2 err hmk hwr,
      hmk]
    dsimp only
    rw [hwr]
  · rw [(writeOutput_copy_fails_ext env cfg site path filename formatted lock w s1 s2 hmk hwr
      hcopy).1, hmk]
    dsimp only
    rw [hwr]

/-- C6, amended: when `WriteFiles` reaches a site with changes, `lock.Update` or `WriteLock`
is called in its iteration only if `renderSite`, `os.MkdirAll`, `os.WriteFile` of `site.tf`
and every step of every copy of a file source succeeded: when one of them fails the
iteration returns an error and leaves the file system that operation left, no lock written.
The validation is not a
condition: when all of these succeed the lock is updated and written to the file system the
copies left, and the iteration leaves the world stated, in which the only trace of the
validation is the error line that is logged exactly when `validateFile` fails; with any
other verdict of the parser the iteration returns the same error, leaves the same file
system and makes the same calls of `lock.Update` and `WriteLock`.  `WriteFiles` stops or
goes on from that world. -/
theorem WriteFiles_lock_advanced_whatever_validation {σ L : Type} (env : WriteEnv σ L)
    (cfg : MachConfig) (options : GenerateOptions) (s : σ) (pre post : List SiteConfig)
    (site : SiteConfig) (w : World σ) (renderer : Renderer) (repo : StateRepository) (lock : L)
    (path filename : String)
    (hsites : cfg.Sites = pre ++ site :: post)
    (hpre : sitesLoop env cfg options (FileLocations env cfg options) pre (initialWorld cfg s) =
      (w, none))
    (hnew : env.NewRenderer cfg.TerraformStateProvider site.Identifier cfg.TerraformRemoteState =
      .ok renderer)
    (hadd : env.Add w.repo renderer.Key renderer = .ok repo)
    (hsel : options.Site = "" ∨ site.Identifier = options.Site)
    (hpath : path = mapGet (FileLocations env cfg options) site.Identifier)
    (hfilename : filename = env.Join path "site.tf")
    (hlock : env.GetLock { cfg with StateRepository := repo } w.ext path = .ok lock)
    (hchanges : env.HasChanges lock { cfg with StateRepository := repo } = true) :
    ((∃ e ∈ (writeSite env cfg options (FileLocations env cfg options) w site).1.since w,
        e.isLockEvent = true) →
      ∃ body s1 s2, env.renderSite { cfg with StateRepository := repo } site = .ok body ∧
        env.MkdirAll w.ext path = (s1, none) ∧
        env.WriteFile s1 filename (formatFile env body) = (s2, none) ∧
        copiesSucceed env path (cfg.Variables.GetEncryptedSources site.Identifier) s2) ∧
    (∀ err, env.renderSite { cfg with StateRepository := repo } site = .error err →
      writeSite env cfg options (FileLocations env cfg options) w site =
        ({ ext := w.ext, repo := repo,
           trace := w.trace ++
             [.addRenderer site.Identifier renderer.Key, .info ("Writing " ++ filename),
               .renderSite site.Identifier false] }, some err)) ∧
    (∀ body, env.renderSite { cfg with StateRepository := repo } site = .ok body →
      outputFails env path filename (formatFile env body)
        (cfg.Variables.GetEncryptedSources site.Identifier) w.ext →
      (∃ err, (writeSite env cfg options (FileLocations env cfg options) w site).2 = some err) ∧
        (writeSite env cfg options (FileLocations env cfg options) w site).1.ext =
          outputState env path filename (formatFile env body)
            (cfg.Variables.GetEncryptedSources site.Identifier) w.ext) ∧
    (∀ (body : String) (s1 s2 s4 : σ) (lock2 : L) (o4 : Option Error) (world : World σ),
      env.renderSite { cfg with StateRepository := repo } site = .ok body →
      env.MkdirAll w.ext path = (s1, none) →
      env.WriteFile s1 filename (formatFile env body) = (s2, none) →
      copiesSucceed env path (cfg.Variables.GetEncryptedSources site.Identifier) s2 →
      env.Update lock { cfg with StateRepository := repo } = .ok lock2 →
      env.WriteLock
        (copiedState env path (cfg.Variables.GetEncryptedSources site.Identifier) s2) lock2 =
        (s4, o4) →
      world =
        { ext := s4, repo := repo,
          trace := w.trace ++
            ([.addRenderer site.Identifier renderer.Key, .info ("Writing " ++ filename),
                .renderSite site.Identifier true] ++
              validationLog env (formatFile env body) ++
              [.mkdirAll path true, .writeFile filename (formatFile env body) true] ++
              copyEvents env path (cfg.Variables.GetEncryptedSources site.Identifier) ++
              [.lockUpdate site.Identifier true, .writeLock site.Identifier o4.isNone]) } →
      writeSite env cfg options (FileLocations env cfg options) w site = (world, o4) ∧
        WriteFiles env cfg options s =
          (match o4 with
           | some err => (world, .error err)
           | none =>
             match sitesLoop env cfg options (FileLocations env cfg options) post world with
             | (w3, some err) => (w3, .error err)
             | (w3, none) => (w3, .ok (FileLocations env cfg options)))) ∧
    (∀ formatted,
      ((∃ err, validateFile env formatted = some err) →
        validationLog env formatted =
          [.error ("The generated terraform code is invalid. " ++
            "This is a bug in mach composer. Please report the issue at " ++
            "https://github.com/mach-composer/mach-composer-cli")]) ∧
      (validateFile env formatted = none → validationLog env formatted = [])) ∧
    (WriteFiles env cfg options s =
      (match writeSite env cfg options (FileLocations env cfg options) w site with
       | (w1, some err) => (w1, .error err)
       | (w1, none) =>
         match sitesLoop env cfg options (FileLocations env cfg options) post w1 with
         | (w3, some err) => (w3, .error err)
         | (w3, none) => (w3, .ok (FileLocations env cfg options)))) ∧
    (∀ verdict : String → String → Bool,
      (writeSite (withVerdict env verdict) cfg options (FileLocations env cfg options) w site).2 =
          (writeSite env cfg options (FileLocations env cfg options) w site).2 ∧
        (writeSite (withVerdict env verdict) cfg options (FileLocations env cfg options) w
            site).1.ext =
          (writeSite env cfg options (FileLocations env cfg options) w site).1.ext ∧
        (writeSite (withVerdict env verdict) cfg options (FileLocations env cfg options) w
            site).1.repo =
          (writeSite env cfg options (FileLocations env cfg options) w site).1.repo ∧
        (writeSite (withVerdict env verdict) cfg options (FileLocations env cfg options) w
            site).1.trace.filter Event.isLockEvent =
          (writeSite env cfg options (FileLocations env cfg options) w site).1.trace.filter
            Event.isLockEvent) := by
  subst hpath hfilename
  have hrun := WriteFiles_after_sites env cfg options s pre (site :: post) w hsites hpre
  have hrun2 : WriteFiles env cfg options s =
      (match writeSite env cfg options (FileLocations env cfg options) w site with
       | (w1, some err) => (w1, .error err)
       | (w1, none) =>
         match sitesLoop env cfg options (FileLocations env cfg options) post w1 with
         | (w3, some err) => (w3, .error err)
         | (w3, none) => (w3, .ok (FileLocations env cfg options))) := by
    rw [hrun]
    simp only [sitesLoop]
    cases writeSite env cfg options (FileLocations env cfg options) w site with
    | mk w1 o => cases o <;> rfl
  refine ⟨?_, ?_, ?_, ?_, ?_, hrun2,
    fun verdict => writeSite_withVerdict env verdict cfg options _ w site⟩
  · rintro ⟨e, he, hl⟩
    cases hrender : env.renderSite { cfg with StateRepository := repo } site with
    | error err =>
      exfalso
      rw [writeSite_dirty env cfg options _ w site renderer repo lock hnew hadd hsel hlock
        hchanges, generateSite_render_fails _ _ _ _ _ _ err hrender] at he
      rw [since_append _ w
        [.addRenderer site.Identifier renderer.Key,
          .info ("Writing " ++
            env.Join (mapGet (FileLocations env cfg options) site.Identifier) "site.tf"),
          .renderSite site.Identifier false] (by simp)] at he
      simp only [List.mem_cons, List.mem_singleton, List.not_mem_nil, or_false] at he
      rcases he with rfl | rfl | rfl <;> simp [Event.isLockEvent] at hl
    | ok body =>
      rcases output_fails_or_succeeds env
          (mapGet (FileLocations env cfg options) site.Identifier)
          (env.Join (mapGet (FileLocations env cfg options) site.Identifier) "site.tf")
          (formatFile env body) (cfg.Variables.GetEncryptedSources site.Identifier) w.ext with
        hfail | ⟨s1, s2, hmk, hwr, hcopy⟩
      · exfalso
        have := writeSite_of_fails env cfg options _ w site renderer repo lock body hnew hadd
          hsel hlock hchanges hrender hfail e he
        rw [this] at hl
        cases hl
      · exact ⟨body, s1, s2, rfl, hmk, hwr, hcopy⟩
  · intro err hrender
    rw [writeSite_dirty env cfg options _ w site renderer repo lock hnew hadd hsel hlock
      hchanges, generateSite_render_fails _ _ _ _ _ _ err hrender]
    simp
  · intro body hrender hfail
    rw [writeSite_rendered env cfg options _ w site renderer repo lock body hnew hadd hsel
      hlock hchanges hrender]
    exact ⟨(writeOutput_of_fails env { cfg with StateRepository := repo } site _ _ _ lock
        { ext := w.ext, repo := repo,
          trace := (w.trace ++ [.addRenderer site.Identifier renderer.Key]) ++
            ([.info ("Writing " ++
                env.Join (mapGet (FileLocations env cfg options) site.Identifier) "site.tf"),
              .renderSite site.Identifier true] ++ validationLog env (formatFile env body)) }
        hfail).1,
      writeOutput_fails_ext env { cfg with StateRepository := repo } site _ _ _ lock
        { ext := w.ext, repo := repo,
          trace := (w.trace ++ [.addRenderer site.Identifier renderer.Key]) ++
            ([.info ("Writing " ++
                env.Join (mapGet (FileLocations env cfg options) site.Identifier) "site.tf"),
              .renderSite site.Identifier true] ++ validationLog env (formatFile env body)) }
        hfail⟩
  · intro body s1 s2 s4 lock2 o4 world hrender hmk hwr hcopy hupd hwl hworld
    have hstep := writeSite_of_succeeds env cfg options _ w site renderer repo lock lock2 body
      s1 s2 s4 o4 hnew hadd hsel hlock hchanges hrender hmk hwr hcopy hupd hwl
    rw [← hworld] at hstep
    refine ⟨hstep, ?_⟩
    rw [hrun2, hstep]
    cases o4 <;> rfl
  · intro formatted
    constructor
    · rintro ⟨err, herr⟩
      simp [validationLog, herr]
    · intro hnone
      simp [validationLog, hnone]

/-- C6 at site `S` of the example configuration, with a parser that rejects the output: the
run logs the error line, writes `site.tf`, and persists the lock of `out/main/S`. -/
theorem WriteFiles_lock_advanced_whatever_validation_witness :
    WriteFiles (exampleWriteEnv [] true) twoSiteConfig onlySiteS emptyFS =
      ({ ext :=
           { files := [("out/main/S/site.tf", "# site S")]
             locks := [("out/main/S", "fingerprint of conf/main.yml")] }
         repo := exampleAdd worldAfterSkippedA.repo "S" (exampleRenderer "S")
         trace :=
           [.addRenderer "A" "A", .addRenderer "S" "S", .info "Writing out/main/S/site.tf",
             .renderSite "S" true,
             .error ("The generated terraform code is invalid. " ++
               "This is a bug in mach composer. Please report the issue at " ++
               "https://github.com/mach-composer/mach-composer-cli"),
             .mkdirAll "out/main/S" true, .writeFile "out/main/S/site.tf" "# site S" true,
             .lockUpdate "S" true, .writeLock "S" true] },
        .ok [("S", "out/main/S")]) :=
  ((WriteFiles_lock_advanced_whatever_validation (exampleWriteEnv [] true) twoSiteConfig
    onlySiteS emptyFS [siteA] [] siteS worldAfterSkippedA (exampleRenderer "S")
    (exampleAdd worldAfterSkippedA.repo "S" (exampleRenderer "S"))
    { path := "out/main/S", hash := none } "out/main/S" "out/main/S/site.tf"
    rfl rfl rfl rfl (Or.inr rfl) (by decide) (by decide) rfl rfl).2.2.2.1
    "# site S" emptyFS { files := [("out/main/S/site.tf", "# site S")], locks := [] }
    { files := [("out/main/S/site.tf", "# site S")]
      locks := [("out/main/S", "fingerprint of conf/main.yml")] }
    { path := "out/main/S", hash := some "fingerprint of conf/main.yml" } none
    { ext :=
        { files := [("out/main/S/site.tf", "# site S")]
          locks := [("out/main/S", "fingerprint of conf/main.yml")] }
      repo := exampleAdd worldAfterSkippedA.repo "S" (exampleRenderer "S")
      trace :=
        [.addRenderer "A" "A", .addRenderer "S" "S", .info "Writing out/main/S/site.tf",
          .renderSite "S" true,
          .error ("The generated terraform code is invalid. " ++
            "This is a bug in mach composer. Please report the issue at " ++
            "https://github.com/mach-composer/mach-composer-cli"),
          .mkdirAll "out/main/S" true, .writeFile "out/main/S/site.tf" "# site S" true,
          .lockUpdate "S" true, .writeLock "S" true] }
    rfl rfl rfl trivial rfl rfl rfl).2

theorem WriteFiles_step {σ L : Type} (env : WriteEnv σ L) (cfg : MachConfig)
    (options : GenerateOptions) (s : σ) (pre post : List SiteConfig) (site : SiteConfig)
    (w : World σ) (hsites : cfg.Sites = pre ++ site :: post)
    (hpre : sitesLoop env cfg options (FileLocations env cfg options) pre (initialWorld cfg s) =
      (w, none)) :
    WriteFiles env cfg options s =
      (match writeSite env cfg options (FileLocations env cfg options) w site with
       | (w1, some err) => (w1, .error err)
       | (w1, none) =>
         match sitesLoop env cfg options (FileLocations env cfg options) post w1 with
         | (w3, some err) => (w3, .error err)
         | (w3, none) => (w3, .ok (FileLocations env cfg options))) := by
  rw [WriteFiles_after_sites env cfg options s pre (site :: post) w hsites hpre]
  simp only [sitesLoop]
  cases writeSite env cfg options (FileLocations env cfg options) w site with
  | mk w1 o => cases o <;> rfl

theorem WriteFiles_keeps_step_events {σ L : Type} (env : WriteEnv σ L) (cfg : MachConfig)
    (options : GenerateOptions) (s : σ) (pre post : List SiteConfig) (site : SiteConfig)
    (w : World σ) (hsites : cfg.Sites = pre ++ site :: post)
    (hpre : sitesLoop env cfg options (FileLocations env cfg options) pre (initialWorld cfg s) =
      (w, none))
    (e : Event)
    (he : e ∈ (writeSite env cfg options (FileLocations env cfg options) w site).1.trace) :
    e ∈ (WriteFiles env cfg options s).1.trace := by
  rw [WriteFiles_step env cfg options s pre post site w hsites hpre]
  cases hstep : writeSite env cfg options (FileLocations env cfg options) w site with
  | mk w1 o =>
    rw [hstep] at he
    cases o with
    | some err => exact he
    | none =>
      dsimp only
      obtain ⟨evs, h1, _⟩ := sitesLoop_writeFile env cfg options
        (FileLocations env cfg options) post w1
      have hmem : e ∈ (sitesLoop env cfg options (FileLocations env cfg options) post
          w1).1.trace := by
        rw [h1]
        exact List.mem_append_left _ he
      cases hloop : sitesLoop env cfg options (FileLocations env cfg options) post w1 with
      | mk w3 o3 =>
        rw [hloop] at hmem
        cases o3 <;> exact hmem

/-- C10: the keys of the map returned by `FileLocations` are exactly the identifiers of the
selected sites (all sites when `options.Site` is empty, otherwise those whose identifier is
`options.Site`); each key maps to the join of `OutputPath`, the base name of `cfg.Filename`
without its extension, and the key; every file `WriteFiles` writes is the `site.tf` inside
the location of a selected site and holds the formatted rendering of that site; and when
`WriteFiles` reaches a selected site with changes, renders it and creates its directory, it
calls `os.WriteFile` on `site.tf` inside that location with the formatted rendering: the
file system that call leaves is the one `WriteFiles` stops in when the call fails, and the
one the copies and the lock commit start from when it succeeds. -/
theorem FileLocations_layout {σ L : Type} (env : WriteEnv σ L) (cfg : MachConfig)
    (options : GenerateOptions) :
    (∀ k, k ∈ (FileLocations env cfg options).map Prod.fst ↔
      ∃ site ∈ cfg.Sites,
        (options.Site = "" ∨ site.Identifier = options.Site) ∧ site.Identifier = k) ∧
    ((FileLocations env cfg options).map Prod.fst).Nodup ∧
    (∀ k v, mapFind (FileLocations env cfg options) k = some v →
      v = env.Join
        (env.Join options.OutputPath
          (stringsTrimSuffix (env.Base cfg.Filename) (env.Ext cfg.Filename))) k) ∧
    (∀ s f d ok, Event.writeFile f d ok ∈ (WriteFiles env cfg options s).1.trace →
      ∃ site ∈ cfg.Sites, (options.Site = "" ∨ site.Identifier = options.Site) ∧
        mapFind (FileLocations env cfg options) site.Identifier =
          some (env.Join
            (env.Join options.OutputPath
              (stringsTrimSuffix (env.Base cfg.Filename) (env.Ext cfg.Filename)))
            site.Identifier) ∧
        f = env.Join
          (env.Join
            (env.Join options.OutputPath
              (stringsTrimSuffix (env.Base cfg.Filename) (env.Ext cfg.Filename)))
            site.Identifier) "site.tf" ∧
        ∃ repo body, env.renderSite { cfg with StateRepository := repo } site = .ok body ∧
          d = formatFile env body) ∧
    (∀ (s : σ) (pre post : List SiteConfig) (site : SiteConfig) (w : World σ)
      (renderer : Renderer) (repo : StateRepository) (lock : L) (body path filename : String)
      (s1 s2 : σ) (o : Option Error),
      cfg.Sites = pre ++ site :: post →
      sitesLoop env cfg options (FileLocations env cfg options) pre (initialWorld cfg s) =
        (w, none) →
      (options.Site = "" ∨ site.Identifier = options.Site) →
      path = env.Join
        (env.Join options.OutputPath
          (stringsTrimSuffix (env.Base cfg.Filename) (env.Ext cfg.Filename)))
        site.Identifier →
      filename = env.Join path "site.tf" →
      env.NewRenderer cfg.TerraformStateProvider site.Identifier cfg.TerraformRemoteState =
        .ok renderer →
      env.Add w.repo renderer.Key renderer = .ok repo →
      env.GetLock { cfg with StateRepository := repo } w.ext path = .ok lock →
      env.HasChanges lock { cfg with StateRepository := repo } = true →
      env.renderSite { cfg with StateRepository := repo } site = .ok body →
      env.MkdirAll w.ext path = (s1, none) →
      env.WriteFile s1 filename (formatFile env body) = (s2, o) →
      Event.writeFile filename (formatFile env body) o.isNone ∈
          (WriteFiles env cfg options s).1.trace ∧
        (∀ err, o = some err →
          WriteFiles env cfg options s =
            ({ ext := s2, repo := repo,
               trace := w.trace ++
                 ([.addRenderer site.Identifier renderer.Key, .info ("Writing " ++ filename),
                     .renderSite site.Identifier true] ++
                   validationLog env (formatFile env body) ++
                   [.mkdirAll path true, .writeFile filename (formatFile env body) false]) },
              .error ("error writing file: " ++ err))) ∧
        (o = none →
          writeSite env cfg options (FileLocations env cfg options) w site =
            (match copyLoop env path (cfg.Variables.GetEncryptedSources site.Identifier)
                { ext := s2, repo := repo,
                  trace := w.trace ++
                    ([.addRenderer site.Identifier renderer.Key,
                        .info ("Writing " ++ filename), .renderSite site.Identifier true] ++
                      validationLog env (formatFile env body) ++
                      [.mkdirAll path true,
                        .writeFile filename (formatFile env body) true]) } with
             | (w3, some err) => (w3, some err)
             | (w3, none) => commitLock env { cfg with StateRepository := repo } site lock w3)) ∧
        WriteFiles env cfg options s =
          (match writeSite env cfg options (FileLocations env cfg options) w site with
           | (w1, some err) => (w1, .error err)
           | (w1, none) =>
             match sitesLoop env cfg options (FileLocations env cfg options) post w1 with
             | (w3, some err) => (w3, .error err)
             | (w3, none) => (w3, .ok (FileLocations env cfg options)))) := by
  obtain ⟨h1, h2, h3⟩ := locationsLoop_spec env options (sitesPath env cfg options) cfg.Sites []
  refine ⟨?_, h2 (by simp), ?_, ?_, ?_⟩
  · intro k
    show k ∈ (locationsLoop env options (sitesPath env cfg options) cfg.Sites []).map Prod.fst ↔ _
    rw [h1 k]
    constructor
    · rintro (h | ⟨site, hsite, hskip, hk⟩)
      · simp at h
      · exact ⟨site, hsite, (skipSite_eq_false_iff options site).mp hskip, hk⟩
    · rintro ⟨site, hsite, hsel, hk⟩
      exact Or.inr ⟨site, hsite, (skipSite_eq_false_iff options site).mpr hsel, hk⟩
  · intro k v hv
    exact h3 (by simp) _ (mapFind_mem _ _ _ hv)
  · intro s f d ok hmem
    obtain ⟨evs, he1, he2⟩ := sitesLoop_writeFile env cfg options
      (FileLocations env cfg options) cfg.Sites (initialWorld cfg s)
    have htrace : (WriteFiles env cfg options s).1.trace =
        (sitesLoop env cfg options (FileLocations env cfg options) cfg.Sites
          (initialWorld cfg s)).1.trace := by
      unfold WriteFiles
      dsimp only
      cases sitesLoop env cfg options (FileLocations env cfg options) cfg.Sites
          (initialWorld cfg s) with
      | mk w3 o => cases o <;> rfl
    rw [htrace, he1] at hmem
    simp only [initialWorld, List.nil_append] at hmem
    obtain ⟨site, hsite, hskip, hf, hbody⟩ := he2 f d ok hmem
    have hfind := FileLocations_find env cfg options site hsite hskip
    refine ⟨site, hsite, (skipSite_eq_false_iff options site).mp hskip, hfind, ?_, hbody⟩
    rw [hf, mapGet, hfind]
    rfl
  · intro s pre post site w renderer repo lock body path filename s1 s2 o hsites hpre hsel
      hpath hfilename hnew hadd hlock hchanges hrender hmk hwf
    obtain ⟨hsite, _⟩ := mem_of_split pre post site cfg.Sites hsites
    have hskip := (skipSite_eq_false_iff options site).mpr hsel
    have hfind := FileLocations_find env cfg options site hsite hskip
    have hget : path = mapGet (FileLocations env cfg options) site.Identifier := by
      rw [mapGet, hfind, hpath]
      rfl
    subst hget
    subst hfilename
    have hrun := WriteFiles_step env cfg options s pre post site w hsites hpre
    have hstep := writeSite_rendered env cfg options _ w site renderer repo lock body hnew hadd
      hsel hlock hchanges hrender
    have hfailed : ∀ err, o = some err →
        writeSite env cfg options (FileLocations env cfg options) w site =
          ({ ext := s2, repo := repo,
             trace := w.trace ++
               ([.addRenderer site.Identifier renderer.Key,
                   .info ("Writing " ++
                     env.Join (mapGet (FileLocations env cfg options) site.Identifier)
                       "site.tf"),
                   .renderSite site.Identifier true] ++
                 validationLog env (formatFile env body) ++
                 [.mkdirAll (mapGet (FileLocations env cfg options) site.Identifier) true,
                   .writeFile
                     (env.Join (mapGet (FileLocations env cfg options) site.Identifier)
                       "site.tf")
                     (formatFile env body) false]) },
            some ("error writing file: " ++ err)) := by
      intro err ho
      subst ho
      rw [hstep, writeOutput_write_fails env { cfg with StateRepository := repo } site _ _ _
        lock
        { ext := w.ext, repo := repo,
          trace := (w.trace ++ [.addRenderer site.Identifier renderer.Key]) ++
            ([.info ("Writing " ++
                env.Join (mapGet (FileLocations env cfg options) site.Identifier) "site.tf"),
              .renderSite site.Identifier true] ++ validationLog env (formatFile env body)) }
        s1 s2 err hmk hwf]
      simp
    have hwritten : o = none →
        writeSite env cfg options (FileLocations env cfg options) w site =
          (match copyLoop env (mapGet (FileLocations env cfg options) site.Identifier)
              (cfg.Variables.GetEncryptedSources site.Identifier)
              { ext := s2, repo := repo,
                trace := w.trace ++
                  ([.addRenderer site.Identifier renderer.Key,
                      .info ("Writing " ++
                        env.Join (mapGet (FileLocations env cfg options) site.Identifier)
                          "site.tf"),
                      .renderSite site.Identifier true] ++
                    validationLog env (formatFile env body) ++
                    [.mkdirAll (mapGet (FileLocations env cfg options) site.Identifier) true,
                      .writeFile
                        (env.Join (mapGet (FileLocations env cfg options) site.Identifier)
                          "site.tf")
                        (formatFile env body) true]) } with
           | (w3, some err) => (w3, some err)
           | (w3, none) => commitLock env { cfg with StateRepository := repo } site lock w3) := by
      intro ho
      subst ho
      rw [hstep, writeOutput_written env { cfg with StateRepository := repo } site _ _ _
        lock
        { ext := w.ext, repo := repo,
          trace := (w.trace ++ [.addRenderer site.Identifier renderer.Key]) ++
            ([.info ("Writing " ++
                env.Join (mapGet (FileLocations env cfg options) site.Identifier) "site.tf"),
              .renderSite site.Identifier true] ++ validationLog env (formatFile env body)) }
        s1 s2 hmk hwf]
      simp
    refine ⟨?_, ?_, hwritten, hrun⟩
    · apply WriteFiles_keeps_step_events env cfg options s pre post site w hsites hpre
      cases o with
      | some err =>
        rw [hfailed err rfl]
        simp
      | none =>
        rw [hwritten rfl]
        obtain ⟨cevs, hc1, _⟩ := copyLoop_shape env
          (mapGet (FileLocations env cfg options) site.Identifier)
          (cfg.Variables.GetEncryptedSources site.Identifier)
          { ext := s2, repo := repo,
            trace := w.trace ++
              ([.addRenderer site.Identifier renderer.Key,
                  .info ("Writing " ++
                    env.Join (mapGet (FileLocations env cfg options) site.Identifier)
                      "site.tf"),
                  .renderSite site.Identifier true] ++
                validationLog env (formatFile env body) ++
                [.mkdirAll (mapGet (FileLocations env cfg options) site.Identifier) true,
                  .writeFile
                    (env.Join (mapGet (FileLocations env cfg options) site.Identifier)
                      "site.tf")
                    (formatFile env body) true]) }
        cases hcl : copyLoop env (mapGet (FileLocations env cfg options) site.Identifier)
            (cfg.Variables.GetEncryptedSources site.Identifier)
            { ext := s2, repo := repo,
              trace := w.trace ++
                ([.addRenderer site.Identifier renderer.Key,
                    .info ("Writing " ++
                      env.Join (mapGet (FileLocations env cfg options) site.Identifier)
                        "site.tf"),
                    .renderSite site.Identifier true] ++
                  validationLog env (formatFile env body) ++
                  [.mkdirAll (mapGet (FileLocations env cfg options) site.Identifier) true,
                    .writeFile
                      (env.Join (mapGet (FileLocations env cfg options) site.Identifier)
                        "site.tf")
                      (formatFile env body) true]) } with
        | mk w3 o3 =>
          rw [hcl] at hc1
          have hin3 : Event.writeFile
              (env.Join (mapGet (FileLocations env cfg options) site.Identifier) "site.tf")
              (formatFile env body) true ∈ w3.trace := by
            rw [hc1]
            simp
          cases o3 with
          | some err => exact hin3
          | none =>
            dsimp only
            obtain ⟨kevs, hk1, _⟩ := commitLock_shape env { cfg with StateRepository := repo }
              site lock w3
            rw [hk1]
            exact List.mem_append_left _ hin3
    · intro err ho
      rw [hrun, hfailed err ho]

/-- C10 at site `S` of the configuration `conf/main.yml` with output path `out`, after the
clean site `A`: `WriteFiles` writes `out/main/S/site.tf`, and the file is in the file
system it leaves. -/
theorem FileLocations_layout_witness :
    Event.writeFile "out/main/S/site.tf" "# site S" true ∈
        (WriteFiles (exampleWriteEnv [] false) twoSiteConfig allSites cleanAFS).1.trace ∧
      (WriteFiles (exampleWriteEnv [] false) twoSiteConfig allSites cleanAFS).1.ext.files =
        [("out/main/S/site.tf", "# site S")] :=
  ⟨((FileLocations_layout (exampleWriteEnv [] false) twoSiteConfig allSites).2.2.2.2
      cleanAFS [siteA] [] siteS worldAfterA (exampleRenderer "S")
      (exampleAdd worldAfterA.repo "S" (exampleRenderer "S"))
      { path := "out/main/S", hash := none } "# site S" "out/main/S" "out/main/S/site.tf"
      cleanAFS
      { files := [("out/main/S/site.tf", "# site S")]
        locks := [("out/main/A", "fingerprint of conf/main.yml")] }
      none rfl rfl (Or.inl rfl) (by decide) (by decide) rfl rfl rfl rfl rfl rfl rfl).1,
    by decide⟩

end MachComposer
